import Mathlib

/-!
# qtcellink: native menu bar and combo box

A shallow embedding of `src/imports/platform/qquickplatformmenubar.cpp` and
`src/imports/templates/combobox.cpp`.  C++ objects are identified by natural
numbers (their address), a null pointer is `none`, `int` is `Int`, and every
`emit` appends to a trace kept in the state.
-/

namespace QtCellink

/-! ## Qt 5 `QList` operations used by the sources -/

/-- `QList<T>::value(int i)`: the element at `i`, or a default-constructed value
(the null pointer) when `i` is out of bounds. -/
def QList.value {α : Type} (l : List α) (i : Int) : Option α :=
  if i < 0 then none else l.get? i.toNat

/-- `QList<T>::insert(int i, const T &)` of Qt 5: prepends when `i <= 0`, appends
when `i >= size()`, and otherwise inserts before position `i`. -/
def QList.insert {α : Type} (l : List α) (i : Int) (x : α) : List α :=
  if i ≤ 0 then x :: l
  else if (l.length : Int) ≤ i then l ++ [x]
  else l.take i.toNat ++ x :: l.drop i.toNat

/-- `QList<T>::removeOne(const T &)`: removes the first occurrence and reports
whether one was found. -/
def QList.removeOne {α : Type} [DecidableEq α] (l : List α) (x : α) : List α × Bool :=
  if x ∈ l then (l.erase x, true) else (l, false)

/-! ## Native menu container (`QQuickPlatformMenuBar`) -/

/-- A `QQuickPlatformMenu *`, identified by its address. -/
abbrev Menu := Nat

/-- A `QWindow *`, identified by its address. -/
abbrev Window := Nat

/-- A `QPlatformMenu *`: the native handle that belongs to a menu. -/
structure PlatformMenu where
  ofMenu : Menu
  deriving DecidableEq, Repr

/-- An entry of `m_data`: a `QObject *` that is a menu or some other object. -/
inductive DataObject where
  | menu (m : Menu)
  | other (id : Nat)
  deriving DecidableEq, Repr

/-- An ancestor on the `parent()` chain, as seen by the two `qobject_cast`s of
`findWindow`: a `QWindow`, a `QQuickItem` with its `window()`, or neither. -/
inductive Ancestor where
  | window (w : Window)
  | item (window : Option Window)
  | object
  deriving DecidableEq, Repr

/-- The signals of the menu bar. -/
inductive MenuBarSignal where
  | menusChanged
  | windowChanged
  deriving DecidableEq, Repr

/-- The `QPlatformMenuBar` behind `m_handle`: its native menus in bar order and
the window it was last reparented to. -/
structure PlatformMenuBar where
  menus : List PlatformMenu
  window : Option Window
  deriving DecidableEq, Repr

/-- `QPlatformMenuBar::insertMenu(menu, before)`: places `menu` immediately before
`before`, or at the end when `before` is null (or not a child of the bar). -/
def PlatformMenuBar.insertMenu (b : PlatformMenuBar) (h : PlatformMenu)
    (before : Option PlatformMenu) : PlatformMenuBar :=
  match before with
  | none => { b with menus := b.menus ++ [h] }
  | some x =>
    if x ∈ b.menus then
      { b with menus := b.menus.take (b.menus.indexOf x) ++ h :: b.menus.drop (b.menus.indexOf x) }
    else { b with menus := b.menus ++ [h] }

/-- `QPlatformMenuBar::removeMenu(menu)`: deletes `menu` from the bar; a null
handle deletes nothing. -/
def PlatformMenuBar.removeMenu (b : PlatformMenuBar) (h : Option PlatformMenu) :
    PlatformMenuBar :=
  match h with
  | none => b
  | some x => { b with menus := b.menus.erase x }

/-- `QPlatformMenuBar::handleReparent(window)`. -/
def PlatformMenuBar.handleReparent (b : PlatformMenuBar) (w : Option Window) :
    PlatformMenuBar :=
  { b with window := w }

/-- The menu bar together with the part of the object world its methods touch.
`self` is `this`; `menuBarOf m` is the back-reference `m->menuBar()`;
`hasHandle m` says whether `m->handle()` is non-null; `deleted` lists the menus
destroyed by `delete`; `emitted` is the trace of emitted signals, oldest first;
`parents` is the chain `parent()`, `parent()->parent()`, ... -/
structure MenuBar where
  self : Nat
  m_handle : Option PlatformMenuBar
  m_menus : List Menu
  m_data : List DataObject
  m_window : Option Window
  m_complete : Bool
  parents : List Ancestor
  menuBarOf : Menu → Option Nat
  hasHandle : Menu → Bool
  synced : List Menu
  deleted : List Menu
  emitted : List MenuBarSignal

namespace MenuBar

/-- Modelled from the spec: `QQuickPlatformMenu::setMenuBar` is declared outside
the given sources; it stores the menu's back-reference. -/
def setMenuBarOf (s : MenuBar) (m : Menu) (bar : Option Nat) : MenuBar :=
  { s with menuBarOf := Function.update s.menuBarOf m bar }

/-- Modelled from the spec: `QQuickPlatformMenu::create` is declared outside the
given sources; it creates or obtains the menu's native handle and returns it. -/
def createHandle (s : MenuBar) (m : Menu) : MenuBar × PlatformMenu :=
  ({ s with hasHandle := Function.update s.hasHandle m true }, ⟨m⟩)

/-- Modelled from the spec: `QQuickPlatformMenu::handle` is declared outside the
given sources; it returns the menu's native handle, null when none was created. -/
def handleOf (s : MenuBar) (m : Menu) : Option PlatformMenu :=
  if s.hasHandle m then some ⟨m⟩ else none

/-- `emit sig`. -/
def emit (s : MenuBar) (sig : MenuBarSignal) : MenuBar :=
  { s with emitted := s.emitted ++ [sig] }

/-- `QQuickPlatformMenuBar::setWindow`. -/
def setWindow (s : MenuBar) (window : Option Window) : MenuBar :=
  if s.m_window = window then s
  else
    let s1 : MenuBar := match s.m_handle with
      | some h => { s with m_handle := some (h.handleReparent window) }
      | none => s
    let s2 : MenuBar := { s1 with m_window := window }
    s2.emit .windowChanged

/-- `QQuickPlatformMenuBar::insertMenu`. -/
def insertMenu (s : MenuBar) (index : Int) (menu : Option Menu) : MenuBar :=
  match menu with
  | none => s
  | some m =>
    if m ∈ s.m_menus then s
    else
      let before : Option Menu := QList.value s.m_menus index
      let s1 : MenuBar := { s with m_menus := QList.insert s.m_menus index m }
      let s2 : MenuBar := { s1 with m_data := s1.m_data ++ [DataObject.menu m] }
      let s3 : MenuBar := s2.setMenuBarOf m (some s2.self)
      let s4 : MenuBar := match s3.m_handle with
        | some h =>
          let r := s3.createHandle m
          let beforeHandle : Option PlatformMenu := match before with
            | some b => r.1.handleOf b
            | none => none
          { r.1 with m_handle := some (h.insertMenu r.2 beforeHandle) }
        | none => s3
      s4.emit .menusChanged

/-- `QQuickPlatformMenuBar::addMenu`. -/
def addMenu (s : MenuBar) (menu : Option Menu) : MenuBar :=
  s.insertMenu s.m_menus.length menu

/-- `QQuickPlatformMenuBar::removeMenu`. -/
def removeMenu (s : MenuBar) (menu : Option Menu) : MenuBar :=
  match menu with
  | none => s
  | some m =>
    let r := QList.removeOne s.m_menus m
    if r.2 = false then s
    else
      let s1 : MenuBar := { s with m_menus := r.1 }
      let s2 : MenuBar := { s1 with m_data := (QList.removeOne s1.m_data (DataObject.menu m)).1 }
      let s3 : MenuBar := match s2.m_handle with
        | some h => { s2 with m_handle := some (h.removeMenu (s2.handleOf m)) }
        | none => s2
      let s4 : MenuBar := s3.setMenuBarOf m none
      s4.emit .menusChanged

/-- One iteration of the loop of `clear` for the menu `m`. -/
def clearOne (s : MenuBar) (m : Menu) : MenuBar :=
  let s1 : MenuBar := { s with m_data := (QList.removeOne s.m_data (DataObject.menu m)).1 }
  let s2 : MenuBar := match s1.m_handle with
    | some h => { s1 with m_handle := some (h.removeMenu (s1.handleOf m)) }
    | none => s1
  let s3 : MenuBar := s2.setMenuBarOf m none
  { s3 with deleted := s3.deleted ++ [m] }

/-- `QQuickPlatformMenuBar::clear`. -/
def clear (s : MenuBar) : MenuBar :=
  if s.m_menus.isEmpty then s
  else
    let s1 : MenuBar := s.m_menus.foldl clearOne s
    let s2 : MenuBar := { s1 with m_menus := [] }
    s2.emit .menusChanged

/-- `QQuickPlatformMenuBar::findWindow`, walking the parent chain `obj`. -/
def findWindowFrom : List Ancestor → Option Window
  | [] => none
  | .window w :: _ => some w
  | .item (some w) :: _ => some w
  | .item none :: rest => findWindowFrom rest
  | .object :: rest => findWindowFrom rest

/-- `QQuickPlatformMenuBar::findWindow`. -/
def findWindow (s : MenuBar) : Option Window :=
  findWindowFrom s.parents

/-- `QQuickPlatformMenuBar::componentComplete`; `menu->sync()` is recorded in
`synced`. -/
def componentComplete (s : MenuBar) : MenuBar :=
  let s1 : MenuBar := { s with m_complete := true }
  let s2 : MenuBar := { s1 with synced := s1.synced ++ s1.m_menus }
  if s2.m_window = none then s2.setWindow s2.findWindow else s2

/-- The destructor `~QQuickPlatformMenuBar`: detaches every menu and deletes the
native handle. -/
def destroy (s : MenuBar) : MenuBar :=
  let s1 : MenuBar := s.m_menus.foldl (fun t m => t.setMenuBarOf m none) s
  { s1 with m_handle := none }

/-- A call of one of the public mutators. -/
inductive Op where
  | insertMenu (index : Int) (menu : Option Menu)
  | addMenu (menu : Option Menu)
  | removeMenu (menu : Option Menu)
  | clear
  | setWindow (window : Option Window)
  deriving DecidableEq, Repr

/-- Performs one call. -/
def step (s : MenuBar) : Op → MenuBar
  | .insertMenu i m => s.insertMenu i m
  | .addMenu m => s.addMenu m
  | .removeMenu m => s.removeMenu m
  | .clear => s.clear
  | .setWindow w => s.setWindow w

/-- Performs a sequence of calls, first to last. -/
def run (s : MenuBar) (ops : List Op) : MenuBar :=
  ops.foldl step s

/-- The state right after the constructor, with native handle `handle` (null on
platforms without native menu bars) and parent chain `parents`.  `backrefs`
gives the back-references the existing menus hold, to other bars. -/
def construct (self : Nat) (handle : Option PlatformMenuBar) (parents : List Ancestor)
    (backrefs : Menu → Option Nat) : MenuBar :=
  { self := self, m_handle := handle, m_menus := [], m_data := [], m_window := none,
    m_complete := false, parents := parents, menuBarOf := backrefs,
    hasHandle := fun _ => false, synced := [], deleted := [], emitted := [] }

/-- The native menus of the platform bar, as the menus they belong to; `none`
when the container has no native handle. -/
def nativeOrder (s : MenuBar) : Option (List Menu) :=
  s.m_handle.map (fun h => h.menus.map PlatformMenu.ofMenu)

/-- The part of the state held in memory by the container and its menus,
leaving out everything native. -/
structure InMemory where
  self : Nat
  menus : List Menu
  data : List DataObject
  window : Option Window
  menuBarOf : Menu → Option Nat
  deleted : List Menu
  emitted : List MenuBarSignal

/-- The in-memory part of a state. -/
def inMemory (s : MenuBar) : InMemory :=
  { self := s.self, menus := s.m_menus, data := s.m_data, window := s.m_window, menuBarOf := s.menuBarOf,
    deleted := s.deleted, emitted := s.emitted }

/-- The back-reference of a menu points to this bar exactly when the menu is in
the sequence. -/
def BackRefsExact (s : MenuBar) : Prop :=
  ∀ m, s.menuBarOf m = some s.self ↔ m ∈ s.m_menus

/-- The index handed to `insertMenu` is not negative (other calls carry none). -/
def Op.indexNonneg : Op → Prop
  | .insertMenu i _ => 0 ≤ i
  | _ => True

/-- The container has a native handle whose menus are the handles of the menu
sequence, in the same order; the sequence has no duplicates and each of its
menus has its native handle. -/
def Mirrored (s : MenuBar) : Prop :=
  s.m_menus.Nodup
    ∧ (∃ h, s.m_handle = some h ∧ h.menus = s.m_menus.map PlatformMenu.mk)
    ∧ ∀ m ∈ s.m_menus, s.hasHandle m = true

/-- A freshly constructed bar with address 1, a native handle, no parent, and no
menu referring to any bar. -/
def sampleBar : MenuBar :=
  construct 1 (some { menus := [], window := none }) [] (fun _ => none)

/-- The state of `sampleBar` after `addMenu(10)` and `addMenu(20)`. -/
def sampleBar2 : MenuBar :=
  run sampleBar [Op.addMenu (some 10), Op.addMenu (some 20)]

end MenuBar

end QtCellink

namespace QtCellink

/-! ## Selectable-list control (`ComboBox`, `ComboBoxPrivate`) -/

/-- A `QChar`: one UTF-16 code unit, as its number. -/
abbrev QChar := Nat

/-- A `QString`: a sequence of UTF-16 code units.  `QString::length()` is the
length of the sequence, `isEmpty()` says that it is empty, `+` appends. -/
abbrev QString := List QChar

/-- The UTF-16 code units of a character: one unit below U+10000, a surrogate
pair from there on. -/
def QString.ofChar (c : Char) : QString :=
  if c.toNat < 0x10000 then [c.toNat]
  else [0xD800 + (c.toNat - 0x10000) / 0x400, 0xDC00 + (c.toNat - 0x10000) % 0x400]

/-- The `QString` holding the UTF-16 encoding of a text. -/
def QString.ofString (s : String) : QString :=
  s.data.flatMap QString.ofChar

/-- A text written as a literal stands for its `QString`. -/
instance : Coe String QString := ⟨QString.ofString⟩

/-- A row of the delegate model as `textAt` sees it: whether `object(index)`
yields an object, and the strings `stringValue(index, role)` returns per role
(the empty string for a role not listed). -/
structure Row where
  object : Bool
  values : List (QString × QString)
  deriving DecidableEq, Repr

/-- A row whose `modelData` string is `text`. -/
def Row.ofText (text : QString) : Row :=
  { object := true, values := [("modelData", text)] }

/-- The `QQmlInstanceModel` behind `delegateModel`: the rows it holds and whether
it is complete.  A `QQmlDelegateModel` created by the control is completed by
`componentComplete()`; until then it exposes no rows (its count is 0) and
reports nothing.  A model handed in by the user counts as complete, with the rows
it exposes now. -/
structure InstanceModel where
  rows : List Row
  complete : Bool := true
  deriving DecidableEq, Repr

/-- `QQmlInstanceModel::count()`. -/
def InstanceModel.count (m : InstanceModel) : Int :=
  if m.complete then m.rows.length else 0

/-- `QQmlInstanceModel::stringValue(index, role)`. -/
def InstanceModel.stringValue (m : InstanceModel) (index : Int) (role : QString) : QString :=
  match QList.value m.rows index with
  | some row => (row.values.lookup role).getD []
  | none => []

/-- `QQmlInstanceModel::object(index)`: whether an object is returned. -/
def InstanceModel.object (m : InstanceModel) (index : Int) : Bool :=
  match QList.value m.rows index with
  | some row => row.object
  | none => false

/-- The `QVariant` handed to `setModel`: invalid, a `QQmlInstanceModel *` (with
its address and the rows it exposes), or a plain value collection (with the
rows a delegate model built over it exposes once it is complete). -/
inductive QVariant where
  | invalid
  | instanceModel (id : Nat) (rows : List Row)
  | collection (rows : List Row)
  deriving DecidableEq, Repr

/-- The `QQuickPopup` of the control. -/
structure Popup where
  visible : Bool
  deriving DecidableEq, Repr

/-- `ComboBoxPrivate::ExtraData` (the part the index and text logic uses). -/
structure ExtraData where
  editable : Bool := false
  accepting : Bool := false
  allowComplete : Bool := false
  editText : QString := []
  deriving DecidableEq, Repr

/-- The signals of the control, and the requests it sends to its popup. -/
inductive ComboSignal where
  | modelChanged
  | delegateModelChanged
  | countChanged
  | currentIndexChanged
  | highlightedIndexChanged
  | currentTextChanged
  | displayTextChanged
  | editTextChanged
  | pressedChanged
  | downChanged
  | activated (index : Int)
  | highlighted (index : Int)
  | accepted
  | popupOpen
  | popupClose
  deriving DecidableEq, Repr

/-- `enum Activation { NoActivate, Activate }`. -/
inductive Activation where
  | NoActivate
  | Activate
  deriving DecidableEq, Repr

/-- `enum Highlighting { NoHighlight, Highlight }`. -/
inductive Highlighting where
  | NoHighlight
  | Highlight
  deriving DecidableEq, Repr

/-- The keys told apart by `keyPressEvent` and `keyReleaseEvent`. -/
inductive Key where
  | Key_Escape
  | Key_Back
  | Key_Space
  | Key_Enter
  | Key_Return
  | Key_Up
  | Key_Down
  | Key_Home
  | Key_End
  | Key_Other
  deriving DecidableEq, Repr

/-- A `QKeyEvent`. -/
structure KeyEvent where
  key : Key
  text : QString
  isAutoRepeat : Bool
  deriving DecidableEq, Repr

/-- The state of a `ComboBox` with its private part.  Three fields stand for the
Qt library: `regExp pattern cs wildcard t` is
`QRegExp(pattern, cs[, Wildcard]).exactMatch(t)`; `foldCase s` is the sequence of
case-folded values that a `Qt::CaseInsensitive` comparison gives the code units
of `s`, in order; `containsFolded t text` is `t.contains(text,
Qt::CaseInsensitive)`.  `emitted` is the trace of signals and popup requests,
oldest first. -/
structure ComboBox where
  componentComplete : Bool
  down : Bool
  hasDown : Bool
  pressed : Bool
  ownModel : Bool
  keyNavigating : Bool
  hasDisplayText : Bool
  hasCurrentIndex : Bool
  highlightedIndex : Int
  currentIndex : Int
  model : QVariant
  textRole : QString
  currentText : QString
  displayText : QString
  delegateModel : Option InstanceModel
  popup : Option Popup
  extra : Option ExtraData
  regExp : QString → Bool → Bool → QString → Bool
  foldCase : QString → QString
  containsFolded : QString → QString → Bool
  emitted : List ComboSignal

/-! ### `QString` comparisons and `Qt::MatchFlags` -/

/-- `QString::compare(text, cs) == 0`: with `Qt::CaseSensitive` the two strings
are equal; with `Qt::CaseInsensitive` they have the same length and the same
case-folded values, `fold` being the folding of the library. -/
def QString.compareEq (fold : QString → QString) (t text : QString) (cs : Bool) : Bool :=
  if cs then t = text else (t.length = text.length ∧ fold t = fold text)

/-- `QString::startsWith(text, cs)`: `text` is not longer than the string and
compares equal to `left(text.length())`. -/
def QString.startsWith (fold : QString → QString) (t text : QString) (cs : Bool) : Bool :=
  text.length ≤ t.length ∧ QString.compareEq fold (t.take text.length) text cs

/-- `QString::endsWith(text, cs)`: `text` is not longer than the string and
compares equal to `right(text.length())`. -/
def QString.endsWith (fold : QString → QString) (t text : QString) (cs : Bool) : Bool :=
  text.length ≤ t.length ∧ QString.compareEq fold (t.drop (t.length - text.length)) text cs

/-- `QString::contains(text, cs)`: with `Qt::CaseSensitive`, `text` occurs in the
string; with `Qt::CaseInsensitive` the answer of the library. -/
def QString.contains (containsFolded : QString → QString → Bool) (t text : QString)
    (cs : Bool) : Bool :=
  if cs then t.tails.any (fun u => text.isPrefixOf u) else containsFolded t text

/-- A case folding for texts in ASCII: the letters A to Z go to a to z.  The
sample controls use it; on their texts it agrees with the folding of Qt. -/
def QString.foldAscii (s : QString) : QString :=
  s.map (fun u => if 65 ≤ u ∧ u ≤ 90 then u + 32 else u)

/-- The case-insensitive `contains` of the sample controls: the folded text occurs
in the folded string. -/
def QString.containsAscii (t text : QString) : Bool :=
  (QString.foldAscii t).tails.any (fun u => (QString.foldAscii text).isPrefixOf u)

/-- `Qt::MatchExactly`. -/
def Qt.MatchExactly : Nat := 0
/-- `Qt::MatchStartsWith`. -/
def Qt.MatchStartsWith : Nat := 2
/-- `Qt::MatchEndsWith`. -/
def Qt.MatchEndsWith : Nat := 3
/-- `Qt::MatchRegExp`. -/
def Qt.MatchRegExp : Nat := 4
/-- `Qt::MatchWildcard`. -/
def Qt.MatchWildcard : Nat := 5
/-- `Qt::MatchFixedString`. -/
def Qt.MatchFixedString : Nat := 8
/-- `Qt::MatchCaseSensitive`. -/
def Qt.MatchCaseSensitive : Nat := 16
/-- `Qt::MatchWrap`. -/
def Qt.MatchWrap : Nat := 32

end QtCellink

namespace QtCellink

namespace ComboBox

/-- `emit sig` (also used to record `popup->open()` and `popup->close()`). -/
def emit (d : ComboBox) (sig : ComboSignal) : ComboBox :=
  { d with emitted := d.emitted ++ [sig] }

/-- `ComboBox::count`. -/
def count (d : ComboBox) : Int :=
  match d.delegateModel with
  | some m => m.count
  | none => 0

/-- `ComboBox::isEditable`. -/
def isEditable (d : ComboBox) : Bool :=
  match d.extra with
  | some e => e.editable
  | none => false

/-- `ComboBox::editText`. -/
def editText (d : ComboBox) : QString :=
  match d.extra with
  | some e => e.editText
  | none => []

/-- `ComboBox::setEditText`; `extra.value()` allocates the extra data on demand. -/
def setEditText (d : ComboBox) (text : QString) : ComboBox :=
  if text = d.editText then d
  else
    let e : ExtraData := d.extra.getD {}
    let d1 : ComboBox := { d with extra := some { e with editText := text } }
    d1.emit .editTextChanged

/-- `ComboBox::textAt`. -/
def textAt (d : ComboBox) (index : Int) : QString :=
  match d.delegateModel with
  | none => []
  | some m =>
    if index < 0 ∨ index ≥ m.count then []
    else if m.object index then
      m.stringValue index (if d.textRole.isEmpty then "modelData" else d.textRole)
    else []

/-- `ComboBox::setDown`. -/
def setDown (d : ComboBox) (down : Bool) : ComboBox :=
  let d1 : ComboBox := { d with hasDown := true }
  if d1.down = down then d1
  else
    let d2 : ComboBox := { d1 with down := down }
    d2.emit .downChanged

end ComboBox

namespace ComboBoxPrivate

open ComboBox

/-- `ComboBoxPrivate::isPopupVisible`. -/
def isPopupVisible (d : ComboBox) : Bool :=
  match d.popup with
  | some p => p.visible
  | none => false

/-- `ComboBoxPrivate::updateCurrentText`; `setAccessibleName` leaves this state
untouched. -/
def updateCurrentText (d : ComboBox) : ComboBox :=
  let text : QString := d.textAt d.currentIndex
  let d1 : ComboBox :=
    if d.currentText ≠ text then
      let t : ComboBox := { d with currentText := text }
      t.emit .currentTextChanged
    else d
  let d2 : ComboBox :=
    if !d1.hasDisplayText ∧ d1.displayText ≠ text then
      let t : ComboBox := { d1 with displayText := text }
      t.emit .displayTextChanged
    else d1
  match d2.extra with
  | none => d2.setEditText d2.currentText
  | some e => if !e.accepting then d2.setEditText d2.currentText else d2

/-- `ComboBoxPrivate::setCurrentIndex`. -/
def setCurrentIndex (d : ComboBox) (index : Int) (activate : Activation) : ComboBox :=
  if d.currentIndex = index then d
  else
    let d1 : ComboBox := { d with currentIndex := index }
    let d2 : ComboBox := d1.emit .currentIndexChanged
    let d3 : ComboBox := if d2.componentComplete then updateCurrentText d2 else d2
    match activate with
    | .Activate => d3.emit (.activated index)
    | .NoActivate => d3

/-- `ComboBoxPrivate::setHighlightedIndex`. -/
def setHighlightedIndex (d : ComboBox) (index : Int) (highlight : Highlighting) : ComboBox :=
  if d.highlightedIndex = index then d
  else
    let d1 : ComboBox := { d with highlightedIndex := index }
    let d2 : ComboBox := d1.emit .highlightedIndexChanged
    match highlight with
    | .Highlight => d2.emit (.highlighted index)
    | .NoHighlight => d2

/-- `ComboBoxPrivate::updateHighlightedIndex`; `vis` is `popup->isVisible()`. -/
def updateHighlightedIndex (d : ComboBox) (vis : Bool) : ComboBox :=
  setHighlightedIndex d (if vis then d.currentIndex else -1) .NoHighlight

end ComboBoxPrivate

namespace ComboBox

/-- `ComboBox::setCurrentIndex`. -/
def setCurrentIndex (d : ComboBox) (index : Int) : ComboBox :=
  let d1 : ComboBox := { d with hasCurrentIndex := true }
  ComboBoxPrivate.setCurrentIndex d1 index .NoActivate

/-- `ComboBox::setPressed`. -/
def setPressed (d : ComboBox) (pressed : Bool) : ComboBox :=
  if d.pressed = pressed then d
  else
    let d1 : ComboBox := { d with pressed := pressed }
    let d2 : ComboBox := d1.emit .pressedChanged
    if !d2.hasDown then
      let d3 : ComboBox := d2.setDown (d2.pressed || ComboBoxPrivate.isPopupVisible d2)
      { d3 with hasDown := false }
    else d2

end ComboBox

namespace ComboBoxPrivate

open ComboBox

/-- `ComboBoxPrivate::showPopup`; `popup->open()` is recorded as a request. -/
def showPopup (d : ComboBox) : ComboBox :=
  match d.popup with
  | some p => if !p.visible then d.emit .popupOpen else d
  | none => d

/-- `ComboBoxPrivate::hidePopup`; `popup->close()` is recorded as a request. -/
def hidePopup (d : ComboBox) (accept : Bool) : ComboBox :=
  let d1 : ComboBox :=
    if accept then
      let t : ComboBox := d.setCurrentIndex d.highlightedIndex
      t.emit (.activated t.currentIndex)
    else d
  match d1.popup with
  | some p => if p.visible then d1.emit .popupClose else d1
  | none => d1

/-- `ComboBoxPrivate::togglePopup`. -/
def togglePopup (d : ComboBox) (accept : Bool) : ComboBox :=
  if !isPopupVisible d then showPopup d else hidePopup d accept

/-- `ComboBoxPrivate::popupVisibleChanged`, the slot run when the popup reports
a visibility change; the calls on the input method and on the item view leave
this state untouched.  The slot is connected only while a popup is set. -/
def popupVisibleChanged (d : ComboBox) : ComboBox :=
  match d.popup with
  | none => d
  | some p =>
    let d1 : ComboBox := updateHighlightedIndex d p.visible
    if !d1.hasDown then
      let d2 : ComboBox := d1.setDown (d1.pressed || isPopupVisible d1)
      { d2 with hasDown := false }
    else d1

/-- `ComboBoxPrivate::itemClicked`; `index` is `delegateModel->indexOf(sender)`. -/
def itemClicked (d : ComboBox) (index : Int) : ComboBox :=
  if index ≠ -1 then
    let d1 : ComboBox := setHighlightedIndex d index .Highlight
    hidePopup d1 true
  else d

/-- `ComboBoxPrivate::itemHovered`; `hovered` says that the sender is a button
that is hovered by the mouse, `index` is `delegateModel->indexOf(button)`. -/
def itemHovered (d : ComboBox) (hovered : Bool) (index : Int) : ComboBox :=
  if d.keyNavigating then d
  else if !hovered then d
  else if index ≠ -1 then setHighlightedIndex d index .Highlight
  else d

/-- `ComboBoxPrivate::modelUpdated`. -/
def modelUpdated (d : ComboBox) : ComboBox :=
  match d.extra with
  | none => updateCurrentText d
  | some e => if !e.accepting then updateCurrentText d else d

/-- `ComboBoxPrivate::countChanged`. -/
def countChanged (d : ComboBox) : ComboBox :=
  let d1 : ComboBox := if d.count = 0 then d.setCurrentIndex (-1) else d
  d1.emit .countChanged

/-- The test of the `switch (matchType)` in `ComboBoxPrivate::match` for the row
text `t`. -/
def rowMatches (d : ComboBox) (matchType : Nat) (cs : Bool) (text t : QString) : Bool :=
  if matchType = Qt.MatchExactly then t = text
  else if matchType = Qt.MatchRegExp then d.regExp text cs false t
  else if matchType = Qt.MatchWildcard then d.regExp text cs true t
  else if matchType = Qt.MatchStartsWith then QString.startsWith d.foldCase t text cs
  else if matchType = Qt.MatchEndsWith then QString.endsWith d.foldCase t text cs
  else if matchType = Qt.MatchFixedString then QString.compareEq d.foldCase t text cs
  else QString.contains d.containsFolded t text cs

/-- The inner loop of `ComboBoxPrivate::match`: the first `idx` with
`from <= idx < to` (here `first`, `stop`) whose row text passes the test. -/
def matchRange (d : ComboBox) (matchType : Nat) (cs : Bool) (text : QString)
    (first stop : Int) : Option Int :=
  ((List.range (stop - first).toNat).map (fun (k : Nat) => first + (k : Int))).find?
    (fun idx => rowMatches d matchType cs text (d.textAt idx))

/-- `ComboBoxPrivate::match`. -/
def match_ (d : ComboBox) (start : Int) (text : QString) (flags : Nat) : Int :=
  let matchType : Nat := flags &&& 0x0F
  let wrap : Bool := flags &&& Qt.MatchWrap ≠ 0
  let cs : Bool := flags &&& Qt.MatchCaseSensitive ≠ 0
  match matchRange d matchType cs text start d.count with
  | some idx => idx
  | none =>
    if wrap then
      match matchRange d matchType cs text 0 start with
      | some idx => idx
      | none => -1
    else -1

/-- `ComboBoxPrivate::keySearch`. -/
def keySearch (d : ComboBox) (text : QString) : ComboBox :=
  let startIndex : Int := if isPopupVisible d then d.highlightedIndex else d.currentIndex
  let index : Int := match_ d (startIndex + 1) text (Qt.MatchStartsWith ||| Qt.MatchWrap)
  if index ≠ -1 then
    if isPopupVisible d then setHighlightedIndex d index .Highlight
    else setCurrentIndex d index .Activate
  else d

/-- Sets `extra->allowComplete` when the extra data is allocated. -/
def setAllowComplete (d : ComboBox) (b : Bool) : ComboBox :=
  match d.extra with
  | some e => { d with extra := some { e with allowComplete := b } }
  | none => d

/-- `ComboBoxPrivate::incrementCurrentIndex`. -/
def incrementCurrentIndex (d : ComboBox) : ComboBox :=
  let d1 : ComboBox := setAllowComplete d false
  let d2 : ComboBox :=
    if isPopupVisible d1 then
      if d1.highlightedIndex < d1.count - 1 then
        setHighlightedIndex d1 (d1.highlightedIndex + 1) .Highlight
      else d1
    else
      if d1.currentIndex < d1.count - 1 then
        setCurrentIndex d1 (d1.currentIndex + 1) .Activate
      else d1
  setAllowComplete d2 true

/-- `ComboBoxPrivate::decrementCurrentIndex`. -/
def decrementCurrentIndex (d : ComboBox) : ComboBox :=
  let d1 : ComboBox := setAllowComplete d false
  let d2 : ComboBox :=
    if isPopupVisible d1 then
      if d1.highlightedIndex > 0 then
        setHighlightedIndex d1 (d1.highlightedIndex - 1) .Highlight
      else d1
    else
      if d1.currentIndex > 0 then
        setCurrentIndex d1 (d1.currentIndex - 1) .Activate
      else d1
  setAllowComplete d2 true

/-- `ComboBoxPrivate::createDelegateModel`: binds the instance model held by the
variant, or builds an owned delegate model over a valid plain value; the owned
model is completed at once only when the control is complete, and before the
control connects to its signals. -/
def createDelegateModel (d : ComboBox) : ComboBox :=
  let d1 : ComboBox := { d with ownModel := false }
  let d2 : ComboBox :=
    match d1.model with
    | .instanceModel _ rows => { d1 with delegateModel := some { rows := rows } }
    | .collection rows =>
      { d1 with ownModel := true,
                delegateModel := some { rows := rows, complete := d1.componentComplete } }
    | .invalid => { d1 with delegateModel := none }
  d2.emit .delegateModelChanged

end ComboBoxPrivate

namespace ComboBox

open ComboBoxPrivate

/-- `ComboBox::setModel`. -/
def setModel (d : ComboBox) (model : QVariant) : ComboBox :=
  if d.model = model then d
  else
    let d1 : ComboBox := { d with model := model }
    let d2 : ComboBox := createDelegateModel d1
    let d3 : ComboBox :=
      if d2.componentComplete then
        let t : ComboBox := d2.setCurrentIndex (if d2.count > 0 then 0 else -1)
        updateCurrentText t
      else d2
    d3.emit .modelChanged

/-- `ComboBox::find`. -/
def find (d : ComboBox) (text : QString) (flags : Nat) : Int :=
  match_ d 0 text flags

/-- `ComboBox::incrementCurrentIndex`. -/
def incrementCurrentIndex (d : ComboBox) : ComboBox :=
  ComboBoxPrivate.incrementCurrentIndex d

/-- `ComboBox::decrementCurrentIndex`. -/
def decrementCurrentIndex (d : ComboBox) : ComboBox :=
  ComboBoxPrivate.decrementCurrentIndex d

/-- `ComboBox::keyPressEvent`. -/
def keyPressEvent (d : ComboBox) (event : KeyEvent) : ComboBox :=
  match event.key with
  | .Key_Escape | .Key_Back => d
  | .Key_Space => if !event.isAutoRepeat then d.setPressed true else d
  | .Key_Enter | .Key_Return => if isPopupVisible d then d.setPressed true else d
  | .Key_Up =>
    let d1 : ComboBox := { d with keyNavigating := true }
    ComboBoxPrivate.decrementCurrentIndex d1
  | .Key_Down =>
    let d1 : ComboBox := { d with keyNavigating := true }
    ComboBoxPrivate.incrementCurrentIndex d1
  | .Key_Home =>
    let d1 : ComboBox := { d with keyNavigating := true }
    if isPopupVisible d1 then setHighlightedIndex d1 0 .Highlight
    else ComboBoxPrivate.setCurrentIndex d1 0 .Activate
  | .Key_End =>
    let d1 : ComboBox := { d with keyNavigating := true }
    if isPopupVisible d1 then setHighlightedIndex d1 (d1.count - 1) .Highlight
    else ComboBoxPrivate.setCurrentIndex d1 (d1.count - 1) .Activate
  | .Key_Other =>
    if !d.isEditable ∧ !event.text.isEmpty then keySearch d event.text else d

/-- `ComboBox::keyReleaseEvent`. -/
def keyReleaseEvent (d : ComboBox) (event : KeyEvent) : ComboBox :=
  let d1 : ComboBox := { d with keyNavigating := false }
  if event.isAutoRepeat then d1
  else
    match event.key with
    | .Key_Space =>
      let d2 : ComboBox := if !d1.isEditable then togglePopup d1 true else d1
      d2.setPressed false
    | .Key_Enter | .Key_Return =>
      let d2 : ComboBox :=
        if !d1.isEditable ∨ isPopupVisible d1 then hidePopup d1 (isPopupVisible d1) else d1
      d2.setPressed false
    | .Key_Escape | .Key_Back =>
      if isPopupVisible d1 then
        let d2 : ComboBox := hidePopup d1 false
        d2.setPressed false
      else d1
    | _ => d1

/-- The control right after construction, with `popup` as its popup and the three
library functions. -/
def construct (popup : Option Popup) (regExp : QString → Bool → Bool → QString → Bool)
    (foldCase : QString → QString) (containsFolded : QString → QString → Bool) : ComboBox :=
  { componentComplete := false, down := false, hasDown := false, pressed := false,
    ownModel := false, keyNavigating := false, hasDisplayText := false,
    hasCurrentIndex := false, highlightedIndex := -1, currentIndex := -1,
    model := .invalid, textRole := [], currentText := [], displayText := [],
    delegateModel := none, popup := popup, extra := none, regExp := regExp,
    foldCase := foldCase, containsFolded := containsFolded, emitted := [] }

/-- What can happen to the control: calls of its public interface, input events,
and notifications from its popup and its delegate model.  `popupVisible v` is the
popup becoming visible (or hidden) and reporting it; `modelCount rows` is the
delegate model changing its rows to `rows` and reporting `countChanged` (as a
model that is complete does). -/
inductive Event where
  | setModel (model : QVariant)
  | setCurrentIndex (index : Int)
  | incrementCurrentIndex
  | decrementCurrentIndex
  | keyPress (event : KeyEvent)
  | keyRelease (event : KeyEvent)
  | popupVisible (visible : Bool)
  | modelCount (rows : List Row)
  | itemClicked (index : Nat)
  | itemHovered (index : Nat)

/-- The popup changes its visibility and the connected slot runs. -/
def onPopupVisible (d : ComboBox) (visible : Bool) : ComboBox :=
  match d.popup with
  | none => d
  | some p =>
    if p.visible = visible then d
    else popupVisibleChanged { d with popup := some { p with visible := visible } }

/-- The delegate model replaces its rows and the connected slot runs. -/
def onModelCount (d : ComboBox) (rows : List Row) : ComboBox :=
  match d.delegateModel with
  | none => d
  | some m => countChanged { d with delegateModel := some { m with rows := rows } }

/-- The index `delegateModel->indexOf(item)` of the item created for row `index`:
`-1` when the model has no such row. -/
def indexOfItem (d : ComboBox) (index : Nat) : Int :=
  if (index : Int) < d.count then index else -1

/-- Handles one event. -/
def step (d : ComboBox) : Event → ComboBox
  | .setModel m => d.setModel m
  | .setCurrentIndex i => d.setCurrentIndex i
  | .incrementCurrentIndex => d.incrementCurrentIndex
  | .decrementCurrentIndex => d.decrementCurrentIndex
  | .keyPress e => d.keyPressEvent e
  | .keyRelease e => d.keyReleaseEvent e
  | .popupVisible v => d.onPopupVisible v
  | .modelCount rows => d.onModelCount rows
  | .itemClicked i => itemClicked d (d.indexOfItem i)
  | .itemHovered i => itemHovered d true (d.indexOfItem i)

/-- Handles a sequence of events, first to last. -/
def run (d : ComboBox) (events : List Event) : ComboBox :=
  events.foldl step d

/-- An index is `-1` or lies in `[0, count)`. -/
def ValidIndex (index count : Int) : Prop :=
  index = -1 ∨ (0 ≤ index ∧ index < count)

instance (index count : Int) : Decidable (ValidIndex index count) :=
  inferInstanceAs (Decidable (index = -1 ∨ (0 ≤ index ∧ index < count)))

end ComboBox

end QtCellink

namespace QtCellink

namespace ComboBox

/-- The number of rows the delegate model created for a variant exposes on a
control that is complete. -/
def QVariant.rowCount : QVariant → Int
  | .invalid => 0
  | .instanceModel _ rows => rows.length
  | .collection rows => rows.length

/-- The number of rows the delegate model created for a variant exposes, on a
control that is complete or not: a delegate model built over a plain value on a
control that is not complete exposes none until the control completes. -/
def QVariant.exposedCount (m : QVariant) (complete : Bool) : Int :=
  match m with
  | .invalid => 0
  | .instanceModel _ rows => rows.length
  | .collection rows => if complete then rows.length else 0

/-- Whether a key release accepts the highlighted row when the popup is visible:
Space on a control that is not editable, Enter and Return, unless the event is an
auto-repeat. -/
def acceptsHighlighted (d : ComboBox) (e : KeyEvent) : Bool :=
  !e.isAutoRepeat
    && ((e.key = Key.Key_Space && !d.isEditable) || e.key = Key.Key_Enter
        || e.key = Key.Key_Return)

/-- The events under which the current index stays `-1` or in `[0, count)`:
`setCurrentIndex` is given such an index; `setModel` is given the current model,
or finds the control complete, or gives a model that exposes more rows than the
current index; Home with the popup closed comes only when there is a row; a key
release that accepts the highlighted row of a visible popup finds a highlighted
index that is `-1` or in `[0, count)`; the model's count goes to 0 or stays above
the current index. -/
def AdmitsCurrent (d : ComboBox) : Event → Prop
  | .setModel m =>
    d.model = m ∨ d.componentComplete = true
      ∨ ValidIndex d.currentIndex (QVariant.exposedCount m d.componentComplete)
  | .setCurrentIndex i => ValidIndex i d.count
  | .keyPress e =>
    e.key = Key.Key_Home → ComboBoxPrivate.isPopupVisible d = false → 0 < d.count
  | .keyRelease e =>
    acceptsHighlighted d e = true → ComboBoxPrivate.isPopupVisible d = true →
      ValidIndex d.highlightedIndex d.count
  | .modelCount rows => rows = [] ∨ d.currentIndex < rows.length
  | _ => True

/-- Every event of the sequence is admitted, in the state it arrives in. -/
def AdmitsCurrentRun : ComboBox → List Event → Prop
  | _, [] => True
  | d, e :: es => AdmitsCurrent d e ∧ AdmitsCurrentRun (d.step e) es

/-- The events under which the highlighted index stays `-1` or in `[0, count)`:
`setModel` is given the current model or one that exposes more rows than the
highlighted index; Home with the popup visible comes only when there is a row;
the popup becomes visible only while the current index is `-1` or in
`[0, count)`; the model's count stays above the highlighted index. -/
def AdmitsHighlighted (d : ComboBox) : Event → Prop
  | .setModel m =>
    d.model = m
      ∨ ValidIndex d.highlightedIndex (QVariant.exposedCount m d.componentComplete)
  | .keyPress e =>
    e.key = Key.Key_Home → ComboBoxPrivate.isPopupVisible d = true → 0 < d.count
  | .popupVisible v => v = true → ValidIndex d.currentIndex d.count
  | .modelCount rows => ValidIndex d.highlightedIndex rows.length
  | _ => True

/-- Every event of the sequence is admitted, in the state it arrives in. -/
def AdmitsHighlightedRun : ComboBox → List Event → Prop
  | _, [] => True
  | d, e :: es => AdmitsHighlighted d e ∧ AdmitsHighlightedRun (d.step e) es

/-- Whether an event is admitted can be computed. -/
instance decAdmitsCurrent (d : ComboBox) : (e : Event) → Decidable (AdmitsCurrent d e)
  | .setModel m => inferInstanceAs (Decidable
      (d.model = m ∨ d.componentComplete = true
        ∨ ValidIndex d.currentIndex (QVariant.exposedCount m d.componentComplete)))
  | .setCurrentIndex i => inferInstanceAs (Decidable (ValidIndex i d.count))
  | .keyPress e => inferInstanceAs (Decidable
      (e.key = Key.Key_Home → ComboBoxPrivate.isPopupVisible d = false → 0 < d.count))
  | .keyRelease e => inferInstanceAs (Decidable
      (acceptsHighlighted d e = true → ComboBoxPrivate.isPopupVisible d = true →
        ValidIndex d.highlightedIndex d.count))
  | .modelCount rows => inferInstanceAs (Decidable (rows = [] ∨ d.currentIndex < rows.length))
  | .incrementCurrentIndex => isTrue trivial
  | .decrementCurrentIndex => isTrue trivial
  | .popupVisible _ => isTrue trivial
  | .itemClicked _ => isTrue trivial
  | .itemHovered _ => isTrue trivial

/-- Whether a sequence of events is admitted can be computed. -/
instance decAdmitsCurrentRun : (d : ComboBox) → (es : List Event) →
    Decidable (AdmitsCurrentRun d es)
  | _, [] => isTrue trivial
  | d, e :: es =>
    @instDecidableAnd _ _ (decAdmitsCurrent d e) (decAdmitsCurrentRun (d.step e) es)

/-- Whether an event is admitted can be computed. -/
instance decAdmitsHighlighted (d : ComboBox) : (e : Event) → Decidable (AdmitsHighlighted d e)
  | .setModel m => inferInstanceAs (Decidable
      (d.model = m
        ∨ ValidIndex d.highlightedIndex (QVariant.exposedCount m d.componentComplete)))
  | .keyPress e => inferInstanceAs (Decidable
      (e.key = Key.Key_Home → ComboBoxPrivate.isPopupVisible d = true → 0 < d.count))
  | .popupVisible v => inferInstanceAs (Decidable
      (v = true → ValidIndex d.currentIndex d.count))
  | .modelCount rows => inferInstanceAs (Decidable (ValidIndex d.highlightedIndex rows.length))
  | .setCurrentIndex _ => isTrue trivial
  | .incrementCurrentIndex => isTrue trivial
  | .decrementCurrentIndex => isTrue trivial
  | .keyRelease _ => isTrue trivial
  | .itemClicked _ => isTrue trivial
  | .itemHovered _ => isTrue trivial

/-- Whether a sequence of events is admitted can be computed. -/
instance decAdmitsHighlightedRun : (d : ComboBox) → (es : List Event) →
    Decidable (AdmitsHighlightedRun d es)
  | _, [] => isTrue trivial
  | d, e :: es =>
    @instDecidableAnd _ _ (decAdmitsHighlighted d e) (decAdmitsHighlightedRun (d.step e) es)

/-- The rows Apple, Banana, Apricot. -/
def fruitRows : List Row :=
  [Row.ofText "Apple", Row.ofText "Banana", Row.ofText "Apricot"]

/-- A control right after construction with a hidden popup, a library that folds
ASCII letters and regular expressions that match nothing. -/
def newBox : ComboBox :=
  construct (some { visible := false }) (fun _ _ _ _ => false) QString.foldAscii
    QString.containsAscii

/-- A completed control with a hidden popup and no model. -/
def sampleBox : ComboBox :=
  { newBox with componentComplete := true }

end ComboBox

end QtCellink

namespace QtCellink

/-- `QString::mid(position)`: the part of the string from `position` on. -/
def QString.mid (s : QString) (position : Nat) : QString :=
  s.drop position

namespace ComboBoxPrivate

open ComboBox

/-- The body of the loop of `ComboBoxPrivate::tryComplete` for the row `idx`,
where `m` is the value of `match` so far. -/
def tryCompleteStep (d : ComboBox) (input : QString) (m : QString) (idx : Nat) : QString :=
  let text : QString := d.textAt idx
  if !QString.startsWith d.foldCase text input false then m
  else if m.isEmpty ∨ text.length < m.length then text
  else m

/-- The value of `match` after the loop of `ComboBoxPrivate::tryComplete`. -/
def tryCompleteMatch (d : ComboBox) (input : QString) : QString :=
  (List.range d.count.toNat).foldl (tryCompleteStep d input) []

/-- `ComboBoxPrivate::tryComplete`. -/
def tryComplete (d : ComboBox) (input : QString) : QString :=
  let m : QString := tryCompleteMatch d input
  if m.isEmpty then input
  else input ++ QString.mid m input.length

/-- `QQmlDelegateModel::componentComplete()` on the owned delegate model, with the
slots of the control that are connected to it: a model that is not complete yet
becomes complete and exposes its rows; when it has rows it emits `modelUpdated`
and then `countChanged`, which run `ComboBoxPrivate::modelUpdated` and
`ComboBoxPrivate::countChanged`.  The engine completes a control once; on a
model that is complete already nothing is done. -/
def completeOwnedModel (d : ComboBox) : ComboBox :=
  match d.delegateModel with
  | none => d
  | some m =>
    if m.complete then d
    else
      let d1 : ComboBox := { d with delegateModel := some { m with complete := true } }
      if m.rows.isEmpty then d1
      else countChanged (modelUpdated d1)

end ComboBoxPrivate

namespace ComboBox

open ComboBoxPrivate

/-- `ComboBox::componentComplete` (the field `componentComplete` is the flag of
the same name in the item's private data).  `QQuickControl::componentComplete`
marks the item complete; then the delegate model is completed when the control
owns it. -/
def componentComplete_ (d : ComboBox) : ComboBox :=
  let d1 : ComboBox := { d with componentComplete := true }
  let d2 : ComboBox := if d1.ownModel then completeOwnedModel d1 else d1
  if d2.count > 0 then
    if !d2.hasCurrentIndex ∧ d2.currentIndex = -1 then d2.setCurrentIndex 0
    else updateCurrentText d2
  else d2

/-- The order in which a wrapping search from `start` over `count` rows is said to
visit the rows: `start, start+1, ..., count-1, 0, 1, ..., start-1`. -/
def cyclicOrderSpec (start count : Nat) : List Nat :=
  List.range' start (count - start) ++ List.range start

/-- A control that has not completed construction, with a hidden popup and the
instance model 1 exposing the rows Apple, Banana, Apricot. -/
def incompleteBox : ComboBox :=
  newBox.setModel (.instanceModel 1 fruitRows)

/-- A completed control over the rows Apple, Banana, Apricot. -/
def fruitBox : ComboBox :=
  sampleBox.setModel (.collection fruitRows)

/-- A completed control over the rows Alpha, Alphabet, Beta. -/
def greekBox : ComboBox :=
  sampleBox.setModel (.collection [Row.ofText "Alpha", Row.ofText "Alphabet", Row.ofText "Beta"])

/-- A completed control over one row for which the adapter yields no object,
although its `modelData` string is Apple. -/
def noObjectBox : ComboBox :=
  sampleBox.setModel (.collection [{ object := false, values := [("modelData", "Apple")] }])

/-- A control that has not completed construction, with a hidden popup, given
the plain rows Apple, Banana, Apricot, over which it builds its own delegate
model. -/
def ownedIncompleteBox : ComboBox :=
  newBox.setModel (.collection fruitRows)

end ComboBox

end QtCellink

namespace QtCellink

/-! ## Editable mode: the text input, the event filter, input-confirm -/

/-- The `QQuickTextInput` used as content item: its text, its selection
(`selectionStart <= selectionEnd`, equal when nothing is selected) and its
cursor position.  Positions count UTF-16 code units, as `QString` does. -/
structure TextInput where
  text : QString
  selectionStart : Nat
  selectionEnd : Nat
  cursorPosition : Nat
  deriving DecidableEq, Repr

/-- The change `QQuickTextInput::setText(s)` makes to the widget when `s` differs
from its text: the text is replaced, the selection is dropped and the cursor
moves to the end. -/
def TextInput.withText (input : TextInput) (s : QString) : TextInput :=
  { input with text := s, selectionStart := s.length, selectionEnd := s.length,
               cursorPosition := s.length }

/-- `QQuickTextInput::select(start, end)`: selects the text between the two
positions and puts the cursor at `end`; out of range positions change nothing. -/
def TextInput.select (input : TextInput) (start stop : Nat) : TextInput :=
  if input.text.length < start ∨ input.text.length < stop then input
  else
    { input with selectionStart := min start stop, selectionEnd := max start stop,
                 cursorPosition := stop }

/-- `QQuickTextInput::selectedText()`. -/
def TextInput.selectedText (input : TextInput) : QString :=
  (input.text.drop input.selectionStart).take (input.selectionEnd - input.selectionStart)

/-- The keys told apart by `eventFilter`. -/
inductive FilterKey where
  | Key_Backspace
  | Key_Delete
  | Key_Other
  deriving DecidableEq, Repr

/-- The events told apart by `ComboBox::eventFilter`.  `filtered` is the result
of `d->filterKeyEvent(ke, false)`; `commitString` is that of the input method
event. -/
inductive FilterEvent where
  | MouseButtonRelease
  | KeyPress (key : FilterKey) (filtered : Bool)
  | FocusOut
  | InputMethod (commitString : QString)
  | Other
  deriving DecidableEq, Repr

namespace ComboBoxPrivate

open ComboBox

/-- The test `extra.isAllocated() && extra->allowComplete`. -/
def allowComplete (d : ComboBox) : Bool :=
  match d.extra with
  | some e => e.allowComplete
  | none => false

/-- The test `extra.isAllocated() && extra->accepting`. -/
def accepting (d : ComboBox) : Bool :=
  match d.extra with
  | some e => e.accepting
  | none => false

/-- `extra.value()`: allocates the extra data when it is not allocated yet. -/
def allocExtra (d : ComboBox) : ComboBox :=
  { d with extra := some (d.extra.getD {}) }

/-- `extra.value().accepting = b`. -/
def setAccepting (d : ComboBox) (b : Bool) : ComboBox :=
  { d with extra := some { (d.extra.getD {}) with accepting := b } }

/-- `ComboBoxPrivate::updateEditText` for the content item `contentItem` (null when
it is no text input).  `input->setText(completed)` changes the text, so the
widget emits `textChanged` and this slot runs again inside the call; `fuel`
bounds that nesting, and `none` says that it was used up. -/
def updateEditText : Nat → ComboBox → Option TextInput → Option (ComboBox × Option TextInput)
  | 0, _, _ => none
  | _ + 1, d, none => some (d, none)
  | fuel + 1, d, some input =>
    let text : QString := input.text
    if allowComplete d ∧ !text.isEmpty then
      let completed : QString := tryComplete d text
      if completed.length > text.length then
        let afterSetText : Option (ComboBox × Option TextInput) :=
          if completed = input.text then some (d, some input)
          else updateEditText fuel d (some (input.withText completed))
        match afterSetText with
        | some (d1, some input1) => some (d1, some (input1.select completed.length text.length))
        | some (d1, none) => some (d1, none)
        | none => none
      else some (d.setEditText text, some input)
    else some (d.setEditText text, some input)

/-- The index `idx` computed at the start of `ComboBoxPrivate::acceptInput`. -/
def acceptInputIndex (d : ComboBox) : Int :=
  (allocExtra d).find (allocExtra d).editText Qt.MatchFixedString

/-- The state in which `ComboBoxPrivate::acceptInput` emits `accepted`: the index
found is set, `accepting` is true and the signal is on the trace. -/
def acceptInputEmitting (d : ComboBox) : ComboBox :=
  let d0 : ComboBox := allocExtra d
  let idx : Int := acceptInputIndex d
  let d1 : ComboBox := if idx > -1 then d0.setCurrentIndex idx else d0
  let d2 : ComboBox := setAccepting d1 true
  d2.emit .accepted

/-- `ComboBoxPrivate::acceptInput`; `accepted` is what the handlers connected to
the signal `accepted` do to the control while it is emitted. -/
def acceptInput (d : ComboBox) (accepted : ComboBox → ComboBox) : ComboBox :=
  let idx : Int := acceptInputIndex d
  let d3 : ComboBox := accepted (acceptInputEmitting d)
  let d4 : ComboBox :=
    if idx = -1 then
      (allocExtra d3).setCurrentIndex ((allocExtra d3).find (allocExtra d3).editText
        Qt.MatchFixedString)
    else d3
  setAccepting d4 false

end ComboBoxPrivate

namespace ComboBox

open ComboBoxPrivate

/-- `ComboBox::eventFilter` (what it does before handing the event on to
`QQuickControl::eventFilter`). -/
def eventFilter (d : ComboBox) (event : FilterEvent) : ComboBox :=
  match event with
  | .MouseButtonRelease => if isPopupVisible d then hidePopup d false else d
  | .KeyPress key filtered =>
    if filtered then d
    else setAllowComplete d (key ≠ .Key_Backspace ∧ key ≠ .Key_Delete)
  | .FocusOut =>
    let d1 : ComboBox := hidePopup d false
    d1.setPressed false
  | .InputMethod commitString => setAllowComplete d (!commitString.isEmpty)
  | .Other => d

/-- `ComboBox::focusOutEvent`. -/
def focusOutEvent (d : ComboBox) : ComboBox :=
  let d1 : ComboBox := hidePopup d false
  d1.setPressed false

/-- Whether a signal is `activated`, for any index. -/
def ComboSignal.isActivated : ComboSignal → Bool
  | .activated _ => true
  | _ => false

/-- Whether a signal is one of `currentTextChanged`, `displayTextChanged`,
`editTextChanged`. -/
def ComboSignal.isTextChange : ComboSignal → Bool
  | .currentTextChanged => true
  | .displayTextChanged => true
  | .editTextChanged => true
  | _ => false

/-- The trace `after` is `before` followed by `currentIndexChanged`, then by text
change signals only, then by `activated(index)`. -/
def EmitsActivation (before after : List ComboSignal) (index : Int) : Prop :=
  ∃ l, (∀ s ∈ l, ComboSignal.isTextChange s = true)
    ∧ after = before ++ ComboSignal.currentIndexChanged :: l ++ [ComboSignal.activated index]

/-- The indices carried by the `activated` signals of a trace, oldest first. -/
def activations (trace : List ComboSignal) : List Int :=
  trace.filterMap fun s =>
    match s with
    | .activated i => some i
    | _ => none

/-- The case folding respects appending: two strings of the same length with the
same case-folded values still have the same case-folded values after the same
string is appended to both.  Qt folds a string code unit by code unit (a low
surrogate together with the high surrogate before it), so its folding has this
property. -/
def FoldRespectsAppend (fold : QString → QString) : Prop :=
  ∀ a b r : QString, a.length = b.length → fold a = fold b → fold (a ++ r) = fold (b ++ r)

/-- The completed control over Alpha, Alphabet, Beta, made editable, with
completion allowed. -/
def editableBox : ComboBox :=
  { greekBox with
    extra := some { editable := true, accepting := false, allowComplete := true,
                    editText := greekBox.editText } }

/-- A text input holding `text` with the cursor at its end. -/
def inputWith (text : QString) : TextInput :=
  { text := text, selectionStart := text.length, selectionEnd := text.length,
    cursorPosition := text.length }

end ComboBox

end QtCellink

/-! # Theorems -/

namespace QtCellink

/-! ## `QList` -/

theorem QList.insert_eq_take_drop {α : Type} (l : List α) (i : Int) (x : α) :
    QList.insert l i x
      = l.take (min (max i 0) (l.length : Int)).toNat
          ++ x :: l.drop (min (max i 0) (l.length : Int)).toNat := by
  unfold QList.insert
  by_cases h0 : i ≤ 0
  · have hk : (min (max i 0) (l.length : Int)).toNat = 0 := by
      have : max i 0 = 0 := max_eq_right h0
      rw [this]
      have : min (0 : Int) (l.length : Int) = 0 := min_eq_left (by omega)
      rw [this]; rfl
    simp [h0, hk]
  · by_cases h1 : (l.length : Int) ≤ i
    · have hk : (min (max i 0) (l.length : Int)).toNat = l.length := by
        have : max i 0 = i := max_eq_left (by omega)
        rw [this, min_eq_right h1]; simp
      simp [h0, h1, hk]
    · have hk : (min (max i 0) (l.length : Int)).toNat = i.toNat := by
        have : max i 0 = i := max_eq_left (by omega)
        rw [this, min_eq_left (by omega)]
      simp [h0, h1, hk]

theorem QList.clamp_le_length {α : Type} (l : List α) (i : Int) :
    (min (max i 0) (l.length : Int)).toNat ≤ l.length := by
  omega

theorem QList.mem_insert {α : Type} (l : List α) (i : Int) (x y : α) :
    y ∈ QList.insert l i x ↔ y = x ∨ y ∈ l := by
  rw [QList.insert_eq_take_drop]
  constructor
  · intro h
    rcases List.mem_append.1 h with h | h
    · exact Or.inr (List.mem_of_mem_take h)
    · rcases List.mem_cons.1 h with h | h
      · exact Or.inl h
      · exact Or.inr (List.mem_of_mem_drop h)
  · intro h
    rcases h with h | h
    · subst h; simp
    · have : y ∈ l.take (min (max i 0) (l.length : Int)).toNat
          ++ l.drop (min (max i 0) (l.length : Int)).toNat := by
        rw [List.take_append_drop]; exact h
      rcases List.mem_append.1 this with h | h
      · exact List.mem_append.2 (Or.inl h)
      · exact List.mem_append.2 (Or.inr (List.mem_cons_of_mem _ h))

theorem QList.nodup_insert {α : Type} (l : List α) (i : Int) (x : α)
    (hl : l.Nodup) (hx : x ∉ l) : (QList.insert l i x).Nodup := by
  rw [QList.insert_eq_take_drop]
  have hperm : (l.take (min (max i 0) (l.length : Int)).toNat
      ++ x :: l.drop (min (max i 0) (l.length : Int)).toNat).Perm
      (x :: (l.take (min (max i 0) (l.length : Int)).toNat
        ++ l.drop (min (max i 0) (l.length : Int)).toNat)) := List.perm_middle
  rw [hperm.nodup_iff, List.take_append_drop]
  exact List.nodup_cons.2 ⟨hx, hl⟩

theorem QList.erase_insert {α : Type} [DecidableEq α] (l : List α) (i : Int) (x : α)
    (hx : x ∉ l) : (QList.insert l i x).erase x = l := by
  rw [QList.insert_eq_take_drop]
  have hnot : x ∉ l.take (min (max i 0) (l.length : Int)).toNat :=
    fun h => hx (List.mem_of_mem_take h)
  rw [List.erase_append_right _ hnot]
  simp

end QtCellink

namespace QtCellink
namespace MenuBar

/-! ## Field lemmas for the menu bar mutators -/

theorem insertMenu_none (s : MenuBar) (index : Int) : s.insertMenu index none = s := rfl

theorem insertMenu_present (s : MenuBar) (index : Int) (m : Menu) (hm : m ∈ s.m_menus) :
    s.insertMenu index (some m) = s := by
  simp [insertMenu, hm]

theorem insertMenu_menus (s : MenuBar) (index : Int) (m : Menu) (hm : m ∉ s.m_menus) :
    (s.insertMenu index (some m)).m_menus = QList.insert s.m_menus index m := by
  simp only [insertMenu, hm, if_false]
  cases hh : s.m_handle <;> simp [emit, setMenuBarOf, createHandle, hh]

theorem insertMenu_data (s : MenuBar) (index : Int) (m : Menu) (hm : m ∉ s.m_menus) :
    (s.insertMenu index (some m)).m_data = s.m_data ++ [DataObject.menu m] := by
  simp only [insertMenu, hm, if_false]
  cases hh : s.m_handle <;> simp [emit, setMenuBarOf, createHandle, hh]

theorem insertMenu_emitted (s : MenuBar) (index : Int) (m : Menu) (hm : m ∉ s.m_menus) :
    (s.insertMenu index (some m)).emitted = s.emitted ++ [MenuBarSignal.menusChanged] := by
  simp only [insertMenu, hm, if_false]
  cases hh : s.m_handle <;> simp [emit, setMenuBarOf, createHandle, hh]

theorem insertMenu_menuBarOf (s : MenuBar) (index : Int) (m : Menu) (hm : m ∉ s.m_menus) :
    (s.insertMenu index (some m)).menuBarOf = Function.update s.menuBarOf m (some s.self) := by
  simp only [insertMenu, hm, if_false]
  cases hh : s.m_handle <;> simp [emit, setMenuBarOf, createHandle, hh]

theorem insertMenu_self (s : MenuBar) (index : Int) (menu : Option Menu) :
    (s.insertMenu index menu).self = s.self := by
  cases menu with
  | none => rfl
  | some m =>
    by_cases hm : m ∈ s.m_menus
    · rw [insertMenu_present s index m hm]
    · simp only [insertMenu, hm, if_false]
      cases hh : s.m_handle <;> simp [emit, setMenuBarOf, createHandle, hh]

theorem mem_insertMenu (s : MenuBar) (index : Int) (m : Menu) :
    m ∈ (s.insertMenu index (some m)).m_menus := by
  by_cases hm : m ∈ s.m_menus
  · rw [insertMenu_present s index m hm]; exact hm
  · rw [insertMenu_menus s index m hm, QList.mem_insert]; exact Or.inl rfl

end MenuBar
end QtCellink

namespace QtCellink
namespace MenuBar

theorem removeMenu_none (s : MenuBar) : s.removeMenu none = s := rfl

theorem removeMenu_absent (s : MenuBar) (m : Menu) (hm : m ∉ s.m_menus) :
    s.removeMenu (some m) = s := by
  simp [removeMenu, QList.removeOne, hm]

theorem removeMenu_menus (s : MenuBar) (m : Menu) (hm : m ∈ s.m_menus) :
    (s.removeMenu (some m)).m_menus = s.m_menus.erase m := by
  simp only [removeMenu, QList.removeOne, hm, if_true]
  cases hh : s.m_handle <;> simp [emit, setMenuBarOf, hh]

theorem removeMenu_data (s : MenuBar) (m : Menu) (hm : m ∈ s.m_menus) :
    (s.removeMenu (some m)).m_data = s.m_data.erase (DataObject.menu m) := by
  simp only [removeMenu, QList.removeOne, hm, if_true]
  cases hh : s.m_handle <;> by_cases hd : DataObject.menu m ∈ s.m_data <;>
    simp [emit, setMenuBarOf, hh, hd, List.erase_of_not_mem]

theorem removeMenu_emitted (s : MenuBar) (m : Menu) (hm : m ∈ s.m_menus) :
    (s.removeMenu (some m)).emitted = s.emitted ++ [MenuBarSignal.menusChanged] := by
  simp only [removeMenu, QList.removeOne, hm, if_true]
  cases hh : s.m_handle <;> simp [emit, setMenuBarOf, hh]

theorem removeMenu_menuBarOf (s : MenuBar) (m : Menu) (hm : m ∈ s.m_menus) :
    (s.removeMenu (some m)).menuBarOf = Function.update s.menuBarOf m none := by
  simp only [removeMenu, QList.removeOne, hm, if_true]
  cases hh : s.m_handle <;> simp [emit, setMenuBarOf, hh]

theorem removeMenu_deleted (s : MenuBar) (menu : Option Menu) :
    (s.removeMenu menu).deleted = s.deleted := by
  cases menu with
  | none => rfl
  | some m =>
    by_cases hm : m ∈ s.m_menus
    · simp only [removeMenu, QList.removeOne, hm, if_true]
      cases hh : s.m_handle <;> simp [emit, setMenuBarOf, hh]
    · rw [removeMenu_absent s m hm]

theorem removeMenu_self (s : MenuBar) (menu : Option Menu) :
    (s.removeMenu menu).self = s.self := by
  cases menu with
  | none => rfl
  | some m =>
    by_cases hm : m ∈ s.m_menus
    · simp only [removeMenu, QList.removeOne, hm, if_true]
      cases hh : s.m_handle <;> simp [emit, setMenuBarOf, hh]
    · rw [removeMenu_absent s m hm]

theorem clearOne_menus (s : MenuBar) (m : Menu) : (s.clearOne m).m_menus = s.m_menus := by
  unfold clearOne
  cases hh : s.m_handle <;> simp [setMenuBarOf, hh]

theorem clearOne_emitted (s : MenuBar) (m : Menu) : (s.clearOne m).emitted = s.emitted := by
  unfold clearOne
  cases hh : s.m_handle <;> simp [setMenuBarOf, hh]

theorem clearOne_self (s : MenuBar) (m : Menu) : (s.clearOne m).self = s.self := by
  unfold clearOne
  cases hh : s.m_handle <;> simp [setMenuBarOf, hh]

theorem clearOne_menuBarOf (s : MenuBar) (m : Menu) :
    (s.clearOne m).menuBarOf = Function.update s.menuBarOf m none := by
  unfold clearOne
  cases hh : s.m_handle <;> simp [setMenuBarOf, hh]

theorem foldl_clearOne_emitted (l : List Menu) (s : MenuBar) :
    (l.foldl clearOne s).emitted = s.emitted := by
  induction l generalizing s with
  | nil => rfl
  | cons m l ih => rw [List.foldl_cons, ih, clearOne_emitted]

theorem foldl_clearOne_self (l : List Menu) (s : MenuBar) :
    (l.foldl clearOne s).self = s.self := by
  induction l generalizing s with
  | nil => rfl
  | cons m l ih => rw [List.foldl_cons, ih, clearOne_self]

theorem foldl_clearOne_menuBarOf (l : List Menu) (s : MenuBar) (x : Menu) :
    (l.foldl clearOne s).menuBarOf x = if x ∈ l then none else s.menuBarOf x := by
  induction l generalizing s with
  | nil => simp
  | cons m l ih =>
    rw [List.foldl_cons, ih, clearOne_menuBarOf]
    by_cases hx : x ∈ l
    · simp [hx]
    · by_cases hxm : x = m
      · subst hxm; simp [hx]
      · simp [hx, hxm, Function.update_noteq hxm]

theorem clear_empty (s : MenuBar) (h : s.m_menus = []) : s.clear = s := by
  simp [clear, h]

theorem clear_menus (s : MenuBar) : s.clear.m_menus = [] := by
  unfold clear
  by_cases h : s.m_menus.isEmpty
  · simp only [h, if_true]; exact List.isEmpty_iff.1 h
  · simp [h, emit]

theorem clear_emitted (s : MenuBar) (h : s.m_menus ≠ []) :
    s.clear.emitted = s.emitted ++ [MenuBarSignal.menusChanged] := by
  have h2 : s.m_menus.isEmpty = false := by
    cases hm : s.m_menus with
    | nil => exact absurd hm h
    | cons a l => rfl
  simp [clear, h2, emit, foldl_clearOne_emitted]

theorem clear_self (s : MenuBar) : s.clear.self = s.self := by
  unfold clear
  by_cases h : s.m_menus.isEmpty
  · simp [h]
  · simp [h, emit, foldl_clearOne_self]

theorem clear_menuBarOf (s : MenuBar) (x : Menu) :
    s.clear.menuBarOf x = if x ∈ s.m_menus then none else s.menuBarOf x := by
  unfold clear
  by_cases h : s.m_menus.isEmpty
  · have : s.m_menus = [] := List.isEmpty_iff.1 h
    simp [h, this]
  · simp [h, emit, foldl_clearOne_menuBarOf]

theorem setWindow_menus (s : MenuBar) (w : Option Window) : (s.setWindow w).m_menus = s.m_menus := by
  unfold setWindow
  by_cases h : s.m_window = w
  · simp [h]
  · cases hh : s.m_handle <;> simp [h, emit, hh]

theorem setWindow_menuBarOf (s : MenuBar) (w : Option Window) :
    (s.setWindow w).menuBarOf = s.menuBarOf := by
  unfold setWindow
  by_cases h : s.m_window = w
  · simp [h]
  · cases hh : s.m_handle <;> simp [h, emit, hh]

theorem setWindow_self (s : MenuBar) (w : Option Window) : (s.setWindow w).self = s.self := by
  unfold setWindow
  by_cases h : s.m_window = w
  · simp [h]
  · cases hh : s.m_handle <;> simp [h, emit, hh]

end MenuBar
end QtCellink

namespace QtCellink
namespace MenuBar

/-! ## Claims about `insertMenu`, `removeMenu` and `clear` -/

/-- C2: `insertMenu(index, menu)` with a non-null menu that is not yet in the
sequence places it at position `min(max(index, 0), count)` for every integer
`index`, grows the sequence by exactly one, keeps the other menus in their
order, and emits `menusChanged` exactly once. -/
theorem insertMenu_clamps (s : MenuBar) (index : Int) (m : Menu) (hm : m ∉ s.m_menus) :
    (s.insertMenu index (some m)).m_menus
        = s.m_menus.take (min (max index 0) (s.m_menus.length : Int)).toNat
            ++ m :: s.m_menus.drop (min (max index 0) (s.m_menus.length : Int)).toNat
      ∧ (s.insertMenu index (some m)).m_menus.get?
          (min (max index 0) (s.m_menus.length : Int)).toNat = some m
      ∧ (s.insertMenu index (some m)).m_menus.length = s.m_menus.length + 1
      ∧ (s.insertMenu index (some m)).m_menus.erase m = s.m_menus
      ∧ (s.insertMenu index (some m)).emitted = s.emitted ++ [MenuBarSignal.menusChanged] := by
  have hk := QList.clamp_le_length s.m_menus index
  rw [insertMenu_menus s index m hm, insertMenu_emitted s index m hm]
  refine ⟨QList.insert_eq_take_drop _ _ _, ?_, ?_, QList.erase_insert _ _ _ hm, rfl⟩
  · rw [QList.insert_eq_take_drop]
    have hlen : (s.m_menus.take (min (max index 0) (s.m_menus.length : Int)).toNat).length
        = (min (max index 0) (s.m_menus.length : Int)).toNat := by
      rw [List.length_take]; exact min_eq_left hk
    rw [List.get?_eq_getElem?, List.getElem?_append_right (by omega)]
    simp [hlen]
  · rw [QList.insert_eq_take_drop]
    simp only [List.length_append, List.length_cons, List.length_take, List.length_drop]
    omega

/-- Witness of C2: inserting menu 30 at index -3 into the bar holding 10, 20. -/
theorem insertMenu_clamps_witness :
    30 ∉ sampleBar2.m_menus ∧ (sampleBar2.insertMenu (-3) (some 30)).m_menus.length
      = sampleBar2.m_menus.length + 1 :=
  ⟨by decide, (insertMenu_clamps sampleBar2 (-3) 30 (by decide)).2.2.1⟩

/-- C3: `insertMenu` with a null menu, or with a menu already in the sequence,
returns the state unchanged (menu sequence, data list, native handle, every
back-reference, and the signal trace); inserting the same menu a second time
leaves the length of the sequence as it was. -/
theorem insertMenu_rejects (s : MenuBar) (index : Int) (menu : Option Menu)
    (h : menu = none ∨ ∃ m, menu = some m ∧ m ∈ s.m_menus) :
    s.insertMenu index menu = s
      ∧ ∀ (m : Menu) (i j : Int),
          ((s.insertMenu i (some m)).insertMenu j (some m)).m_menus.length
            = (s.insertMenu i (some m)).m_menus.length := by
  constructor
  · rcases h with h | ⟨m, h, hm⟩
    · subst h; rfl
    · subst h; exact insertMenu_present s index m hm
  · intro m i j
    rw [insertMenu_present _ j m (mem_insertMenu s i m)]

/-- Witness of C3: inserting menu 10 again, at index 5, into the bar holding 10, 20. -/
theorem insertMenu_rejects_witness :
    ((some 10 : Option Menu) = none ∨ ∃ m, some 10 = some m ∧ m ∈ sampleBar2.m_menus)
      ∧ sampleBar2.insertMenu 5 (some 10) = sampleBar2 :=
  ⟨Or.inr ⟨10, rfl, by decide⟩,
   (insertMenu_rejects sampleBar2 5 (some 10) (Or.inr ⟨10, rfl, by decide⟩)).1⟩

/-- C4: `clear()` on an empty container returns the state unchanged (nothing is
emitted); on a container with at least one menu it leaves the menu sequence
empty and emits `menusChanged` exactly once, however many menus it held. -/
theorem clear_emits_once (s : MenuBar) :
    (s.m_menus = [] → s.clear = s)
      ∧ (s.m_menus ≠ [] →
          s.clear.m_menus = [] ∧ s.clear.emitted = s.emitted ++ [MenuBarSignal.menusChanged]) :=
  ⟨clear_empty s, fun h => ⟨clear_menus s, clear_emitted s h⟩⟩

/-- Witness of C4: clearing the empty bar and the bar holding 10, 20. -/
theorem clear_emits_once_witness :
    sampleBar.clear = sampleBar
      ∧ sampleBar2.clear.emitted = sampleBar2.emitted ++ [MenuBarSignal.menusChanged] :=
  ⟨(clear_emits_once sampleBar).1 rfl, ((clear_emits_once sampleBar2).2 (by decide)).2⟩

/-- C5: `removeMenu` with a null or absent menu returns the state unchanged; with
a menu of the sequence it removes that menu from the menu sequence and from the
data list, keeps every other menu and their order, clears the removed menu's
back-reference and no other, destroys nothing, and emits `menusChanged` once. -/
theorem removeMenu_removes (s : MenuBar) (m : Menu) :
    s.removeMenu none = s
      ∧ (m ∉ s.m_menus → s.removeMenu (some m) = s)
      ∧ (m ∈ s.m_menus →
          (s.removeMenu (some m)).m_menus = s.m_menus.erase m
          ∧ (s.removeMenu (some m)).m_menus.length + 1 = s.m_menus.length
          ∧ (s.removeMenu (some m)).m_menus.Sublist s.m_menus
          ∧ (∀ x, x ≠ m → (x ∈ (s.removeMenu (some m)).m_menus ↔ x ∈ s.m_menus))
          ∧ (s.m_menus.Nodup → m ∉ (s.removeMenu (some m)).m_menus)
          ∧ (s.removeMenu (some m)).m_data = s.m_data.erase (DataObject.menu m)
          ∧ (s.m_data.Nodup → DataObject.menu m ∉ (s.removeMenu (some m)).m_data)
          ∧ (s.removeMenu (some m)).menuBarOf m = none
          ∧ (∀ x, x ≠ m → (s.removeMenu (some m)).menuBarOf x = s.menuBarOf x)
          ∧ (s.removeMenu (some m)).deleted = s.deleted
          ∧ (s.removeMenu (some m)).emitted = s.emitted ++ [MenuBarSignal.menusChanged]) := by
  refine ⟨rfl, removeMenu_absent s m, fun hm => ?_⟩
  rw [removeMenu_menus s m hm, removeMenu_data s m hm, removeMenu_menuBarOf s m hm,
    removeMenu_emitted s m hm, removeMenu_deleted]
  refine ⟨rfl, ?_, List.erase_sublist m s.m_menus, ?_, ?_, rfl, ?_, ?_, ?_, rfl, rfl⟩
  · rw [List.length_erase_of_mem hm]
    have : 0 < s.m_menus.length := List.length_pos_of_mem hm
    omega
  · intro x hx
    exact List.mem_erase_of_ne hx
  · intro hnd
    exact hnd.not_mem_erase
  · intro hnd
    exact hnd.not_mem_erase
  · simp
  · intro x hx
    exact Function.update_noteq hx _ _

/-- Witness of C5: removing menu 10 from the bar holding 10, 20. -/
theorem removeMenu_removes_witness :
    10 ∈ sampleBar2.m_menus ∧ (sampleBar2.removeMenu (some 10)).m_menus = sampleBar2.m_menus.erase 10
      ∧ (77 ∉ sampleBar2.m_menus ∧ sampleBar2.removeMenu (some 77) = sampleBar2) :=
  ⟨by decide, ((removeMenu_removes sampleBar2 10).2.2 (by decide)).1,
   by decide, (removeMenu_removes sampleBar2 77).2.1 (by decide)⟩

end MenuBar
end QtCellink

namespace QtCellink
namespace MenuBar

/-! ## Reachable states: no duplicates, back-references -/

theorem step_self (s : MenuBar) (op : Op) : (s.step op).self = s.self := by
  cases op with
  | insertMenu i m => exact insertMenu_self s i m
  | addMenu m => exact insertMenu_self s _ m
  | removeMenu m => exact removeMenu_self s m
  | clear => exact clear_self s
  | setWindow w => exact setWindow_self s w

theorem run_self (ops : List Op) (s : MenuBar) : (s.run ops).self = s.self := by
  induction ops generalizing s with
  | nil => rfl
  | cons op ops ih =>
    show ((s.step op).run ops).self = s.self
    rw [ih, step_self]

theorem insertMenu_nodup (s : MenuBar) (index : Int) (menu : Option Menu)
    (hnd : s.m_menus.Nodup) : (s.insertMenu index menu).m_menus.Nodup := by
  cases menu with
  | none => exact hnd
  | some m =>
    by_cases hm : m ∈ s.m_menus
    · rw [insertMenu_present s index m hm]; exact hnd
    · rw [insertMenu_menus s index m hm]; exact QList.nodup_insert _ _ _ hnd hm

theorem removeMenu_nodup (s : MenuBar) (menu : Option Menu)
    (hnd : s.m_menus.Nodup) : (s.removeMenu menu).m_menus.Nodup := by
  cases menu with
  | none => exact hnd
  | some m =>
    by_cases hm : m ∈ s.m_menus
    · rw [removeMenu_menus s m hm]; exact hnd.erase m
    · rw [removeMenu_absent s m hm]; exact hnd

theorem step_nodup (s : MenuBar) (op : Op) (hnd : s.m_menus.Nodup) :
    (s.step op).m_menus.Nodup := by
  cases op with
  | insertMenu i m => exact insertMenu_nodup s i m hnd
  | addMenu m => exact insertMenu_nodup s _ m hnd
  | removeMenu m => exact removeMenu_nodup s m hnd
  | clear => show s.clear.m_menus.Nodup; rw [clear_menus]; exact List.nodup_nil
  | setWindow w => show (s.setWindow w).m_menus.Nodup; rw [setWindow_menus]; exact hnd

theorem insertMenu_backRefs (s : MenuBar) (index : Int) (menu : Option Menu)
    (hb : BackRefsExact s) : BackRefsExact (s.insertMenu index menu) := by
  cases menu with
  | none => exact hb
  | some m =>
    by_cases hm : m ∈ s.m_menus
    · rw [insertMenu_present s index m hm]; exact hb
    · intro x
      rw [insertMenu_self, insertMenu_menus s index m hm, insertMenu_menuBarOf s index m hm,
        QList.mem_insert]
      by_cases hx : x = m
      · subst hx; simp
      · rw [Function.update_noteq hx, hb x]; simp [hx]

theorem removeMenu_backRefs (s : MenuBar) (menu : Option Menu)
    (hnd : s.m_menus.Nodup) (hb : BackRefsExact s) : BackRefsExact (s.removeMenu menu) := by
  cases menu with
  | none => exact hb
  | some m =>
    by_cases hm : m ∈ s.m_menus
    · intro x
      rw [removeMenu_self, removeMenu_menus s m hm, removeMenu_menuBarOf s m hm,
        hnd.mem_erase_iff]
      by_cases hx : x = m
      · subst hx; simp
      · rw [Function.update_noteq hx, hb x]; simp [hx]
    · rw [removeMenu_absent s m hm]; exact hb

theorem clear_backRefs (s : MenuBar) (hb : BackRefsExact s) : BackRefsExact s.clear := by
  intro x
  rw [clear_self, clear_menus, clear_menuBarOf]
  by_cases hx : x ∈ s.m_menus
  · simp [hx]
  · simp only [hx, if_false, List.not_mem_nil, iff_false]
    exact fun h => hx ((hb x).1 h)

theorem setWindow_backRefs (s : MenuBar) (w : Option Window) (hb : BackRefsExact s) :
    BackRefsExact (s.setWindow w) := by
  intro x
  rw [setWindow_self, setWindow_menus, setWindow_menuBarOf]
  exact hb x

theorem step_backRefs (s : MenuBar) (op : Op) (hnd : s.m_menus.Nodup) (hb : BackRefsExact s) :
    BackRefsExact (s.step op) := by
  cases op with
  | insertMenu i m => exact insertMenu_backRefs s i m hb
  | addMenu m => exact insertMenu_backRefs s _ m hb
  | removeMenu m => exact removeMenu_backRefs s m hnd hb
  | clear => exact clear_backRefs s hb
  | setWindow w => exact setWindow_backRefs s w hb

theorem run_nodup_backRefs (ops : List Op) (s : MenuBar) (hnd : s.m_menus.Nodup)
    (hb : BackRefsExact s) : (s.run ops).m_menus.Nodup ∧ BackRefsExact (s.run ops) := by
  induction ops generalizing s with
  | nil => exact ⟨hnd, hb⟩
  | cons op ops ih => exact ih (s.step op) (step_nodup s op hnd) (step_backRefs s op hnd hb)

/-- C6: in every state reached from a newly constructed container (to which no
menu refers yet) by any sequence of `insertMenu`, `addMenu`, `removeMenu`,
`clear` (and `setWindow`), a menu's back-reference points to this container if
and only if the menu is in the container's menu sequence. -/
theorem backref_iff_in_sequence (self : Nat) (handle : Option PlatformMenuBar)
    (parents : List Ancestor) (backrefs : Menu → Option Nat)
    (hnew : ∀ m, backrefs m ≠ some self) (ops : List Op) (m : Menu) :
    ((construct self handle parents backrefs).run ops).menuBarOf m = some self
      ↔ m ∈ ((construct self handle parents backrefs).run ops).m_menus := by
  have h := (run_nodup_backRefs ops (construct self handle parents backrefs)
    List.nodup_nil (fun x => by simp [construct, hnew x])).2 m
  rw [run_self] at h
  exact h

/-- Witness of C6: after adding 10 and 20 and removing 10, menu 20 refers to the
bar and is in its sequence. -/
theorem backref_iff_in_sequence_witness :
    (∀ m : Menu, (fun _ : Menu => (none : Option Nat)) m ≠ some 1)
      ∧ (((construct 1 none [] (fun _ => none)).run
            [Op.addMenu (some 10), Op.addMenu (some 20), Op.removeMenu (some 10)]).menuBarOf 20
            = some 1
          ↔ 20 ∈ ((construct 1 none [] (fun _ => none)).run
            [Op.addMenu (some 10), Op.addMenu (some 20), Op.removeMenu (some 10)]).m_menus) :=
  ⟨fun _ => by simp, backref_iff_in_sequence 1 none [] (fun _ => none) (fun _ => by simp) _ 20⟩

/-! ## Independence of the in-memory state from the native handle -/

theorem inMemory_eq_iff (s t : MenuBar) :
    s.inMemory = t.inMemory ↔ s.self = t.self ∧ s.m_menus = t.m_menus ∧ s.m_data = t.m_data
      ∧ s.m_window = t.m_window ∧ s.menuBarOf = t.menuBarOf ∧ s.deleted = t.deleted
      ∧ s.emitted = t.emitted := by
  simp [inMemory]

theorem insertMenu_inMemory (s t : MenuBar) (index : Int) (menu : Option Menu)
    (h : s.inMemory = t.inMemory) :
    (s.insertMenu index menu).inMemory = (t.insertMenu index menu).inMemory := by
  cases menu with
  | none => exact h
  | some m =>
    obtain ⟨h1, h2, h3, h4, h5, h6, h7⟩ := (inMemory_eq_iff s t).1 h
    by_cases hm : m ∈ s.m_menus
    · rw [insertMenu_present s index m hm, insertMenu_present t index m (h2 ▸ hm)]; exact h
    · have hm2 : m ∉ t.m_menus := h2 ▸ hm
      rw [inMemory_eq_iff]
      simp only [insertMenu, hm, hm2, if_false]
      cases hs : s.m_handle <;> cases ht : t.m_handle <;>
        simp [emit, setMenuBarOf, createHandle, hs, ht, h1, h2, h3, h4, h5, h6, h7]

theorem removeMenu_inMemory (s t : MenuBar) (menu : Option Menu)
    (h : s.inMemory = t.inMemory) :
    (s.removeMenu menu).inMemory = (t.removeMenu menu).inMemory := by
  cases menu with
  | none => exact h
  | some m =>
    obtain ⟨h1, h2, h3, h4, h5, h6, h7⟩ := (inMemory_eq_iff s t).1 h
    by_cases hm : m ∈ s.m_menus
    · have hm2 : m ∈ t.m_menus := h2 ▸ hm
      rw [inMemory_eq_iff]
      simp only [removeMenu, QList.removeOne, hm, hm2, if_true]
      cases hs : s.m_handle <;> cases ht : t.m_handle <;>
        simp [emit, setMenuBarOf, hs, ht, h1, h2, h3, h4, h5, h6, h7]
    · rw [removeMenu_absent s m hm, removeMenu_absent t m (h2 ▸ hm)]; exact h

theorem clearOne_inMemory (s t : MenuBar) (m : Menu) (h : s.inMemory = t.inMemory) :
    (s.clearOne m).inMemory = (t.clearOne m).inMemory := by
  obtain ⟨h1, h2, h3, h4, h5, h6, h7⟩ := (inMemory_eq_iff s t).1 h
  rw [inMemory_eq_iff]
  unfold clearOne
  cases hs : s.m_handle <;> cases ht : t.m_handle <;>
    simp [setMenuBarOf, hs, ht, h1, h2, h3, h4, h5, h6, h7]

theorem foldl_clearOne_inMemory (l : List Menu) (s t : MenuBar) (h : s.inMemory = t.inMemory) :
    (l.foldl clearOne s).inMemory = (l.foldl clearOne t).inMemory := by
  induction l generalizing s t with
  | nil => exact h
  | cons m l ih => exact ih _ _ (clearOne_inMemory s t m h)

theorem clear_inMemory (s t : MenuBar) (h : s.inMemory = t.inMemory) :
    s.clear.inMemory = t.clear.inMemory := by
  obtain ⟨h1, h2, h3, h4, h5, h6, h7⟩ := (inMemory_eq_iff s t).1 h
  unfold clear
  rw [← h2]
  by_cases he : s.m_menus.isEmpty
  · simp only [he, if_true]; exact h
  · simp only [he]
    have hf := (inMemory_eq_iff _ _).1 (foldl_clearOne_inMemory s.m_menus s t h)
    obtain ⟨g1, g2, g3, g4, g5, g6, g7⟩ := hf
    rw [inMemory_eq_iff]
    simp [emit, g1, g3, g4, g5, g6, g7]

theorem setWindow_inMemory (s t : MenuBar) (w : Option Window) (h : s.inMemory = t.inMemory) :
    (s.setWindow w).inMemory = (t.setWindow w).inMemory := by
  obtain ⟨h1, h2, h3, h4, h5, h6, h7⟩ := (inMemory_eq_iff s t).1 h
  unfold setWindow
  rw [← h4]
  by_cases hw : s.m_window = w
  · simp only [hw, if_true]; exact h
  · rw [inMemory_eq_iff]
    cases hs : s.m_handle <;> cases ht : t.m_handle <;>
      simp [emit, hw, hs, ht, h1, h2, h3, h5, h6, h7]

theorem step_inMemory (s t : MenuBar) (op : Op) (h : s.inMemory = t.inMemory) :
    (s.step op).inMemory = (t.step op).inMemory := by
  cases op with
  | insertMenu i m => exact insertMenu_inMemory s t i m h
  | addMenu m =>
    show (s.insertMenu s.m_menus.length m).inMemory = (t.insertMenu t.m_menus.length m).inMemory
    rw [← ((inMemory_eq_iff s t).1 h).2.1]
    exact insertMenu_inMemory s t _ m h
  | removeMenu m => exact removeMenu_inMemory s t m h
  | clear => exact clear_inMemory s t h
  | setWindow w => exact setWindow_inMemory s t w h

theorem run_inMemory (ops : List Op) (s t : MenuBar) (h : s.inMemory = t.inMemory) :
    (s.run ops).inMemory = (t.run ops).inMemory := by
  induction ops generalizing s t with
  | nil => exact h
  | cons op ops ih => exact ih _ _ (step_inMemory s t op h)

/-- C7: for every state and every sequence of `insertMenu`, `addMenu`,
`removeMenu`, `clear` and `setWindow`, the in-memory state reached (menu
sequence, data list, back-references, window reference, destroyed menus) and
the emitted `menusChanged`/`windowChanged` trace are the same as when the
container holds no native menu-bar handle. -/
theorem inMemory_independent_of_handle (s : MenuBar) (ops : List Op) :
    (s.run ops).inMemory = (({ s with m_handle := none } : MenuBar).run ops).inMemory :=
  run_inMemory ops s { s with m_handle := none } rfl

end MenuBar
end QtCellink

namespace QtCellink
namespace MenuBar

/-! ## The native bar mirrors the menu sequence -/

theorem PlatformMenu.mk_injective : Function.Injective PlatformMenu.mk := by
  intro a b h
  cases h
  rfl

theorem insertMenu_handle (s : MenuBar) (index : Int) (m : Menu) (hm : m ∉ s.m_menus)
    (h : PlatformMenuBar) (hh : s.m_handle = some h) :
    (s.insertMenu index (some m)).m_handle
        = some (h.insertMenu ⟨m⟩
            (match QList.value s.m_menus index with
              | some b => if Function.update s.hasHandle m true b then some ⟨b⟩ else none
              | none => none))
      ∧ (s.insertMenu index (some m)).hasHandle = Function.update s.hasHandle m true := by
  simp only [insertMenu, hm, if_false]
  simp [emit, setMenuBarOf, createHandle, handleOf, hh]

theorem removeMenu_handle (s : MenuBar) (m : Menu) (hm : m ∈ s.m_menus)
    (h : PlatformMenuBar) (hh : s.m_handle = some h) :
    (s.removeMenu (some m)).m_handle
        = some (h.removeMenu (if s.hasHandle m then some ⟨m⟩ else none))
      ∧ (s.removeMenu (some m)).hasHandle = s.hasHandle := by
  simp only [removeMenu, QList.removeOne, hm, if_true]
  simp [emit, setMenuBarOf, handleOf, hh]

theorem clearOne_handle (s : MenuBar) (m : Menu) (h : PlatformMenuBar)
    (hh : s.m_handle = some h) :
    (s.clearOne m).m_handle = some (h.removeMenu (if s.hasHandle m then some ⟨m⟩ else none))
      ∧ (s.clearOne m).hasHandle = s.hasHandle := by
  unfold clearOne
  simp [setMenuBarOf, handleOf, hh]

theorem setWindow_handle (s : MenuBar) (w : Option Window) (h : PlatformMenuBar)
    (hh : s.m_handle = some h) :
    (∃ h2, (s.setWindow w).m_handle = some h2 ∧ h2.menus = h.menus)
      ∧ (s.setWindow w).hasHandle = s.hasHandle := by
  unfold setWindow
  by_cases hw : s.m_window = w
  · simp [hw, hh]
  · simp [hw, hh, emit, PlatformMenuBar.handleReparent]

/-- The native bar, fed with the handle of the menu found at `index`, ends up in
the order of the Qt list after `insert(index, m)`, provided `index` is not
negative. -/
theorem native_insert_mirrors (l : List Menu) (hnd : l.Nodup) (m : Menu)
    (index : Int) (hi : 0 ≤ index) (w : Option Window) (hasH : Menu → Bool)
    (hall : ∀ b ∈ l, hasH b = true) :
    (PlatformMenuBar.insertMenu { menus := l.map PlatformMenu.mk, window := w } ⟨m⟩
        (match QList.value l index with
          | some b => if hasH b then some ⟨b⟩ else none
          | none => none)).menus
      = (QList.insert l index m).map PlatformMenu.mk := by
  by_cases hlt : index.toNat < l.length
  · have hval : QList.value l index = some l[index.toNat] := by
      unfold QList.value
      rw [if_neg (by omega), List.get?_eq_getElem?, List.getElem?_eq_getElem hlt]
    have hmem : l[index.toNat] ∈ l := List.getElem_mem hlt
    have hmem2 : PlatformMenu.mk l[index.toNat] ∈ l.map PlatformMenu.mk :=
      List.mem_map_of_mem _ hmem
    have hnd2 : (l.map PlatformMenu.mk).Nodup := hnd.map PlatformMenu.mk_injective
    have hidx : (l.map PlatformMenu.mk).indexOf (PlatformMenu.mk l[index.toNat])
        = index.toNat := by
      have hlt2 : index.toNat < (l.map PlatformMenu.mk).length := by
        rw [List.length_map]; exact hlt
      have := List.indexOf_getElem hnd2 index.toNat hlt2
      rwa [List.getElem_map] at this
    have hk : (min (max index 0) (l.length : Int)).toNat = index.toNat := by
      have h1 : max index 0 = index := max_eq_left hi
      rw [h1, min_eq_left (by omega)]
    rw [hval]
    simp only [hall _ hmem, if_true, PlatformMenuBar.insertMenu, hmem2, hidx]
    rw [QList.insert_eq_take_drop, hk]
    simp [List.map_take, List.map_drop]
  · have hval : QList.value l index = none := by
      unfold QList.value
      rw [if_neg (by omega), List.get?_eq_getElem?]
      exact List.getElem?_eq_none (by omega)
    have hk : (min (max index 0) (l.length : Int)).toNat = l.length := by
      have h1 : max index 0 = index := max_eq_left hi
      rw [h1, min_eq_right (by omega)]
      simp
    rw [hval]
    simp only [PlatformMenuBar.insertMenu]
    rw [QList.insert_eq_take_drop, hk]
    simp

end MenuBar
end QtCellink

namespace QtCellink
namespace MenuBar

theorem insertMenu_mirrored (s : MenuBar) (index : Int) (hi : 0 ≤ index) (menu : Option Menu)
    (hinv : Mirrored s) : Mirrored (s.insertMenu index menu) := by
  cases menu with
  | none => exact hinv
  | some m =>
    by_cases hm : m ∈ s.m_menus
    · rw [insertMenu_present s index m hm]; exact hinv
    · obtain ⟨hnd, ⟨h, hh, hmenus⟩, hall⟩ := hinv
      obtain ⟨e1, e2⟩ := insertMenu_handle s index m hm h hh
      have hall2 : ∀ b ∈ s.m_menus, Function.update s.hasHandle m true b = true := by
        intro b hb
        have hbm : b ≠ m := fun e => hm (e ▸ hb)
        rw [Function.update_noteq hbm]; exact hall b hb
      refine ⟨insertMenu_nodup s index (some m) hnd, ⟨_, e1, ?_⟩, ?_⟩
      · rw [insertMenu_menus s index m hm]
        have hh2 : h = { menus := s.m_menus.map PlatformMenu.mk, window := h.window } := by
          cases h; simp at hmenus; simp [hmenus]
        rw [hh2]
        exact native_insert_mirrors s.m_menus hnd m index hi h.window _ hall2
      · intro b hb
        rw [e2]
        rw [insertMenu_menus s index m hm, QList.mem_insert] at hb
        rcases hb with hb | hb
        · subst hb; simp
        · exact hall2 b hb

theorem removeMenu_mirrored (s : MenuBar) (menu : Option Menu) (hinv : Mirrored s) :
    Mirrored (s.removeMenu menu) := by
  cases menu with
  | none => exact hinv
  | some m =>
    by_cases hm : m ∈ s.m_menus
    · obtain ⟨hnd, ⟨h, hh, hmenus⟩, hall⟩ := hinv
      obtain ⟨e1, e2⟩ := removeMenu_handle s m hm h hh
      refine ⟨removeMenu_nodup s (some m) hnd, ⟨_, e1, ?_⟩, ?_⟩
      · rw [removeMenu_menus s m hm, hall m hm]
        simp only [if_true, PlatformMenuBar.removeMenu, hmenus]
        exact (List.map_erase PlatformMenu.mk_injective s.m_menus).symm
      · intro b hb
        rw [e2]
        rw [removeMenu_menus s m hm] at hb
        exact hall b (List.mem_of_mem_erase hb)
    · rw [removeMenu_absent s m hm]; exact hinv

theorem foldl_clearOne_handle (l : List Menu) (s : MenuBar) (h : PlatformMenuBar)
    (hh : s.m_handle = some h) (hmenus : h.menus = l.map PlatformMenu.mk)
    (hall : ∀ m ∈ l, s.hasHandle m = true) :
    ∃ h2, (l.foldl clearOne s).m_handle = some h2 ∧ h2.menus = [] := by
  induction l generalizing s h with
  | nil => exact ⟨h, hh, by simpa using hmenus⟩
  | cons m l ih =>
    obtain ⟨e1, e2⟩ := clearOne_handle s m h hh
    rw [List.foldl_cons]
    refine ih (s.clearOne m) _ e1 ?_ ?_
    · rw [hall m (List.mem_cons_self m l)]
      simp [PlatformMenuBar.removeMenu, hmenus]
    · intro b hb
      rw [e2]
      exact hall b (List.mem_cons_of_mem m hb)

theorem clear_mirrored (s : MenuBar) (hinv : Mirrored s) : Mirrored s.clear := by
  obtain ⟨hnd, ⟨h, hh, hmenus⟩, hall⟩ := hinv
  by_cases he : s.m_menus = []
  · rw [clear_empty s he]; exact ⟨hnd, ⟨h, hh, hmenus⟩, hall⟩
  · obtain ⟨h2, e1, e2⟩ := foldl_clearOne_handle s.m_menus s h hh hmenus hall
    have hne : s.m_menus.isEmpty = false := by
      cases hm : s.m_menus with
      | nil => exact absurd hm he
      | cons a l => rfl
    refine ⟨by rw [clear_menus]; exact List.nodup_nil, ⟨h2, ?_, ?_⟩, ?_⟩
    · simp [clear, hne, emit, e1]
    · rw [clear_menus, e2]; rfl
    · intro b hb
      rw [clear_menus] at hb
      cases hb

theorem setWindow_mirrored (s : MenuBar) (w : Option Window) (hinv : Mirrored s) :
    Mirrored (s.setWindow w) := by
  obtain ⟨hnd, ⟨h, hh, hmenus⟩, hall⟩ := hinv
  obtain ⟨⟨h2, e1, e2⟩, e3⟩ := setWindow_handle s w h hh
  refine ⟨by rw [setWindow_menus]; exact hnd, ⟨h2, e1, ?_⟩, ?_⟩
  · rw [e2, setWindow_menus]; exact hmenus
  · intro b hb
    rw [e3]
    rw [setWindow_menus] at hb
    exact hall b hb

theorem step_mirrored (s : MenuBar) (op : Op) (hop : op.indexNonneg) (hinv : Mirrored s) :
    Mirrored (s.step op) := by
  cases op with
  | insertMenu i m => exact insertMenu_mirrored s i hop m hinv
  | addMenu m => exact insertMenu_mirrored s _ (Int.ofNat_nonneg _) m hinv
  | removeMenu m => exact removeMenu_mirrored s m hinv
  | clear => exact clear_mirrored s hinv
  | setWindow w => exact setWindow_mirrored s w hinv

theorem run_mirrored (ops : List Op) (s : MenuBar) (hops : ∀ op ∈ ops, op.indexNonneg)
    (hinv : Mirrored s) : Mirrored (s.run ops) := by
  induction ops generalizing s with
  | nil => exact hinv
  | cons op ops ih =>
    exact ih (s.step op) (fun o ho => hops o (List.mem_cons_of_mem op ho))
      (step_mirrored s op (hops op (List.mem_cons_self op ops)) hinv)

theorem nativeOrder_of_mirrored (s : MenuBar) (hinv : Mirrored s) :
    s.nativeOrder = some s.m_menus := by
  obtain ⟨_, ⟨h, hh, hmenus⟩, _⟩ := hinv
  simp [nativeOrder, hh, hmenus, Function.comp_def]

/-- As long as no `insertMenu` is given a negative index, the native order equals
the order of the menu sequence after any sequence of calls on a container
constructed with a native handle. -/
theorem nativeOrder_eq_menus_of_nonneg (self : Nat) (w : Option Window)
    (parents : List Ancestor) (backrefs : Menu → Option Nat) (ops : List Op)
    (hops : ∀ op ∈ ops, op.indexNonneg) :
    ((construct self (some { menus := [], window := w }) parents backrefs).run ops).nativeOrder
      = some ((construct self (some { menus := [], window := w }) parents backrefs).run ops).m_menus :=
  nativeOrder_of_mirrored _ (run_mirrored ops _ hops
    ⟨List.nodup_nil, ⟨_, rfl, rfl⟩, fun _ hb => by cases hb⟩)

/-- C1 (fails on the code): after `addMenu(10)` on a bar with a native handle,
`insertMenu(-1, 20)` puts menu 20 first in the menu sequence but last in the
native bar, so the native order 10, 20 differs from the logical order 20, 10. -/
theorem insertMenu_negative_index_native_order :
    (sampleBar.run [Op.addMenu (some 10), Op.insertMenu (-1) (some 20)]).m_menus = [20, 10]
      ∧ (sampleBar.run [Op.addMenu (some 10), Op.insertMenu (-1) (some 20)]).nativeOrder
          = some [10, 20]
      ∧ (sampleBar.run [Op.addMenu (some 10), Op.insertMenu (-1) (some 20)]).nativeOrder
          ≠ some (sampleBar.run [Op.addMenu (some 10), Op.insertMenu (-1) (some 20)]).m_menus := by
  decide

end MenuBar
end QtCellink

namespace QtCellink
namespace MenuBar

/-! ## Window resolution -/

theorem findWindowFrom_append_of_skipped (pre rest : List Ancestor)
    (hpre : ∀ x ∈ pre, x = Ancestor.object ∨ x = Ancestor.item none) :
    findWindowFrom (pre ++ rest) = findWindowFrom rest := by
  induction pre with
  | nil => rfl
  | cons a pre ih =>
    have ha := hpre a (List.mem_cons_self a pre)
    have ih2 := ih (fun x hx => hpre x (List.mem_cons_of_mem a hx))
    rcases ha with ha | ha <;> subst ha <;> simpa [findWindowFrom] using ih2

theorem findWindowFrom_eq_some_iff (ps : List Ancestor) (w : Window) :
    findWindowFrom ps = some w ↔
      ∃ pre a rest, ps = pre ++ a :: rest
        ∧ (∀ x ∈ pre, x = Ancestor.object ∨ x = Ancestor.item none)
        ∧ (a = Ancestor.window w ∨ a = Ancestor.item (some w)) := by
  constructor
  · intro h
    induction ps with
    | nil => simp [findWindowFrom] at h
    | cons a ps ih =>
      cases a with
      | window v =>
        simp only [findWindowFrom, Option.some.injEq] at h
        subst h
        exact ⟨[], _, ps, rfl, by simp, Or.inl rfl⟩
      | item o =>
        cases o with
        | some v =>
          simp only [findWindowFrom, Option.some.injEq] at h
          subst h
          exact ⟨[], _, ps, rfl, by simp, Or.inr rfl⟩
        | none =>
          simp only [findWindowFrom] at h
          obtain ⟨pre, a, rest, e, hpre, ha⟩ := ih h
          refine ⟨Ancestor.item none :: pre, a, rest, by simp [e], ?_, ha⟩
          intro x hx
          rcases List.mem_cons.1 hx with hx | hx
          · exact Or.inr hx
          · exact hpre x hx
      | object =>
        simp only [findWindowFrom] at h
        obtain ⟨pre, a, rest, e, hpre, ha⟩ := ih h
        refine ⟨Ancestor.object :: pre, a, rest, by simp [e], ?_, ha⟩
        intro x hx
        rcases List.mem_cons.1 hx with hx | hx
        · exact Or.inl hx
        · exact hpre x hx
  · rintro ⟨pre, a, rest, e, hpre, ha⟩
    subst e
    rw [findWindowFrom_append_of_skipped pre _ hpre]
    rcases ha with ha | ha <;> subst ha <;> rfl

theorem findWindowFrom_eq_none_iff (ps : List Ancestor) :
    findWindowFrom ps = none ↔ ∀ x ∈ ps, x = Ancestor.object ∨ x = Ancestor.item none := by
  constructor
  · intro h
    induction ps with
    | nil => intro x hx; cases hx
    | cons a ps ih =>
      cases a with
      | window v => simp [findWindowFrom] at h
      | item o =>
        cases o with
        | some v => simp [findWindowFrom] at h
        | none =>
          simp only [findWindowFrom] at h
          intro x hx
          rcases List.mem_cons.1 hx with hx | hx
          · exact Or.inr hx
          · exact ih h x hx
      | object =>
        simp only [findWindowFrom] at h
        intro x hx
        rcases List.mem_cons.1 hx with hx | hx
        · exact Or.inl hx
        · exact ih h x hx
  · intro h
    have := findWindowFrom_append_of_skipped ps [] h
    simpa [findWindowFrom] using this

theorem componentComplete_window (s : MenuBar) (hw : s.m_window = none) :
    s.componentComplete.m_window = findWindowFrom s.parents := by
  unfold componentComplete setWindow findWindow
  cases hf : findWindowFrom s.parents with
  | none => simp [hw, hf]
  | some w => cases hh : s.m_handle <;> simp [hw, hf, hh, emit]

theorem componentComplete_emitted (s : MenuBar) (hw : s.m_window = none) :
    s.componentComplete.emitted
      = if findWindowFrom s.parents = none then s.emitted
        else s.emitted ++ [MenuBarSignal.windowChanged] := by
  unfold componentComplete setWindow findWindow
  cases hf : findWindowFrom s.parents with
  | none => simp [hw, hf]
  | some w => cases hh : s.m_handle <;> simp [hw, hf, hh, emit]

/-- C8: `componentComplete` on a container with no window assigned sets
`window()` to the result of walking the parent chain: the first ancestor that
is a window, or the window of the first ancestor item that has one, whichever
comes first (all ancestors before it being neither).  Three levels below a
top-level window, with no nearer window-bearing ancestor, it resolves to that
window and emits `windowChanged` once; when no ancestor qualifies the window
stays null and `windowChanged` is not emitted. -/
theorem componentComplete_resolves_window (s : MenuBar) (hw : s.m_window = none) :
    (∀ w, s.componentComplete.m_window = some w ↔
        ∃ pre a rest, s.parents = pre ++ a :: rest
          ∧ (∀ x ∈ pre, x = Ancestor.object ∨ x = Ancestor.item none)
          ∧ (a = Ancestor.window w ∨ a = Ancestor.item (some w)))
      ∧ (∀ a b w rest, (a = Ancestor.object ∨ a = Ancestor.item none) →
          (b = Ancestor.object ∨ b = Ancestor.item none) →
          s.parents = a :: b :: Ancestor.window w :: rest →
          s.componentComplete.m_window = some w
            ∧ s.componentComplete.emitted = s.emitted ++ [MenuBarSignal.windowChanged])
      ∧ ((∀ x ∈ s.parents, x = Ancestor.object ∨ x = Ancestor.item none) →
          s.componentComplete.m_window = none ∧ s.componentComplete.emitted = s.emitted) := by
  rw [componentComplete_window s hw, componentComplete_emitted s hw]
  refine ⟨fun w => findWindowFrom_eq_some_iff s.parents w, ?_, ?_⟩
  · intro a b w rest ha hb hp
    have hf : findWindowFrom s.parents = some w := by
      rw [hp]
      have := findWindowFrom_append_of_skipped [a, b] (Ancestor.window w :: rest)
        (by
          intro x hx
          simp only [List.mem_cons, List.mem_singleton, List.not_mem_nil, or_false] at hx
          rcases hx with hx | hx
          · rw [hx]; exact ha
          · rw [hx]; exact hb)
      simpa [findWindowFrom] using this
    simp [hf]
  · intro hall
    have hf := (findWindowFrom_eq_none_iff s.parents).2 hall
    simp [hf]

/-- Witness of C8: a bar whose parent is a plain object inside an item without a
window inside the top-level window 7 resolves to window 7. -/
theorem componentComplete_resolves_window_witness :
    (construct 1 none [Ancestor.object, Ancestor.item none, Ancestor.window 7]
        (fun _ => none)).m_window = none
      ∧ (construct 1 none [Ancestor.object, Ancestor.item none, Ancestor.window 7]
          (fun _ => none)).componentComplete.m_window = some 7 :=
  ⟨rfl, ((componentComplete_resolves_window
      (construct 1 none [Ancestor.object, Ancestor.item none, Ancestor.window 7]
        (fun _ => none)) rfl).2.1
      Ancestor.object (Ancestor.item none) 7 [] (Or.inl rfl) (Or.inr rfl) rfl).1⟩

end MenuBar
end QtCellink

namespace QtCellink

/-! ## Selectable-list control: what each operation does to the indices -/

namespace ComboBox

@[simp] theorem emit_currentIndex (d : ComboBox) (sig : ComboSignal) :
    (d.emit sig).currentIndex = d.currentIndex := rfl
@[simp] theorem emit_highlightedIndex (d : ComboBox) (sig : ComboSignal) :
    (d.emit sig).highlightedIndex = d.highlightedIndex := rfl
@[simp] theorem emit_delegateModel (d : ComboBox) (sig : ComboSignal) :
    (d.emit sig).delegateModel = d.delegateModel := rfl
@[simp] theorem emit_popup (d : ComboBox) (sig : ComboSignal) :
    (d.emit sig).popup = d.popup := rfl

@[simp] theorem setEditText_currentIndex (d : ComboBox) (t : QString) :
    (d.setEditText t).currentIndex = d.currentIndex := by
  unfold setEditText; split <;> rfl
@[simp] theorem setEditText_highlightedIndex (d : ComboBox) (t : QString) :
    (d.setEditText t).highlightedIndex = d.highlightedIndex := by
  unfold setEditText; split <;> rfl
@[simp] theorem setEditText_delegateModel (d : ComboBox) (t : QString) :
    (d.setEditText t).delegateModel = d.delegateModel := by
  unfold setEditText; split <;> rfl
@[simp] theorem setEditText_popup (d : ComboBox) (t : QString) :
    (d.setEditText t).popup = d.popup := by
  unfold setEditText; split <;> rfl

@[simp] theorem setDown_currentIndex (d : ComboBox) (b : Bool) :
    (d.setDown b).currentIndex = d.currentIndex := by
  unfold setDown; simp only []; split <;> rfl
@[simp] theorem setDown_highlightedIndex (d : ComboBox) (b : Bool) :
    (d.setDown b).highlightedIndex = d.highlightedIndex := by
  unfold setDown; simp only []; split <;> rfl
@[simp] theorem setDown_delegateModel (d : ComboBox) (b : Bool) :
    (d.setDown b).delegateModel = d.delegateModel := by
  unfold setDown; simp only []; split <;> rfl
@[simp] theorem setDown_popup (d : ComboBox) (b : Bool) :
    (d.setDown b).popup = d.popup := by
  unfold setDown; simp only []; split <;> rfl

theorem count_congr (d e : ComboBox) (h : d.delegateModel = e.delegateModel) :
    d.count = e.count := by
  unfold count; rw [h]

end ComboBox

namespace ComboBoxPrivate

open ComboBox

theorem isPopupVisible_congr (d e : ComboBox) (h : d.popup = e.popup) :
    isPopupVisible d = isPopupVisible e := by
  unfold isPopupVisible; rw [h]

/-- What `emit`, `setEditText` and the writes to `currentText` and `displayText`
leave alone, `updateCurrentText` leaves alone. -/
theorem updateCurrentText_frame {α : Type} (P : ComboBox → α)
    (hemit : ∀ (x : ComboBox) (s : ComboSignal), P (x.emit s) = P x)
    (hset : ∀ (x : ComboBox) (t : QString), P (x.setEditText t) = P x)
    (hct : ∀ (x : ComboBox) (t : QString), P { x with currentText := t } = P x)
    (hdt : ∀ (x : ComboBox) (t : QString), P { x with displayText := t } = P x)
    (d : ComboBox) : P (updateCurrentText d) = P d := by
  have e1 : ∀ (x : ComboBox) (t : QString),
      P (if x.currentText ≠ t then
          ({ x with currentText := t } : ComboBox).emit .currentTextChanged
        else x) = P x := by
    intro x t
    split_ifs
    · rw [hemit, hct]
    · rfl
  have e2 : ∀ (x : ComboBox) (t : QString),
      P (if !x.hasDisplayText ∧ x.displayText ≠ t then
          ({ x with displayText := t } : ComboBox).emit .displayTextChanged
        else x) = P x := by
    intro x t
    split_ifs
    · rw [hemit, hdt]
    · rfl
  have e3 : ∀ x : ComboBox,
      P (match x.extra with
        | none => x.setEditText x.currentText
        | some e => if !e.accepting then x.setEditText x.currentText else x) = P x := by
    intro x
    split
    · rw [hset]
    · split_ifs
      · rw [hset]
      · rfl
  exact (e3 _).trans ((e2 _ _).trans (e1 _ _))

@[simp] theorem updateCurrentText_currentIndex (d : ComboBox) :
    (updateCurrentText d).currentIndex = d.currentIndex :=
  updateCurrentText_frame (fun x => x.currentIndex) (fun _ _ => rfl)
    setEditText_currentIndex (fun _ _ => rfl) (fun _ _ => rfl) d
@[simp] theorem updateCurrentText_highlightedIndex (d : ComboBox) :
    (updateCurrentText d).highlightedIndex = d.highlightedIndex :=
  updateCurrentText_frame (fun x => x.highlightedIndex) (fun _ _ => rfl)
    setEditText_highlightedIndex (fun _ _ => rfl) (fun _ _ => rfl) d
@[simp] theorem updateCurrentText_delegateModel (d : ComboBox) :
    (updateCurrentText d).delegateModel = d.delegateModel :=
  updateCurrentText_frame (fun x => x.delegateModel) (fun _ _ => rfl)
    setEditText_delegateModel (fun _ _ => rfl) (fun _ _ => rfl) d
@[simp] theorem updateCurrentText_popup (d : ComboBox) :
    (updateCurrentText d).popup = d.popup :=
  updateCurrentText_frame (fun x => x.popup) (fun _ _ => rfl)
    setEditText_popup (fun _ _ => rfl) (fun _ _ => rfl) d

@[simp] theorem setCurrentIndex_currentIndex (d : ComboBox) (i : Int) (a : Activation) :
    (setCurrentIndex d i a).currentIndex = i := by
  unfold setCurrentIndex
  by_cases h : d.currentIndex = i
  · simp [h]
  · simp only [h, if_false]
    cases a <;> split_ifs <;> simp
@[simp] theorem setCurrentIndex_highlightedIndex (d : ComboBox) (i : Int) (a : Activation) :
    (setCurrentIndex d i a).highlightedIndex = d.highlightedIndex := by
  unfold setCurrentIndex
  by_cases h : d.currentIndex = i
  · simp [h]
  · simp only [h, if_false]
    cases a <;> split_ifs <;> simp
@[simp] theorem setCurrentIndex_delegateModel (d : ComboBox) (i : Int) (a : Activation) :
    (setCurrentIndex d i a).delegateModel = d.delegateModel := by
  unfold setCurrentIndex
  by_cases h : d.currentIndex = i
  · simp [h]
  · simp only [h, if_false]
    cases a <;> split_ifs <;> simp
@[simp] theorem setCurrentIndex_popup (d : ComboBox) (i : Int) (a : Activation) :
    (setCurrentIndex d i a).popup = d.popup := by
  unfold setCurrentIndex
  by_cases h : d.currentIndex = i
  · simp [h]
  · simp only [h, if_false]
    cases a <;> split_ifs <;> simp

@[simp] theorem setHighlightedIndex_highlightedIndex (d : ComboBox) (i : Int)
    (a : Highlighting) : (setHighlightedIndex d i a).highlightedIndex = i := by
  unfold setHighlightedIndex
  by_cases h : d.highlightedIndex = i
  · simp [h]
  · simp only [h, if_false]
    cases a <;> simp
@[simp] theorem setHighlightedIndex_currentIndex (d : ComboBox) (i : Int)
    (a : Highlighting) : (setHighlightedIndex d i a).currentIndex = d.currentIndex := by
  unfold setHighlightedIndex
  by_cases h : d.highlightedIndex = i
  · simp [h]
  · simp only [h, if_false]
    cases a <;> simp
@[simp] theorem setHighlightedIndex_delegateModel (d : ComboBox) (i : Int)
    (a : Highlighting) : (setHighlightedIndex d i a).delegateModel = d.delegateModel := by
  unfold setHighlightedIndex
  by_cases h : d.highlightedIndex = i
  · simp [h]
  · simp only [h, if_false]
    cases a <;> simp
@[simp] theorem setHighlightedIndex_popup (d : ComboBox) (i : Int)
    (a : Highlighting) : (setHighlightedIndex d i a).popup = d.popup := by
  unfold setHighlightedIndex
  by_cases h : d.highlightedIndex = i
  · simp [h]
  · simp only [h, if_false]
    cases a <;> simp

end ComboBoxPrivate

end QtCellink

namespace QtCellink

namespace ComboBox

@[simp] theorem publicSetCurrentIndex_currentIndex (d : ComboBox) (i : Int) :
    (d.setCurrentIndex i).currentIndex = i := by
  simp [setCurrentIndex]
@[simp] theorem publicSetCurrentIndex_highlightedIndex (d : ComboBox) (i : Int) :
    (d.setCurrentIndex i).highlightedIndex = d.highlightedIndex := by
  simp [setCurrentIndex]
@[simp] theorem publicSetCurrentIndex_delegateModel (d : ComboBox) (i : Int) :
    (d.setCurrentIndex i).delegateModel = d.delegateModel := by
  simp [setCurrentIndex]
@[simp] theorem publicSetCurrentIndex_popup (d : ComboBox) (i : Int) :
    (d.setCurrentIndex i).popup = d.popup := by
  simp [setCurrentIndex]

@[simp] theorem setPressed_currentIndex (d : ComboBox) (b : Bool) :
    (d.setPressed b).currentIndex = d.currentIndex := by
  simp only [setPressed]; split_ifs <;> simp
@[simp] theorem setPressed_highlightedIndex (d : ComboBox) (b : Bool) :
    (d.setPressed b).highlightedIndex = d.highlightedIndex := by
  simp only [setPressed]; split_ifs <;> simp
@[simp] theorem setPressed_delegateModel (d : ComboBox) (b : Bool) :
    (d.setPressed b).delegateModel = d.delegateModel := by
  simp only [setPressed]; split_ifs <;> simp
@[simp] theorem setPressed_popup (d : ComboBox) (b : Bool) :
    (d.setPressed b).popup = d.popup := by
  simp only [setPressed]; split_ifs <;> simp

end ComboBox

namespace ComboBoxPrivate

open ComboBox

@[simp] theorem showPopup_currentIndex (d : ComboBox) :
    (showPopup d).currentIndex = d.currentIndex := by
  unfold showPopup; split <;> (try split_ifs) <;> simp
@[simp] theorem showPopup_highlightedIndex (d : ComboBox) :
    (showPopup d).highlightedIndex = d.highlightedIndex := by
  unfold showPopup; split <;> (try split_ifs) <;> simp
@[simp] theorem showPopup_delegateModel (d : ComboBox) :
    (showPopup d).delegateModel = d.delegateModel := by
  unfold showPopup; split <;> (try split_ifs) <;> simp
@[simp] theorem showPopup_popup (d : ComboBox) : (showPopup d).popup = d.popup := by
  unfold showPopup; split <;> (try split_ifs) <;> simp

@[simp] theorem hidePopup_currentIndex (d : ComboBox) (accept : Bool) :
    (hidePopup d accept).currentIndex
      = if accept then d.highlightedIndex else d.currentIndex := by
  unfold hidePopup
  cases accept <;> simp only [] <;> split <;> (try split_ifs) <;> simp
@[simp] theorem hidePopup_highlightedIndex (d : ComboBox) (accept : Bool) :
    (hidePopup d accept).highlightedIndex = d.highlightedIndex := by
  unfold hidePopup
  cases accept <;> simp only [] <;> split <;> (try split_ifs) <;> simp
@[simp] theorem hidePopup_delegateModel (d : ComboBox) (accept : Bool) :
    (hidePopup d accept).delegateModel = d.delegateModel := by
  unfold hidePopup
  cases accept <;> simp only [] <;> split <;> (try split_ifs) <;> simp
@[simp] theorem hidePopup_popup (d : ComboBox) (accept : Bool) :
    (hidePopup d accept).popup = d.popup := by
  unfold hidePopup
  cases accept <;> simp only [] <;> split <;> (try split_ifs) <;> simp_all

@[simp] theorem togglePopup_currentIndex (d : ComboBox) (accept : Bool) :
    (togglePopup d accept).currentIndex
      = if isPopupVisible d ∧ accept then d.highlightedIndex else d.currentIndex := by
  unfold togglePopup
  cases hv : isPopupVisible d <;> cases accept <;> simp
@[simp] theorem togglePopup_highlightedIndex (d : ComboBox) (accept : Bool) :
    (togglePopup d accept).highlightedIndex = d.highlightedIndex := by
  unfold togglePopup; split_ifs <;> simp
@[simp] theorem togglePopup_delegateModel (d : ComboBox) (accept : Bool) :
    (togglePopup d accept).delegateModel = d.delegateModel := by
  unfold togglePopup; split_ifs <;> simp
@[simp] theorem togglePopup_popup (d : ComboBox) (accept : Bool) :
    (togglePopup d accept).popup = d.popup := by
  unfold togglePopup; split_ifs <;> simp

@[simp] theorem popupVisibleChanged_currentIndex (d : ComboBox) :
    (popupVisibleChanged d).currentIndex = d.currentIndex := by
  simp only [popupVisibleChanged, updateHighlightedIndex]
  split <;> (try split_ifs) <;> simp
theorem popupVisibleChanged_highlightedIndex (d : ComboBox) (p : Popup)
    (hp : d.popup = some p) :
    (popupVisibleChanged d).highlightedIndex = if p.visible then d.currentIndex else -1 := by
  simp only [popupVisibleChanged, updateHighlightedIndex]
  rw [hp]
  simp only []
  split_ifs <;> simp_all
@[simp] theorem popupVisibleChanged_delegateModel (d : ComboBox) :
    (popupVisibleChanged d).delegateModel = d.delegateModel := by
  simp only [popupVisibleChanged, updateHighlightedIndex]
  split <;> (try split_ifs) <;> simp
@[simp] theorem popupVisibleChanged_popup (d : ComboBox) :
    (popupVisibleChanged d).popup = d.popup := by
  simp only [popupVisibleChanged, updateHighlightedIndex]
  split <;> (try split_ifs) <;> simp_all

@[simp] theorem countChanged_currentIndex (d : ComboBox) :
    (countChanged d).currentIndex = if d.count = 0 then -1 else d.currentIndex := by
  unfold countChanged; split_ifs <;> simp_all
@[simp] theorem countChanged_highlightedIndex (d : ComboBox) :
    (countChanged d).highlightedIndex = d.highlightedIndex := by
  unfold countChanged; split_ifs <;> simp
@[simp] theorem countChanged_delegateModel (d : ComboBox) :
    (countChanged d).delegateModel = d.delegateModel := by
  unfold countChanged; split_ifs <;> simp
@[simp] theorem countChanged_popup (d : ComboBox) :
    (countChanged d).popup = d.popup := by
  unfold countChanged; split_ifs <;> simp

@[simp] theorem setAllowComplete_currentIndex (d : ComboBox) (b : Bool) :
    (setAllowComplete d b).currentIndex = d.currentIndex := by
  unfold setAllowComplete; split <;> rfl
@[simp] theorem setAllowComplete_highlightedIndex (d : ComboBox) (b : Bool) :
    (setAllowComplete d b).highlightedIndex = d.highlightedIndex := by
  unfold setAllowComplete; split <;> rfl
@[simp] theorem setAllowComplete_delegateModel (d : ComboBox) (b : Bool) :
    (setAllowComplete d b).delegateModel = d.delegateModel := by
  unfold setAllowComplete; split <;> rfl
@[simp] theorem setAllowComplete_popup (d : ComboBox) (b : Bool) :
    (setAllowComplete d b).popup = d.popup := by
  unfold setAllowComplete; split <;> rfl

end ComboBoxPrivate

end QtCellink

namespace QtCellink

namespace ComboBoxPrivate

open ComboBox

@[simp] theorem itemHovered_currentIndex (d : ComboBox) (hovered : Bool) (i : Int) :
    (itemHovered d hovered i).currentIndex = d.currentIndex := by
  unfold itemHovered; split_ifs <;> simp
@[simp] theorem itemHovered_delegateModel (d : ComboBox) (hovered : Bool) (i : Int) :
    (itemHovered d hovered i).delegateModel = d.delegateModel := by
  unfold itemHovered; split_ifs <;> simp
@[simp] theorem itemHovered_popup (d : ComboBox) (hovered : Bool) (i : Int) :
    (itemHovered d hovered i).popup = d.popup := by
  unfold itemHovered; split_ifs <;> simp
theorem itemHovered_highlightedIndex (d : ComboBox) (hovered : Bool) (i : Int) :
    (itemHovered d hovered i).highlightedIndex = d.highlightedIndex
      ∨ (itemHovered d hovered i).highlightedIndex = i := by
  unfold itemHovered; split_ifs <;> simp

@[simp] theorem itemClicked_delegateModel (d : ComboBox) (i : Int) :
    (itemClicked d i).delegateModel = d.delegateModel := by
  unfold itemClicked; split_ifs <;> simp
@[simp] theorem itemClicked_popup (d : ComboBox) (i : Int) :
    (itemClicked d i).popup = d.popup := by
  unfold itemClicked; split_ifs <;> simp
theorem itemClicked_currentIndex (d : ComboBox) (i : Int) :
    (itemClicked d i).currentIndex = if i ≠ -1 then i else d.currentIndex := by
  unfold itemClicked; split_ifs <;> simp
theorem itemClicked_highlightedIndex (d : ComboBox) (i : Int) :
    (itemClicked d i).highlightedIndex = if i ≠ -1 then i else d.highlightedIndex := by
  unfold itemClicked; split_ifs <;> simp

theorem matchRange_bounds (d : ComboBox) (matchType : Nat) (cs : Bool) (text : QString)
    (first stop idx : Int) (h : matchRange d matchType cs text first stop = some idx) :
    first ≤ idx ∧ idx < stop := by
  unfold matchRange at h
  have hmem := List.mem_of_find?_eq_some h
  rw [List.mem_map] at hmem
  obtain ⟨k, hk, rfl⟩ := hmem
  rw [List.mem_range] at hk
  omega

/-- A search started inside `[0, count]` returns `-1` or an index of a row. -/
theorem match_valid (d : ComboBox) (start : Int) (text : QString) (flags : Nat)
    (h0 : 0 ≤ start) (h1 : start ≤ d.count) :
    ValidIndex (match_ d start text flags) d.count := by
  unfold match_
  simp only []
  split
  · rename_i idx h
    have := matchRange_bounds _ _ _ _ _ _ _ h
    exact Or.inr ⟨by omega, this.2⟩
  · split_ifs
    · split
      · rename_i idx h
        have := matchRange_bounds _ _ _ _ _ _ _ h
        exact Or.inr ⟨this.1, by omega⟩
      · exact Or.inl rfl
    · exact Or.inl rfl

@[simp] theorem keySearch_delegateModel (d : ComboBox) (text : QString) :
    (keySearch d text).delegateModel = d.delegateModel := by
  simp only [keySearch]; split_ifs <;> simp
@[simp] theorem keySearch_popup (d : ComboBox) (text : QString) :
    (keySearch d text).popup = d.popup := by
  simp only [keySearch]; split_ifs <;> simp

theorem count_nonneg (d : ComboBox) : 0 ≤ d.count := by
  unfold ComboBox.count
  split
  · unfold InstanceModel.count
    split_ifs <;> simp
  · simp

theorem keySearch_currentIndex (d : ComboBox) (text : QString)
    (hc : ValidIndex d.currentIndex d.count) :
    ValidIndex (keySearch d text).currentIndex d.count := by
  have hn := count_nonneg d
  cases hv : isPopupVisible d with
  | true =>
    simp only [keySearch, hv, if_true]
    split_ifs <;> simpa using hc
  | false =>
    simp only [keySearch, hv, Bool.false_eq_true, if_false]
    split_ifs
    · rw [setCurrentIndex_currentIndex]
      apply match_valid
      · rcases hc with hc | hc <;> omega
      · rcases hc with hc | hc <;> omega
    · exact hc

theorem keySearch_highlightedIndex (d : ComboBox) (text : QString)
    (hh : ValidIndex d.highlightedIndex d.count) :
    ValidIndex (keySearch d text).highlightedIndex d.count := by
  have hn := count_nonneg d
  cases hv : isPopupVisible d with
  | true =>
    simp only [keySearch, hv, if_true]
    split_ifs
    · rw [setHighlightedIndex_highlightedIndex]
      apply match_valid
      · rcases hh with hh | hh <;> omega
      · rcases hh with hh | hh <;> omega
    · exact hh
  | false =>
    simp only [keySearch, hv, Bool.false_eq_true, if_false]
    split_ifs <;> simpa using hh

end ComboBoxPrivate

end QtCellink

namespace QtCellink

namespace ComboBoxPrivate

open ComboBox

@[simp] theorem incrementCurrentIndex_delegateModel (d : ComboBox) :
    (incrementCurrentIndex d).delegateModel = d.delegateModel := by
  simp only [incrementCurrentIndex]; split_ifs <;> simp
@[simp] theorem incrementCurrentIndex_popup (d : ComboBox) :
    (incrementCurrentIndex d).popup = d.popup := by
  simp only [incrementCurrentIndex]; split_ifs <;> simp
@[simp] theorem decrementCurrentIndex_delegateModel (d : ComboBox) :
    (decrementCurrentIndex d).delegateModel = d.delegateModel := by
  simp only [decrementCurrentIndex]; split_ifs <;> simp
@[simp] theorem decrementCurrentIndex_popup (d : ComboBox) :
    (decrementCurrentIndex d).popup = d.popup := by
  simp only [decrementCurrentIndex]; split_ifs <;> simp

theorem setAllowComplete_count (d : ComboBox) (b : Bool) :
    (setAllowComplete d b).count = d.count :=
  count_congr _ _ (setAllowComplete_delegateModel d b)

theorem incrementCurrentIndex_currentIndex (d : ComboBox)
    (hc : ValidIndex d.currentIndex d.count) :
    ValidIndex (incrementCurrentIndex d).currentIndex d.count := by
  simp only [incrementCurrentIndex, setAllowComplete_count]
  split_ifs with h1 h2 h3
  · simpa using hc
  · simpa using hc
  · simp only [setAllowComplete_currentIndex, setCurrentIndex_currentIndex] at h3 ⊢
    rcases hc with hc | hc
    · right; omega
    · right; omega
  · simpa using hc

theorem incrementCurrentIndex_highlightedIndex (d : ComboBox)
    (hh : ValidIndex d.highlightedIndex d.count) :
    ValidIndex (incrementCurrentIndex d).highlightedIndex d.count := by
  simp only [incrementCurrentIndex, setAllowComplete_count]
  split_ifs with h1 h2 h3
  · simp only [setAllowComplete_highlightedIndex, setHighlightedIndex_highlightedIndex] at h2 ⊢
    rcases hh with hh | hh
    · right; omega
    · right; omega
  · simpa using hh
  · simpa using hh
  · simpa using hh

theorem decrementCurrentIndex_currentIndex (d : ComboBox)
    (hc : ValidIndex d.currentIndex d.count) :
    ValidIndex (decrementCurrentIndex d).currentIndex d.count := by
  simp only [decrementCurrentIndex]
  split_ifs with h1 h2 h3
  · simpa using hc
  · simpa using hc
  · simp only [setAllowComplete_currentIndex, setCurrentIndex_currentIndex] at h3 ⊢
    rcases hc with hc | hc
    · omega
    · right; omega
  · simpa using hc

theorem decrementCurrentIndex_highlightedIndex (d : ComboBox)
    (hh : ValidIndex d.highlightedIndex d.count) :
    ValidIndex (decrementCurrentIndex d).highlightedIndex d.count := by
  simp only [decrementCurrentIndex]
  split_ifs with h1 h2 h3
  · simp only [setAllowComplete_highlightedIndex, setHighlightedIndex_highlightedIndex] at h2 ⊢
    rcases hh with hh | hh
    · omega
    · right; omega
  · simpa using hh
  · simpa using hh
  · simpa using hh

end ComboBoxPrivate

namespace ComboBox

open ComboBoxPrivate

theorem setModel_same (d : ComboBox) : d.setModel d.model = d := by
  simp [setModel]

theorem rowCount_nonneg (m : QVariant) : 0 ≤ QVariant.rowCount m := by
  cases m <;> simp [QVariant.rowCount]

theorem exposedCount_nonneg (m : QVariant) (c : Bool) : 0 ≤ QVariant.exposedCount m c := by
  cases m <;> simp [QVariant.exposedCount]
  split_ifs <;> simp

theorem exposedCount_complete (m : QVariant) :
    QVariant.exposedCount m true = QVariant.rowCount m := by
  cases m <;> simp [QVariant.exposedCount, QVariant.rowCount]

theorem createDelegateModel_facts (d : ComboBox) (m : QVariant) :
    (createDelegateModel { d with model := m }).count
        = QVariant.exposedCount m d.componentComplete
      ∧ (createDelegateModel { d with model := m }).componentComplete = d.componentComplete
      ∧ (createDelegateModel { d with model := m }).currentIndex = d.currentIndex
      ∧ (createDelegateModel { d with model := m }).highlightedIndex = d.highlightedIndex
      ∧ (createDelegateModel { d with model := m }).popup = d.popup := by
  cases m <;>
    simp [createDelegateModel, ComboBox.count, QVariant.exposedCount, InstanceModel.count, emit]

theorem setModel_eq (d : ComboBox) (m : QVariant) (hm : d.model ≠ m) :
    d.setModel m
      = (if (createDelegateModel { d with model := m }).componentComplete then
          updateCurrentText ((createDelegateModel { d with model := m }).setCurrentIndex
            (if (createDelegateModel { d with model := m }).count > 0 then 0 else -1))
        else createDelegateModel { d with model := m }).emit .modelChanged := by
  simp [setModel, hm]

theorem setModel_count (d : ComboBox) (m : QVariant) (hm : d.model ≠ m) :
    (d.setModel m).count = QVariant.exposedCount m d.componentComplete := by
  obtain ⟨h1, h2, h3, h4, h5⟩ := createDelegateModel_facts d m
  rw [setModel_eq d m hm, ← h1]
  apply count_congr
  split_ifs <;> simp

theorem setModel_highlightedIndex (d : ComboBox) (m : QVariant) :
    (d.setModel m).highlightedIndex = d.highlightedIndex := by
  by_cases hm : d.model = m
  · rw [← hm, setModel_same]
  · obtain ⟨h1, h2, h3, h4, h5⟩ := createDelegateModel_facts d m
    rw [setModel_eq d m hm]
    split_ifs <;> simp [h4]

theorem setModel_popup (d : ComboBox) (m : QVariant) :
    (d.setModel m).popup = d.popup := by
  by_cases hm : d.model = m
  · rw [← hm, setModel_same]
  · obtain ⟨h1, h2, h3, h4, h5⟩ := createDelegateModel_facts d m
    rw [setModel_eq d m hm]
    split_ifs <;> simp [h5]

theorem setModel_currentIndex_of_complete (d : ComboBox) (m : QVariant) (hm : d.model ≠ m)
    (hc : d.componentComplete = true) :
    (d.setModel m).currentIndex = if 0 < QVariant.rowCount m then 0 else -1 := by
  obtain ⟨h1, h2, h3, h4, h5⟩ := createDelegateModel_facts d m
  rw [setModel_eq d m hm]
  have h1c : (createDelegateModel { d with model := m }).count = QVariant.rowCount m := by
    rw [h1, hc, exposedCount_complete]
  generalize createDelegateModel { d with model := m } = d2 at h1c h2 h3 h4 h5 ⊢
  rw [h2, hc, h1c]
  simp

theorem setModel_currentIndex_of_incomplete (d : ComboBox) (m : QVariant)
    (hc : d.componentComplete = false) :
    (d.setModel m).currentIndex = d.currentIndex := by
  by_cases hm : d.model = m
  · rw [← hm, setModel_same]
  · obtain ⟨h1, h2, h3, h4, h5⟩ := createDelegateModel_facts d m
    rw [setModel_eq d m hm]
    generalize createDelegateModel { d with model := m } = d2 at h1 h2 h3 h4 h5 ⊢
    rw [h2, hc]
    simp [h3]

end ComboBox

end QtCellink

namespace QtCellink

namespace ComboBox

open ComboBoxPrivate

/-! ## Key events and notifications -/

theorem keyPressEvent_delegateModel (d : ComboBox) (e : KeyEvent) :
    (d.keyPressEvent e).delegateModel = d.delegateModel := by
  unfold keyPressEvent
  cases e.key <;> simp only [] <;> (try split_ifs) <;> simp

theorem keyPressEvent_popup (d : ComboBox) (e : KeyEvent) :
    (d.keyPressEvent e).popup = d.popup := by
  unfold keyPressEvent
  cases e.key <;> simp only [] <;> (try split_ifs) <;> simp

theorem keyPressEvent_currentIndex (d : ComboBox) (e : KeyEvent)
    (hc : ValidIndex d.currentIndex d.count)
    (hg : e.key = Key.Key_Home → isPopupVisible d = false → 0 < d.count) :
    ValidIndex (d.keyPressEvent e).currentIndex d.count := by
  have hn := count_nonneg d
  unfold keyPressEvent
  cases hk : e.key <;> simp only []
  case Key_Escape => exact hc
  case Key_Back => exact hc
  case Key_Space => split_ifs <;> simpa using hc
  case Key_Enter => split_ifs <;> simpa using hc
  case Key_Return => split_ifs <;> simpa using hc
  case Key_Up => exact decrementCurrentIndex_currentIndex { d with keyNavigating := true } hc
  case Key_Down => exact incrementCurrentIndex_currentIndex { d with keyNavigating := true } hc
  case Key_Home =>
    split_ifs with hv
    · simpa using hc
    · rw [ComboBoxPrivate.setCurrentIndex_currentIndex]
      have hv2 : isPopupVisible d = false := by
        have : isPopupVisible { d with keyNavigating := true } = isPopupVisible d := rfl
        rw [this] at hv; simpa using hv
      exact Or.inr ⟨le_refl 0, hg hk hv2⟩
  case Key_End =>
    split_ifs with hv
    · simpa using hc
    · rw [ComboBoxPrivate.setCurrentIndex_currentIndex]
      have hcount : ({ d with keyNavigating := true } : ComboBox).count = d.count := rfl
      rw [hcount]
      by_cases h0 : d.count = 0
      · left; omega
      · right; omega
  case Key_Other =>
    split_ifs
    · exact keySearch_currentIndex d e.text hc
    · exact hc

theorem keyPressEvent_highlightedIndex (d : ComboBox) (e : KeyEvent)
    (hh : ValidIndex d.highlightedIndex d.count)
    (hg : e.key = Key.Key_Home → isPopupVisible d = true → 0 < d.count) :
    ValidIndex (d.keyPressEvent e).highlightedIndex d.count := by
  have hn := count_nonneg d
  unfold keyPressEvent
  cases hk : e.key <;> simp only []
  case Key_Escape => exact hh
  case Key_Back => exact hh
  case Key_Space => split_ifs <;> simpa using hh
  case Key_Enter => split_ifs <;> simpa using hh
  case Key_Return => split_ifs <;> simpa using hh
  case Key_Up => exact decrementCurrentIndex_highlightedIndex { d with keyNavigating := true } hh
  case Key_Down => exact incrementCurrentIndex_highlightedIndex { d with keyNavigating := true } hh
  case Key_Home =>
    split_ifs with hv
    · rw [setHighlightedIndex_highlightedIndex]
      exact Or.inr ⟨le_refl 0, hg hk hv⟩
    · simpa using hh
  case Key_End =>
    split_ifs with hv
    · rw [setHighlightedIndex_highlightedIndex]
      have hcount : ({ d with keyNavigating := true } : ComboBox).count = d.count := rfl
      rw [hcount]
      by_cases h0 : d.count = 0
      · left; omega
      · right; omega
    · simpa using hh
  case Key_Other =>
    split_ifs
    · exact keySearch_highlightedIndex d e.text hh
    · exact hh

theorem keyReleaseEvent_delegateModel (d : ComboBox) (e : KeyEvent) :
    (d.keyReleaseEvent e).delegateModel = d.delegateModel := by
  unfold keyReleaseEvent
  cases e.key <;> simp only [] <;> split_ifs <;> simp

theorem keyReleaseEvent_popup (d : ComboBox) (e : KeyEvent) :
    (d.keyReleaseEvent e).popup = d.popup := by
  unfold keyReleaseEvent
  cases e.key <;> simp only [] <;> split_ifs <;> simp

theorem keyReleaseEvent_highlightedIndex (d : ComboBox) (e : KeyEvent) :
    (d.keyReleaseEvent e).highlightedIndex = d.highlightedIndex := by
  unfold keyReleaseEvent
  cases e.key <;> simp only [] <;> split_ifs <;> simp

/-- A key release leaves the current index as it is, or (with the popup
visible, when the release accepts the highlighted row) sets it to the
highlighted index. -/
theorem keyReleaseEvent_currentIndex (d : ComboBox) (e : KeyEvent) :
    (d.keyReleaseEvent e).currentIndex = d.currentIndex
      ∨ (isPopupVisible d = true ∧ acceptsHighlighted d e = true
          ∧ (d.keyReleaseEvent e).currentIndex = d.highlightedIndex) := by
  have hvis : isPopupVisible { d with keyNavigating := false } = isPopupVisible d := rfl
  have hed : ({ d with keyNavigating := false } : ComboBox).isEditable = d.isEditable := rfl
  unfold keyReleaseEvent acceptsHighlighted
  cases hv : isPopupVisible d <;> cases hr : e.isAutoRepeat <;> cases hk : e.key <;>
    cases he : d.isEditable <;> simp only [] <;> (try split_ifs) <;>
    simp_all [togglePopup]

theorem onPopupVisible_delegateModel (d : ComboBox) (v : Bool) :
    (d.onPopupVisible v).delegateModel = d.delegateModel := by
  unfold onPopupVisible
  split <;> (try split_ifs) <;> simp
theorem onPopupVisible_currentIndex (d : ComboBox) (v : Bool) :
    (d.onPopupVisible v).currentIndex = d.currentIndex := by
  unfold onPopupVisible
  split <;> (try split_ifs) <;> simp
theorem onPopupVisible_highlightedIndex (d : ComboBox) (v : Bool) :
    (d.onPopupVisible v).highlightedIndex = d.highlightedIndex
      ∨ (d.onPopupVisible v).highlightedIndex = (if v then d.currentIndex else -1) := by
  unfold onPopupVisible
  cases hp : d.popup with
  | none => exact Or.inl rfl
  | some p =>
    simp only []
    by_cases h1 : p.visible = v
    · left; simp [h1]
    · right
      simp only [h1, if_false]
      rw [popupVisibleChanged_highlightedIndex _ { p with visible := v } rfl]

theorem onModelCount_currentIndex (d : ComboBox) (rows : List Row) :
    d.onModelCount rows = d
      ∨ (((d.onModelCount rows).count = rows.length
            ∨ ((d.onModelCount rows).count = 0 ∧ d.count = 0))
          ∧ (d.onModelCount rows).highlightedIndex = d.highlightedIndex
          ∧ (d.onModelCount rows).currentIndex
              = if (d.onModelCount rows).count = 0 then -1 else d.currentIndex) := by
  unfold onModelCount
  split
  · exact Or.inl rfl
  · rename_i m hm
    right
    have hcount : (countChanged { d with delegateModel := some { m with rows := rows } }).count
        = if m.complete then (rows.length : Int) else 0 := by
      rw [count_congr _ _ (countChanged_delegateModel _)]
      simp [ComboBox.count, InstanceModel.count]
    refine ⟨?_, by simp, ?_⟩
    · rw [hcount]
      split_ifs with hcomp
      · exact Or.inl rfl
      · refine Or.inr ⟨rfl, ?_⟩
        simp [ComboBox.count, InstanceModel.count, hm, hcomp]
    · rw [hcount, countChanged_currentIndex]
      simp [ComboBox.count, InstanceModel.count]

theorem indexOfItem_valid (d : ComboBox) (i : Nat) : ValidIndex (d.indexOfItem i) d.count := by
  unfold indexOfItem
  split_ifs with h
  · exact Or.inr ⟨Int.ofNat_nonneg i, h⟩
  · exact Or.inl rfl

end ComboBox

end QtCellink

namespace QtCellink

namespace ComboBox

open ComboBoxPrivate

/-! ## The index invariants -/

theorem step_currentIndex_valid (d : ComboBox) (e : Event)
    (hc : ValidIndex d.currentIndex d.count) (hg : AdmitsCurrent d e) :
    ValidIndex (d.step e).currentIndex (d.step e).count := by
  have hn := count_nonneg d
  cases e with
  | setModel m =>
    show ValidIndex (d.setModel m).currentIndex (d.setModel m).count
    by_cases hm : d.model = m
    · rw [← hm, setModel_same]; exact hc
    · rcases hg.resolve_left hm with hcomp | hvalid
      · rw [setModel_count d m hm, setModel_currentIndex_of_complete d m hm hcomp, hcomp,
          exposedCount_complete]
        split_ifs with h0
        · exact Or.inr ⟨le_refl 0, h0⟩
        · exact Or.inl rfl
      · cases hcomp : d.componentComplete with
        | true =>
          rw [setModel_count d m hm, setModel_currentIndex_of_complete d m hm hcomp, hcomp,
            exposedCount_complete]
          split_ifs with h0
          · exact Or.inr ⟨le_refl 0, h0⟩
          · exact Or.inl rfl
        | false =>
          rw [setModel_count d m hm, setModel_currentIndex_of_incomplete d m hcomp]
          exact hvalid
  | setCurrentIndex i =>
    show ValidIndex (d.setCurrentIndex i).currentIndex (d.setCurrentIndex i).count
    rw [count_congr _ _ (publicSetCurrentIndex_delegateModel d i), publicSetCurrentIndex_currentIndex]
    exact hg
  | incrementCurrentIndex =>
    show ValidIndex (ComboBoxPrivate.incrementCurrentIndex d).currentIndex
      (ComboBoxPrivate.incrementCurrentIndex d).count
    rw [count_congr _ _ (incrementCurrentIndex_delegateModel d)]
    exact incrementCurrentIndex_currentIndex d hc
  | decrementCurrentIndex =>
    show ValidIndex (ComboBoxPrivate.decrementCurrentIndex d).currentIndex
      (ComboBoxPrivate.decrementCurrentIndex d).count
    rw [count_congr _ _ (decrementCurrentIndex_delegateModel d)]
    exact decrementCurrentIndex_currentIndex d hc
  | keyPress ev =>
    show ValidIndex (d.keyPressEvent ev).currentIndex (d.keyPressEvent ev).count
    rw [count_congr _ _ (keyPressEvent_delegateModel d ev)]
    exact keyPressEvent_currentIndex d ev hc hg
  | keyRelease ev =>
    show ValidIndex (d.keyReleaseEvent ev).currentIndex (d.keyReleaseEvent ev).count
    rw [count_congr _ _ (keyReleaseEvent_delegateModel d ev)]
    rcases keyReleaseEvent_currentIndex d ev with h | ⟨hv, ha, h⟩
    · rw [h]; exact hc
    · rw [h]; exact hg ha hv
  | popupVisible v =>
    show ValidIndex (d.onPopupVisible v).currentIndex (d.onPopupVisible v).count
    rw [count_congr _ _ (onPopupVisible_delegateModel d v), onPopupVisible_currentIndex]
    exact hc
  | modelCount rows =>
    show ValidIndex (d.onModelCount rows).currentIndex (d.onModelCount rows).count
    rcases onModelCount_currentIndex d rows with h | ⟨h1, _, h3⟩
    · rw [h]; exact hc
    · rw [h3]
      have hg2 : rows = [] ∨ d.currentIndex < rows.length := hg
      split_ifs with h0
      · exact Or.inl rfl
      · rcases h1 with h1 | ⟨h1, _⟩
        · rw [h1]
          rcases hg2 with hg2 | hg2
          · exact absurd (by rw [h1, hg2]; rfl) h0
          · rcases hc with hc | hc
            · exact Or.inl hc
            · exact Or.inr ⟨hc.1, hg2⟩
        · exact absurd h1 h0
  | itemClicked i =>
    show ValidIndex (itemClicked d (d.indexOfItem i)).currentIndex
      (itemClicked d (d.indexOfItem i)).count
    rw [count_congr _ _ (itemClicked_delegateModel d _), itemClicked_currentIndex]
    split_ifs with h0
    · exact indexOfItem_valid d i
    · exact hc
  | itemHovered i =>
    show ValidIndex (itemHovered d true (d.indexOfItem i)).currentIndex
      (itemHovered d true (d.indexOfItem i)).count
    rw [count_congr _ _ (itemHovered_delegateModel d _ _), itemHovered_currentIndex]
    exact hc

theorem step_highlightedIndex_valid (d : ComboBox) (e : Event)
    (hh : ValidIndex d.highlightedIndex d.count) (hg : AdmitsHighlighted d e) :
    ValidIndex (d.step e).highlightedIndex (d.step e).count := by
  have hn := count_nonneg d
  cases e with
  | setModel m =>
    show ValidIndex (d.setModel m).highlightedIndex (d.setModel m).count
    by_cases hm : d.model = m
    · rw [← hm, setModel_same]; exact hh
    · rw [setModel_count d m hm, setModel_highlightedIndex]
      exact hg.resolve_left hm
  | setCurrentIndex i =>
    show ValidIndex (d.setCurrentIndex i).highlightedIndex (d.setCurrentIndex i).count
    rw [count_congr _ _ (publicSetCurrentIndex_delegateModel d i), publicSetCurrentIndex_highlightedIndex]
    exact hh
  | incrementCurrentIndex =>
    show ValidIndex (ComboBoxPrivate.incrementCurrentIndex d).highlightedIndex
      (ComboBoxPrivate.incrementCurrentIndex d).count
    rw [count_congr _ _ (incrementCurrentIndex_delegateModel d)]
    exact incrementCurrentIndex_highlightedIndex d hh
  | decrementCurrentIndex =>
    show ValidIndex (ComboBoxPrivate.decrementCurrentIndex d).highlightedIndex
      (ComboBoxPrivate.decrementCurrentIndex d).count
    rw [count_congr _ _ (decrementCurrentIndex_delegateModel d)]
    exact decrementCurrentIndex_highlightedIndex d hh
  | keyPress ev =>
    show ValidIndex (d.keyPressEvent ev).highlightedIndex (d.keyPressEvent ev).count
    rw [count_congr _ _ (keyPressEvent_delegateModel d ev)]
    exact keyPressEvent_highlightedIndex d ev hh hg
  | keyRelease ev =>
    show ValidIndex (d.keyReleaseEvent ev).highlightedIndex (d.keyReleaseEvent ev).count
    rw [count_congr _ _ (keyReleaseEvent_delegateModel d ev), keyReleaseEvent_highlightedIndex]
    exact hh
  | popupVisible v =>
    show ValidIndex (d.onPopupVisible v).highlightedIndex (d.onPopupVisible v).count
    rw [count_congr _ _ (onPopupVisible_delegateModel d v)]
    rcases onPopupVisible_highlightedIndex d v with h | h
    · rw [h]; exact hh
    · rw [h]
      cases v with
      | true => exact hg rfl
      | false => exact Or.inl rfl
  | modelCount rows =>
    show ValidIndex (d.onModelCount rows).highlightedIndex (d.onModelCount rows).count
    rcases onModelCount_currentIndex d rows with h | ⟨h1, h2, _⟩
    · rw [h]; exact hh
    · rw [h2]
      rcases h1 with h1 | ⟨h1, h0⟩
      · rw [h1]; exact hg
      · rw [h1, ← h0]; exact hh
  | itemClicked i =>
    show ValidIndex (itemClicked d (d.indexOfItem i)).highlightedIndex
      (itemClicked d (d.indexOfItem i)).count
    rw [count_congr _ _ (itemClicked_delegateModel d _), itemClicked_highlightedIndex]
    split_ifs with h0
    · exact indexOfItem_valid d i
    · exact hh
  | itemHovered i =>
    show ValidIndex (itemHovered d true (d.indexOfItem i)).highlightedIndex
      (itemHovered d true (d.indexOfItem i)).count
    rw [count_congr _ _ (itemHovered_delegateModel d _ _)]
    rcases itemHovered_highlightedIndex d true (d.indexOfItem i) with h | h
    · rw [h]; exact hh
    · rw [h]; exact indexOfItem_valid d i

/-- C9 (fails on the code): on a completed control, `setCurrentIndex(5)` over the
three rows Apple, Banana, Apricot stores 5; Home on a control without rows
stores 0; a model shrinking from three rows to one leaves the current index at
2; on a control that has not completed construction, at index 2 of three rows,
`setModel` with a model of one row leaves the index at 2; Return released while
the popup shows the highlighted index 0 over no rows stores 0.  In each case the
current index is neither `-1` nor in `[0, count)`. -/
theorem currentIndex_escapes_range :
    (sampleBox.run [.setModel (.collection fruitRows), .setCurrentIndex 5]).currentIndex = 5
      ∧ (sampleBox.run [.setModel (.collection fruitRows), .setCurrentIndex 5]).count = 3
      ∧ ¬ ValidIndex
          (sampleBox.run [.setModel (.collection fruitRows), .setCurrentIndex 5]).currentIndex
          (sampleBox.run [.setModel (.collection fruitRows), .setCurrentIndex 5]).count
      ∧ ¬ ValidIndex
          (sampleBox.run [.keyPress { key := .Key_Home, text := "", isAutoRepeat := false }]).currentIndex
          (sampleBox.run [.keyPress { key := .Key_Home, text := "", isAutoRepeat := false }]).count
      ∧ ¬ ValidIndex
          (sampleBox.run [.setModel (.collection fruitRows), .setCurrentIndex 2,
            .modelCount [Row.ofText "Apple"]]).currentIndex
          (sampleBox.run [.setModel (.collection fruitRows), .setCurrentIndex 2,
            .modelCount [Row.ofText "Apple"]]).count
      ∧ ValidIndex (incompleteBox.run [.setCurrentIndex 2]).currentIndex
          (incompleteBox.run [.setCurrentIndex 2]).count
      ∧ ¬ ValidIndex
          (incompleteBox.run [.setCurrentIndex 2,
            .setModel (.instanceModel 2 [Row.ofText "Apple"])]).currentIndex
          (incompleteBox.run [.setCurrentIndex 2,
            .setModel (.instanceModel 2 [Row.ofText "Apple"])]).count
      ∧ ValidIndex
          (sampleBox.run [.popupVisible true,
            .keyPress { key := .Key_Home, text := "", isAutoRepeat := false }]).currentIndex
          (sampleBox.run [.popupVisible true,
            .keyPress { key := .Key_Home, text := "", isAutoRepeat := false }]).count
      ∧ ¬ ValidIndex
          (sampleBox.run [.popupVisible true,
            .keyPress { key := .Key_Home, text := "", isAutoRepeat := false },
            .keyRelease { key := .Key_Return, text := "", isAutoRepeat := false }]).currentIndex
          (sampleBox.run [.popupVisible true,
            .keyPress { key := .Key_Home, text := "", isAutoRepeat := false },
            .keyRelease { key := .Key_Return, text := "", isAutoRepeat := false }]).count := by
  decide

/-- C9 (amended): from a state whose current index is `-1` or in `[0, count)`, the
current index is `-1` or in `[0, count)` after every sequence of `setModel`,
`setCurrentIndex`, `incrementCurrentIndex`, `decrementCurrentIndex`, key
presses and releases, popup visibility changes, model count changes, item
clicks and hovers in which each event is admitted (`AdmitsCurrent`):
`setCurrentIndex` gets `-1` or an index in `[0, count)`; `setModel` gets the
current model, or finds the control complete, or gives a model that exposes
more rows than the current index; Home with the popup closed finds a row; a key
release that accepts the highlighted row of a visible popup finds the
highlighted index `-1` or in `[0, count)`; and the count changes to 0 or stays
above the current index. -/
theorem currentIndex_valid_of_admitted (d : ComboBox) (events : List Event)
    (hc : ValidIndex d.currentIndex d.count) (hg : AdmitsCurrentRun d events) :
    ValidIndex (d.run events).currentIndex (d.run events).count := by
  induction events generalizing d with
  | nil => exact hc
  | cons e es ih => exact ih (d.step e) (step_currentIndex_valid d e hc hg.1) hg.2

/-- Witness of C9 (amended): a control under construction is given three rows,
then a model of four rows, and row 3 is selected; and on a completed control:
three rows, Down, popup shown, Down, Return released, the letter b typed, End,
then the model emptied. -/
theorem currentIndex_valid_of_admitted_witness :
    (ValidIndex newBox.currentIndex newBox.count
      ∧ AdmitsCurrentRun newBox
          [.setModel (.instanceModel 1 fruitRows),
            .setModel (.instanceModel 2 (fruitRows ++ [Row.ofText "Cherry"])),
            .setCurrentIndex 3]
      ∧ ValidIndex
          (newBox.run
            [.setModel (.instanceModel 1 fruitRows),
              .setModel (.instanceModel 2 (fruitRows ++ [Row.ofText "Cherry"])),
              .setCurrentIndex 3]).currentIndex
          (newBox.run
            [.setModel (.instanceModel 1 fruitRows),
              .setModel (.instanceModel 2 (fruitRows ++ [Row.ofText "Cherry"])),
              .setCurrentIndex 3]).count)
      ∧ ValidIndex sampleBox.currentIndex sampleBox.count
      ∧ AdmitsCurrentRun sampleBox
          [.setModel (.collection fruitRows), .keyPress ⟨.Key_Down, "", false⟩,
            .popupVisible true, .keyPress ⟨.Key_Down, "", false⟩,
            .keyRelease ⟨.Key_Return, "", false⟩, .popupVisible false,
            .keyPress ⟨.Key_Other, "b", false⟩, .keyPress ⟨.Key_End, "", false⟩,
            .modelCount []]
      ∧ ValidIndex
          (sampleBox.run
            [.setModel (.collection fruitRows), .keyPress ⟨.Key_Down, "", false⟩,
              .popupVisible true, .keyPress ⟨.Key_Down, "", false⟩,
              .keyRelease ⟨.Key_Return, "", false⟩, .popupVisible false,
              .keyPress ⟨.Key_Other, "b", false⟩, .keyPress ⟨.Key_End, "", false⟩,
              .modelCount []]).currentIndex
          (sampleBox.run
            [.setModel (.collection fruitRows), .keyPress ⟨.Key_Down, "", false⟩,
              .popupVisible true, .keyPress ⟨.Key_Down, "", false⟩,
              .keyRelease ⟨.Key_Return, "", false⟩, .popupVisible false,
              .keyPress ⟨.Key_Other, "b", false⟩, .keyPress ⟨.Key_End, "", false⟩,
              .modelCount []]).count :=
  ⟨⟨by decide, by decide,
    currentIndex_valid_of_admitted newBox _ (by decide) (by decide)⟩,
   by decide, by decide,
   currentIndex_valid_of_admitted sampleBox _ (by decide) (by decide)⟩

/-- C10 (fails on the code): with the popup open on row 2 of three rows, setting
a model of one row leaves the highlighted index at 2; Home with the popup open
and no rows stores 0; the popup opening while the current index is 7 copies 7.
In each case the highlighted index is neither `-1` nor in `[0, count)`. -/
theorem highlightedIndex_escapes_range :
    (sampleBox.run [.setModel (.collection fruitRows), .setCurrentIndex 2, .popupVisible true,
        .setModel (.collection [Row.ofText "Apple"])]).highlightedIndex = 2
      ∧ (sampleBox.run [.setModel (.collection fruitRows), .setCurrentIndex 2, .popupVisible true,
        .setModel (.collection [Row.ofText "Apple"])]).count = 1
      ∧ ¬ ValidIndex
          (sampleBox.run [.setModel (.collection fruitRows), .setCurrentIndex 2,
            .popupVisible true, .setModel (.collection [Row.ofText "Apple"])]).highlightedIndex
          (sampleBox.run [.setModel (.collection fruitRows), .setCurrentIndex 2,
            .popupVisible true, .setModel (.collection [Row.ofText "Apple"])]).count
      ∧ ¬ ValidIndex
          (sampleBox.run [.popupVisible true,
            .keyPress { key := .Key_Home, text := "", isAutoRepeat := false }]).highlightedIndex
          (sampleBox.run [.popupVisible true,
            .keyPress { key := .Key_Home, text := "", isAutoRepeat := false }]).count
      ∧ ¬ ValidIndex
          (sampleBox.run [.setModel (.collection fruitRows), .setCurrentIndex 7,
            .popupVisible true]).highlightedIndex
          (sampleBox.run [.setModel (.collection fruitRows), .setCurrentIndex 7,
            .popupVisible true]).count := by
  decide

/-- C10 (amended): from a state whose highlighted index is `-1` or in
`[0, count)`, the highlighted index is `-1` or in `[0, count)` after every
sequence of events in which each event is admitted (`AdmitsHighlighted`):
`setModel` gets the current model or one that exposes more rows than the
highlighted index, Home with the popup visible finds a row, the popup becomes
visible only while the current index is `-1` or in `[0, count)`, and the model's
count stays above the highlighted index. -/
theorem highlightedIndex_valid_of_admitted (d : ComboBox) (events : List Event)
    (hh : ValidIndex d.highlightedIndex d.count) (hg : AdmitsHighlightedRun d events) :
    ValidIndex (d.run events).highlightedIndex (d.run events).count := by
  induction events generalizing d with
  | nil => exact hh
  | cons e es ih => exact ih (d.step e) (step_highlightedIndex_valid d e hh hg.1) hg.2

/-- Witness of C10 (amended): three rows, popup shown, End, Up, the letter a typed,
row 1 hovered, the model growing by a row, popup hidden. -/
theorem highlightedIndex_valid_of_admitted_witness :
    ValidIndex sampleBox.highlightedIndex sampleBox.count
      ∧ AdmitsHighlightedRun sampleBox
          [.setModel (.collection fruitRows), .popupVisible true,
            .keyPress ⟨.Key_End, "", false⟩, .keyPress ⟨.Key_Up, "", false⟩,
            .keyPress ⟨.Key_Other, "a", false⟩, .itemHovered 1,
            .modelCount (fruitRows ++ [Row.ofText "Cherry"]), .popupVisible false]
      ∧ ValidIndex
          (sampleBox.run
            [.setModel (.collection fruitRows), .popupVisible true,
              .keyPress ⟨.Key_End, "", false⟩, .keyPress ⟨.Key_Up, "", false⟩,
              .keyPress ⟨.Key_Other, "a", false⟩, .itemHovered 1,
              .modelCount (fruitRows ++ [Row.ofText "Cherry"]),
              .popupVisible false]).highlightedIndex
          (sampleBox.run
            [.setModel (.collection fruitRows), .popupVisible true,
              .keyPress ⟨.Key_End, "", false⟩, .keyPress ⟨.Key_Up, "", false⟩,
              .keyPress ⟨.Key_Other, "a", false⟩, .itemHovered 1,
              .modelCount (fruitRows ++ [Row.ofText "Cherry"]),
              .popupVisible false]).count :=
  ⟨by decide, by decide,
   highlightedIndex_valid_of_admitted sampleBox _ (by decide) (by decide)⟩

end ComboBox

end QtCellink

namespace QtCellink

/-! ## Count changes, unchanged index sets, and model swaps -/

namespace ComboBoxPrivate

open ComboBox

theorem setEditText_emitted_extends (d : ComboBox) (t : QString) :
    ∃ l, (d.setEditText t).emitted = d.emitted ++ l := by
  unfold ComboBox.setEditText
  split_ifs
  · exact ⟨[], by simp⟩
  · exact ⟨[ComboSignal.editTextChanged], rfl⟩

theorem updateCurrentText_emitted_extends (d : ComboBox) :
    ∃ l, (updateCurrentText d).emitted = d.emitted ++ l := by
  let f1 : ComboBox → QString → ComboBox := fun x text =>
    if x.currentText ≠ text then
      ({ x with currentText := text } : ComboBox).emit .currentTextChanged
    else x
  let f2 : ComboBox → QString → ComboBox := fun x text =>
    if !x.hasDisplayText ∧ x.displayText ≠ text then
      ({ x with displayText := text } : ComboBox).emit .displayTextChanged
    else x
  let f3 : ComboBox → ComboBox := fun x =>
    match x.extra with
    | none => x.setEditText x.currentText
    | some e => if !e.accepting then x.setEditText x.currentText else x
  have h1 : ∀ x text, ∃ l, (f1 x text).emitted = x.emitted ++ l := by
    intro x text
    simp only [f1]
    split_ifs
    · exact ⟨[ComboSignal.currentTextChanged], rfl⟩
    · exact ⟨[], by simp⟩
  have h2 : ∀ x text, ∃ l, (f2 x text).emitted = x.emitted ++ l := by
    intro x text
    simp only [f2]
    split_ifs
    · exact ⟨[ComboSignal.displayTextChanged], rfl⟩
    · exact ⟨[], by simp⟩
  have h3 : ∀ x, ∃ l, (f3 x).emitted = x.emitted ++ l := by
    intro x
    simp only [f3]
    split
    · exact setEditText_emitted_extends x _
    · split_ifs
      · exact setEditText_emitted_extends x _
      · exact ⟨[], by simp⟩
  show ∃ l, (f3 (f2 (f1 d (d.textAt d.currentIndex)) (d.textAt d.currentIndex))).emitted
      = d.emitted ++ l
  obtain ⟨l1, e1⟩ := h1 d (d.textAt d.currentIndex)
  obtain ⟨l2, e2⟩ := h2 (f1 d (d.textAt d.currentIndex)) (d.textAt d.currentIndex)
  obtain ⟨l3, e3⟩ := h3 (f2 (f1 d (d.textAt d.currentIndex)) (d.textAt d.currentIndex))
  exact ⟨l1 ++ l2 ++ l3, by rw [e3, e2, e1]; simp⟩

end ComboBoxPrivate

namespace ComboBox

open ComboBoxPrivate

theorem publicSetCurrentIndex_same (d : ComboBox) :
    d.setCurrentIndex d.currentIndex = { d with hasCurrentIndex := true } := by
  simp [ComboBox.setCurrentIndex, ComboBoxPrivate.setCurrentIndex]

/-- A public `setCurrentIndex` to a different index emits `currentIndexChanged`
first, then whatever the text update emits. -/
theorem publicSetCurrentIndex_emitted_of_ne (d : ComboBox) (i : Int) (h : d.currentIndex ≠ i) :
    ∃ l, (d.setCurrentIndex i).emitted = d.emitted ++ ComboSignal.currentIndexChanged :: l := by
  simp only [ComboBox.setCurrentIndex, ComboBoxPrivate.setCurrentIndex, h, if_false]
  split_ifs
  · obtain ⟨l, hl⟩ := updateCurrentText_emitted_extends
      (({ d with hasCurrentIndex := true, currentIndex := i } : ComboBox).emit
        ComboSignal.currentIndexChanged)
    exact ⟨l, by rw [hl]; simp [ComboBox.emit]⟩
  · exact ⟨[], by simp [ComboBox.emit]⟩

/-- C11: when the count-changed reaction runs while `count()` is 0, the current
index is -1 afterwards, whatever it was, and `countChanged` is the last signal
emitted; when the count is not 0, the reaction only emits `countChanged` and
leaves the current index (and the rest of the state) as it was.  The same holds
for a delegate model that reports a change to zero rows. -/
theorem countChanged_resets_on_zero (d : ComboBox) :
    (d.count = 0 →
        (countChanged d).currentIndex = -1
          ∧ (countChanged d).emitted
              = (d.setCurrentIndex (-1)).emitted ++ [ComboSignal.countChanged])
      ∧ (d.count ≠ 0 →
          countChanged d = d.emit ComboSignal.countChanged
            ∧ (countChanged d).currentIndex = d.currentIndex
            ∧ (countChanged d).emitted = d.emitted ++ [ComboSignal.countChanged])
      ∧ (d.delegateModel ≠ none → (d.onModelCount []).currentIndex = -1) := by
  refine ⟨fun h0 => ?_, fun h0 => ?_, fun hm => ?_⟩
  · simp [countChanged, h0, ComboBox.emit]
  · simp [countChanged, h0, ComboBox.emit]
  · have h0 : ∀ m : InstanceModel,
        ({ d with delegateModel := some { m with rows := [] } } : ComboBox).count = 0 := by
      intro m
      simp [ComboBox.count, InstanceModel.count]
    unfold onModelCount
    cases hd : d.delegateModel with
    | none => exact absurd hd hm
    | some m =>
      simp only []
      rw [countChanged_currentIndex, h0 m]
      simp

/-- Witness of C11: the model of the fruit control, at row 2, loses all its rows;
and it shrinks to one row. -/
theorem countChanged_resets_on_zero_witness :
    (fruitBox.setCurrentIndex 2).delegateModel ≠ none
      ∧ ((fruitBox.setCurrentIndex 2).onModelCount []).currentIndex = -1
      ∧ ({ fruitBox.setCurrentIndex 2 with
            delegateModel := some { rows := [Row.ofText "Apple"] } } : ComboBox).count ≠ 0
      ∧ (countChanged { fruitBox.setCurrentIndex 2 with
            delegateModel := some { rows := [Row.ofText "Apple"] } }).currentIndex = 2 :=
  ⟨by decide,
   (countChanged_resets_on_zero (fruitBox.setCurrentIndex 2)).2.2 (by decide),
   by decide,
   ((countChanged_resets_on_zero { fruitBox.setCurrentIndex 2 with
      delegateModel := some { rows := [Row.ofText "Apple"] } }).2.1 (by decide)).2.1.trans
     (by decide)⟩

/-- C12: `setCurrentIndex(i)` with `i` equal to the current index emits nothing:
the trace of signals (`currentIndexChanged`, `currentTextChanged`,
`displayTextChanged`, `editTextChanged`, `activated` and all others) is the one
from before the call. -/
theorem setCurrentIndex_same_emits_nothing (d : ComboBox) (i : Int)
    (h : i = d.currentIndex) :
    (d.setCurrentIndex i).emitted = d.emitted
      ∧ (d.setCurrentIndex i).currentIndex = d.currentIndex
      ∧ (d.setCurrentIndex i).currentText = d.currentText
      ∧ (d.setCurrentIndex i).displayText = d.displayText
      ∧ (d.setCurrentIndex i).editText = d.editText := by
  subst h
  rw [publicSetCurrentIndex_same]
  exact ⟨rfl, rfl, rfl, rfl, rfl⟩

/-- Witness of C12: `setCurrentIndex(0)` on the fruit control, whose index is 0. -/
theorem setCurrentIndex_same_emits_nothing_witness :
    (0 : Int) = fruitBox.currentIndex ∧ (fruitBox.setCurrentIndex 0).emitted = fruitBox.emitted :=
  ⟨by decide, (setCurrentIndex_same_emits_nothing fruitBox 0 (by decide)).1⟩

/-- C13 (fails on the code): on a control that has not completed construction,
has a model of three rows and the current index -1, `setCurrentIndex(-1)` sets
the flag `hasCurrentIndex`, so the state differs from before; completing the
component then leaves the index at -1, whereas without the call it selects
row 0. -/
theorem setCurrentIndex_same_changes_completion :
    incompleteBox.currentIndex = -1
      ∧ incompleteBox.hasCurrentIndex = false
      ∧ (incompleteBox.setCurrentIndex (-1)).hasCurrentIndex = true
      ∧ (incompleteBox.setCurrentIndex (-1)).componentComplete_.currentIndex = -1
      ∧ incompleteBox.componentComplete_.currentIndex = 0 := by
  decide

/-- C13 (amended): `setCurrentIndex(i)` with `i` equal to the current index
changes nothing but the flag `hasCurrentIndex`, which it sets; the state after
the call is the state before it exactly when the flag was already set. -/
theorem setCurrentIndex_same_sets_flag_only (d : ComboBox) (i : Int)
    (h : i = d.currentIndex) :
    d.setCurrentIndex i = { d with hasCurrentIndex := true }
      ∧ (d.setCurrentIndex i = d ↔ d.hasCurrentIndex = true) := by
  subst h
  rw [publicSetCurrentIndex_same]
  refine ⟨rfl, fun he => ?_, fun hf => ?_⟩
  · have := congrArg ComboBox.hasCurrentIndex he
    simpa using this.symm
  · cases d
    simp only [ComboBox.mk.injEq, true_and, and_true]
    simp_all

/-- Witness of C13 (amended): `setCurrentIndex(-1)` on the incomplete control. -/
theorem setCurrentIndex_same_sets_flag_only_witness :
    (-1 : Int) = incompleteBox.currentIndex
      ∧ incompleteBox.setCurrentIndex (-1) = { incompleteBox with hasCurrentIndex := true } :=
  ⟨by decide, (setCurrentIndex_same_sets_flag_only incompleteBox (-1) (by decide)).1⟩

end ComboBox

end QtCellink

namespace QtCellink

namespace ComboBox

open ComboBoxPrivate

theorem createDelegateModel_emitted (d : ComboBox) (m : QVariant) :
    (createDelegateModel { d with model := m }).emitted
      = d.emitted ++ [ComboSignal.delegateModelChanged] := by
  cases m <;> simp [createDelegateModel, ComboBox.emit]

/-- C14 (fails on the code): on a control that has not completed construction and
whose current index was set to 2, `setModel` with a model of three rows (or with
an empty one) leaves the current index at 2; it does not become -1. -/
theorem setModel_before_completion_keeps_index :
    ((construct none (fun _ _ _ _ => false) QString.foldAscii
        QString.containsAscii).setCurrentIndex 2).componentComplete = false
      ∧ (((construct none (fun _ _ _ _ => false) QString.foldAscii
          QString.containsAscii).setCurrentIndex 2).setModel
          (.instanceModel 1 fruitRows)).currentIndex = 2
      ∧ (((construct none (fun _ _ _ _ => false) QString.foldAscii
          QString.containsAscii).setCurrentIndex 2).setModel
          (.instanceModel 1 fruitRows)).count = 3
      ∧ (((construct none (fun _ _ _ _ => false) QString.foldAscii
          QString.containsAscii).setCurrentIndex 2).setModel
          (.collection [])).currentIndex = 2 := by
  decide

/-- C14 (amended): `setModel(source)` with a source different from the current
model makes the count that of the new model (the rows it exposes; a delegate
model that the control builds itself exposes none before the control is
complete); on a fully constructed control the current index is then 0 if the
new count is not zero and -1 if it is zero; on a control not yet fully
constructed the current index is left as it was.  `setModel` with the current
model returns the state unchanged. -/
theorem setModel_resets_index_when_complete (d : ComboBox) (m : QVariant)
    (hm : d.model ≠ m) :
    (d.setModel m).count = QVariant.exposedCount m d.componentComplete
      ∧ (d.componentComplete = true → (d.setModel m).count = QVariant.rowCount m)
      ∧ (d.componentComplete = true →
          (d.setModel m).currentIndex = if 0 < QVariant.rowCount m then 0 else -1)
      ∧ (d.componentComplete = false → (d.setModel m).currentIndex = d.currentIndex)
      ∧ d.setModel d.model = d :=
  ⟨setModel_count d m hm,
   fun hc => by rw [setModel_count d m hm, hc, exposedCount_complete],
   setModel_currentIndex_of_complete d m hm,
   setModel_currentIndex_of_incomplete d m, setModel_same d⟩

/-- Witness of C14 (amended): the completed fruit control at row 2 is given the
rows Alpha, Alphabet, Beta. -/
theorem setModel_resets_index_when_complete_witness :
    (fruitBox.setCurrentIndex 2).model
        ≠ .collection [Row.ofText "Alpha", Row.ofText "Alphabet", Row.ofText "Beta"]
      ∧ (fruitBox.setCurrentIndex 2).componentComplete = true
      ∧ ((fruitBox.setCurrentIndex 2).setModel
          (.collection [Row.ofText "Alpha", Row.ofText "Alphabet", Row.ofText "Beta"])).currentIndex
          = 0 :=
  ⟨by decide, by decide,
   ((setModel_resets_index_when_complete (fruitBox.setCurrentIndex 2)
      (.collection [Row.ofText "Alpha", Row.ofText "Alphabet", Row.ofText "Beta"])
      (by decide)).2.2.1 (by decide)).trans (by decide)⟩

/-- C15 (fails on the code): on the completed fruit control at row 2, setting the
model to an empty collection emits `currentIndexChanged` but never
`countChanged`; and on a control that has not completed construction the same
call leaves the current index at 2. -/
theorem setModel_empty_emits_no_countChanged :
    (fruitBox.setCurrentIndex 2).currentIndex = 2
      ∧ ((fruitBox.setCurrentIndex 2).setModel (.collection [])).currentIndex = -1
      ∧ ((fruitBox.setCurrentIndex 2).setModel (.collection [])).emitted
          = (fruitBox.setCurrentIndex 2).emitted
              ++ [.delegateModelChanged, .currentIndexChanged, .currentTextChanged,
                  .displayTextChanged, .editTextChanged, .modelChanged]
      ∧ (incompleteBox.setCurrentIndex 2).currentIndex = 2
      ∧ ((incompleteBox.setCurrentIndex 2).setModel (.collection [])).currentIndex = 2 := by
  decide

/-- C15 (amended): on a fully constructed control whose current index is 2,
setting the model to an empty collection (one that differs from the current
model) makes the count 0, drives the current index to -1, and emits
`delegateModelChanged` followed by `currentIndexChanged`. -/
theorem setModel_empty_resets_index (d : ComboBox) (m : QVariant)
    (hc : d.componentComplete = true) (hi : d.currentIndex = 2) (hm : d.model ≠ m)
    (h0 : QVariant.rowCount m = 0) :
    (d.setModel m).count = 0
      ∧ (d.setModel m).currentIndex = -1
      ∧ ∃ l, (d.setModel m).emitted
          = d.emitted ++ ComboSignal.delegateModelChanged :: ComboSignal.currentIndexChanged :: l := by
  have he0 : QVariant.exposedCount m d.componentComplete = 0 := by
    rw [hc, exposedCount_complete, h0]
  refine ⟨by rw [setModel_count d m hm, he0], ?_, ?_⟩
  · rw [setModel_currentIndex_of_complete d m hm hc, h0]; simp
  · obtain ⟨h1, h2, h3, h4, h5⟩ := createDelegateModel_facts d m
    have he := createDelegateModel_emitted d m
    rw [setModel_eq d m hm]
    generalize createDelegateModel { d with model := m } = d2 at h1 h2 h3 h4 h5 he ⊢
    rw [h2, hc, h1, he0]
    simp only [if_true, gt_iff_lt, lt_self_iff_false, if_false]
    have hne : d2.currentIndex ≠ -1 := by rw [h3, hi]; decide
    obtain ⟨l1, e1⟩ := publicSetCurrentIndex_emitted_of_ne d2 (-1) hne
    obtain ⟨l2, e2⟩ := updateCurrentText_emitted_extends (d2.setCurrentIndex (-1))
    refine ⟨l1 ++ l2 ++ [ComboSignal.modelChanged], ?_⟩
    show (updateCurrentText (d2.setCurrentIndex (-1))).emitted ++ [ComboSignal.modelChanged] = _
    rw [e2, e1, he]
    simp

/-- Witness of C15 (amended): the completed fruit control at row 2 is given an
empty collection. -/
theorem setModel_empty_resets_index_witness :
    (fruitBox.setCurrentIndex 2).componentComplete = true
      ∧ (fruitBox.setCurrentIndex 2).currentIndex = 2
      ∧ (fruitBox.setCurrentIndex 2).model ≠ .collection []
      ∧ QVariant.rowCount (.collection []) = 0
      ∧ ((fruitBox.setCurrentIndex 2).setModel (.collection [])).currentIndex = -1 :=
  ⟨by decide, by decide, by decide, by decide,
   (setModel_empty_resets_index (fruitBox.setCurrentIndex 2) (.collection [])
      (by decide) (by decide) (by decide) (by decide)).2.1⟩

end ComboBox

end QtCellink

namespace QtCellink

/-! ## `textAt` and `find` -/

namespace ComboBox

open ComboBoxPrivate

theorem QString.ofString_empty : QString.ofString "" = [] := rfl

theorem QString.isEmpty_iff (s : QString) : s.isEmpty = true ↔ s = [] := by
  cases s <;> simp

theorem QString.isEmpty_eq_false_iff (s : QString) : s.isEmpty = false ↔ s ≠ [] := by
  cases s <;> simp

theorem textAt_of_model (d : ComboBox) (m : InstanceModel) (hm : d.delegateModel = some m)
    (i : Int) (h0 : 0 ≤ i) (h1 : i < d.count) :
    d.textAt i
      = if m.object i then
          m.stringValue i (if d.textRole = "" then ("modelData" : QString) else d.textRole)
        else "" := by
  have hc : d.count = m.count := by simp [ComboBox.count, hm]
  have hrole : (if d.textRole.isEmpty then ("modelData" : QString) else d.textRole)
      = (if d.textRole = "" then ("modelData" : QString) else d.textRole) := by
    rw [QString.ofString_empty]
    by_cases he : d.textRole = []
    · have : d.textRole.isEmpty = true := (QString.isEmpty_iff _).2 he
      rw [if_pos this, if_pos he]
    · have : d.textRole.isEmpty = false := (QString.isEmpty_eq_false_iff _).2 he
      rw [if_neg he, this]
      rfl
  unfold textAt
  rw [hm]
  simp only []
  rw [if_neg (by omega), hrole]
  rfl

theorem textAt_out_of_range (d : ComboBox) (i : Int) (h : i < 0 ∨ d.count ≤ i) :
    d.textAt i = "" := by
  unfold textAt
  cases hm : d.delegateModel with
  | none => rfl
  | some m =>
    have hc : d.count = m.count := by simp [ComboBox.count, hm]
    simp only []
    rw [if_pos (by omega)]
    rfl

/-- C16 (fails on the code): over a model of one row whose `modelData` string is
Apple but for which the adapter yields no object, `textAt(0)` is the empty
string, not the adapter's string value. -/
theorem textAt_without_object :
    noObjectBox.count = 1
      ∧ noObjectBox.textAt 0 = ""
      ∧ noObjectBox.delegateModel.map (fun m => m.stringValue 0 "modelData")
          = some ("Apple" : QString) := by
  decide

/-- C16 (amended): `textAt(i)` is the empty string for every `i < 0` and every
`i >= count`, and for every `i` when no model is set or the model is empty; for
`0 <= i < count` it is the adapter's string value of row `i` for the configured
text role, with the role `modelData` when the text role is empty, provided the
adapter yields an object for row `i`, and the empty string otherwise. -/
theorem textAt_total (d : ComboBox) (i : Int) :
    ((i < 0 ∨ d.count ≤ i) → d.textAt i = "")
      ∧ (d.delegateModel = none → d.textAt i = "")
      ∧ (d.count = 0 → d.textAt i = "")
      ∧ (∀ m, d.delegateModel = some m → 0 ≤ i → i < d.count →
          d.textAt i
            = if m.object i then
                m.stringValue i
                  (if d.textRole = "" then ("modelData" : QString) else d.textRole)
              else "") := by
  refine ⟨textAt_out_of_range d i, ?_, ?_, fun m hm h0 h1 => textAt_of_model d m hm i h0 h1⟩
  · intro hm
    unfold textAt
    rw [hm]
    rfl
  · intro hc
    apply textAt_out_of_range
    omega

/-- Witness of C16 (amended): rows 1 and 5 of the fruit control. -/
theorem textAt_total_witness :
    ((5 : Int) < 0 ∨ fruitBox.count ≤ 5) ∧ fruitBox.textAt 5 = ""
      ∧ fruitBox.delegateModel = some { rows := fruitRows }
      ∧ fruitBox.textAt 1 = "Banana" :=
  ⟨by decide, (textAt_total fruitBox 5).1 (by decide), by decide,
   ((textAt_total fruitBox 1).2.2.2 { rows := fruitRows } (by decide) (by decide)
      (by decide)).trans (by decide)⟩

end ComboBox

namespace ComboBoxPrivate

open ComboBox

/-- The first hit of a search over `f 0, f 1, ..., f (n-1)`. -/
theorem find?_map_range_some {α : Type} (p : α → Bool) (f : Nat → α) (n : Nat) (b : α)
    (h : ((List.range n).map f).find? p = some b) :
    ∃ k, k < n ∧ f k = b ∧ p b = true ∧ ∀ j, j < k → p (f j) = false := by
  induction n with
  | zero => simp at h
  | succ n ih =>
    rw [List.range_succ, List.map_append, List.find?_append] at h
    cases hfirst : ((List.range n).map f).find? p with
    | some c =>
      rw [hfirst] at h
      simp only [Option.or_some, Option.some.injEq] at h
      subst h
      obtain ⟨k, hk, e, hp, hmin⟩ := ih hfirst
      exact ⟨k, by omega, e, hp, hmin⟩
    | none =>
      rw [hfirst] at h
      simp only [Option.none_or, List.map_cons, List.map_nil] at h
      have hall : ∀ j, j < n → p (f j) = false := by
        intro j hj
        have := (List.find?_eq_none.1 hfirst) (f j)
          (List.mem_map.2 ⟨j, List.mem_range.2 hj, rfl⟩)
        simpa using this
      rw [List.find?_cons] at h
      cases hp : p (f n) with
      | true =>
        rw [hp] at h
        simp only [Option.some.injEq] at h
        subst h
        exact ⟨n, by omega, rfl, hp, hall⟩
      | false =>
        rw [hp] at h
        simp at h

theorem find?_map_range_none {α : Type} (p : α → Bool) (f : Nat → α) (n : Nat)
    (h : ((List.range n).map f).find? p = none) :
    ∀ j, j < n → p (f j) = false := by
  intro j hj
  have := (List.find?_eq_none.1 h) (f j) (List.mem_map.2 ⟨j, List.mem_range.2 hj, rfl⟩)
  simpa using this

theorem matchRange_some (d : ComboBox) (matchType : Nat) (cs : Bool) (text : QString)
    (first stop idx : Int) (h : matchRange d matchType cs text first stop = some idx) :
    first ≤ idx ∧ idx < stop
      ∧ rowMatches d matchType cs text (d.textAt idx) = true
      ∧ ∀ j, first ≤ j → j < idx → rowMatches d matchType cs text (d.textAt j) = false := by
  unfold matchRange at h
  obtain ⟨k, hk, e, hp, hmin⟩ := find?_map_range_some _ _ _ _ h
  subst e
  refine ⟨by omega, by omega, hp, ?_⟩
  intro j hj1 hj2
  have := hmin (j - first).toNat (by omega)
  have e2 : first + ((j - first).toNat : Int) = j := by omega
  rwa [e2] at this

theorem matchRange_none (d : ComboBox) (matchType : Nat) (cs : Bool) (text : QString)
    (first stop : Int) (h : matchRange d matchType cs text first stop = none) :
    ∀ j, first ≤ j → j < stop → rowMatches d matchType cs text (d.textAt j) = false := by
  unfold matchRange at h
  intro j hj1 hj2
  have := find?_map_range_none _ _ _ h (j - first).toNat (by omega)
  have e2 : first + ((j - first).toNat : Int) = j := by omega
  rwa [e2] at this

theorem matchRange_empty (d : ComboBox) (matchType : Nat) (cs : Bool) (text : QString)
    (first : Int) : matchRange d matchType cs text first first = none := by
  simp [matchRange]

/-- What `find` returns, for the row test `rowMatches` with the match type and
case sensitivity taken from the flags. -/
theorem find_characterized (d : ComboBox) (text : QString) (flags : Nat) :
    (d.find text flags = -1
        ∧ ∀ j, 0 ≤ j → j < d.count →
            rowMatches d (flags &&& 0x0F) (flags &&& Qt.MatchCaseSensitive ≠ 0) text
              (d.textAt j) = false)
      ∨ (0 ≤ d.find text flags ∧ d.find text flags < d.count
          ∧ rowMatches d (flags &&& 0x0F) (flags &&& Qt.MatchCaseSensitive ≠ 0) text
              (d.textAt (d.find text flags)) = true
          ∧ ∀ j, 0 ≤ j → j < d.find text flags →
              rowMatches d (flags &&& 0x0F) (flags &&& Qt.MatchCaseSensitive ≠ 0) text
                (d.textAt j) = false) := by
  unfold ComboBox.find match_
  simp only [matchRange_empty]
  cases h : matchRange d (flags &&& 0x0F) (decide (flags &&& Qt.MatchCaseSensitive ≠ 0)) text 0
      d.count with
  | some idx =>
    right
    exact matchRange_some _ _ _ _ _ _ _ h
  | none =>
    left
    refine ⟨by split_ifs <;> rfl, matchRange_none _ _ _ _ _ _ h⟩

end ComboBoxPrivate

end QtCellink

namespace QtCellink

namespace ComboBox

open ComboBoxPrivate

end ComboBox

end QtCellink

namespace QtCellink

/-! ## Wrapping search -/

namespace ComboBoxPrivate

open ComboBox

theorem matchRange_nat (d : ComboBox) (matchType : Nat) (cs : Bool) (text : QString)
    (a b : Nat) :
    matchRange d matchType cs text (a : Int) (b : Int)
      = ((List.range' a (b - a)).find?
          (fun (i : Nat) => rowMatches d matchType cs text (d.textAt (i : Int)))).map
          (fun (i : Nat) => (i : Int)) := by
  unfold matchRange
  have hlen : ((b : Int) - (a : Int)).toNat = b - a := by omega
  have hfun : (fun (k : Nat) => (a : Int) + (k : Int))
      = (fun (i : Nat) => (i : Int)) ∘ (fun k => a + k) := by
    funext k
    simp
  rw [hlen, List.range'_eq_map_range, hfun, ← List.map_map, List.find?_map]
  rfl

theorem flags_startsWith_wrap :
    (Qt.MatchStartsWith ||| Qt.MatchWrap) &&& 0x0F = Qt.MatchStartsWith
      ∧ (Qt.MatchStartsWith ||| Qt.MatchWrap) &&& Qt.MatchWrap ≠ 0
      ∧ (Qt.MatchStartsWith ||| Qt.MatchWrap) &&& Qt.MatchCaseSensitive = 0 := by
  decide

theorem rowMatches_startsWith (d : ComboBox) (cs : Bool) (text t : QString) :
    rowMatches d Qt.MatchStartsWith cs text t = QString.startsWith d.foldCase t text cs := by
  simp [rowMatches, Qt.MatchExactly, Qt.MatchRegExp, Qt.MatchWildcard, Qt.MatchStartsWith]

theorem cyclicOrderSpec_mem (start count : Nat) (h : start ≤ count) (i : Nat) :
    i ∈ cyclicOrderSpec start count ↔ i < count := by
  unfold cyclicOrderSpec
  rw [List.mem_append, List.mem_range'_1, List.mem_range]
  omega

theorem cyclicOrderSpec_nodup (start count : Nat) : (cyclicOrderSpec start count).Nodup := by
  unfold cyclicOrderSpec
  rw [List.nodup_append]
  refine ⟨List.nodup_range' _ _, List.nodup_range _, ?_⟩
  intro i h1 h2
  rw [List.mem_range'_1] at h1
  rw [List.mem_range] at h2
  omega

/-- C19: with starts-with matching and wrap, a search from the start offset `s`
with `0 <= s <= count` returns the first index in the cyclic order
`s, s+1, ..., count-1, 0, 1, ..., s-1` whose row text starts with the search
text ignoring case (`startsWith` with `Qt::CaseInsensitive`, under the case
folding of the library, whatever it is), and -1 when there is none; that order
visits every row exactly once.  Over the rows Apple, Banana, Apricot a search
for Ap returns 0 from start 0 and 2 from start 1.  Typed-character search is
this search with `s` one past the highlighted index when the popup is visible
and one past the current index otherwise. -/
theorem match_wrap_visits_cyclic_order (d : ComboBox) (text : QString) (s : Nat)
    (hs : (s : Int) ≤ d.count) :
    match_ d (s : Int) text (Qt.MatchStartsWith ||| Qt.MatchWrap)
        = (match (cyclicOrderSpec s d.count.toNat).find?
              (fun (i : Nat) =>
                QString.startsWith d.foldCase (d.textAt (i : Int)) text false) with
            | some i => (i : Int)
            | none => -1)
      ∧ (cyclicOrderSpec s d.count.toNat).Nodup
      ∧ (∀ i, i ∈ cyclicOrderSpec s d.count.toNat ↔ (i : Int) < d.count)
      ∧ match_ fruitBox 0 "Ap" (Qt.MatchStartsWith ||| Qt.MatchWrap) = 0
      ∧ match_ fruitBox 1 "Ap" (Qt.MatchStartsWith ||| Qt.MatchWrap) = 2
      ∧ (∀ u, keySearch d u
          = if match_ d ((if isPopupVisible d then d.highlightedIndex else d.currentIndex) + 1)
                u (Qt.MatchStartsWith ||| Qt.MatchWrap) ≠ -1 then
              if isPopupVisible d then
                setHighlightedIndex d
                  (match_ d ((if isPopupVisible d then d.highlightedIndex
                    else d.currentIndex) + 1) u (Qt.MatchStartsWith ||| Qt.MatchWrap))
                  .Highlight
              else
                setCurrentIndex d
                  (match_ d ((if isPopupVisible d then d.highlightedIndex
                    else d.currentIndex) + 1) u (Qt.MatchStartsWith ||| Qt.MatchWrap))
                  .Activate
            else d) := by
  have hn := count_nonneg d
  have hcount : d.count = ((d.count.toNat : Nat) : Int) := by omega
  have hsn : s ≤ d.count.toNat := by omega
  refine ⟨?_, cyclicOrderSpec_nodup _ _, ?_, by decide, by decide, fun u => rfl⟩
  · obtain ⟨f1, f2, f3⟩ := flags_startsWith_wrap
    unfold match_
    simp only [f1, f3]
    have hwrap : (decide ((Qt.MatchStartsWith ||| Qt.MatchWrap) &&& Qt.MatchWrap ≠ 0)) = true :=
      decide_eq_true f2
    have hcs : (decide ((0 : Nat) ≠ 0)) = false := by decide
    rw [hwrap, hcs]
    have h1 := matchRange_nat d Qt.MatchStartsWith false text s d.count.toNat
    rw [← hcount] at h1
    have h2 := matchRange_nat d Qt.MatchStartsWith false text 0 s
    simp only [Nat.cast_zero, Nat.sub_zero] at h2
    rw [h1, h2]
    simp only [rowMatches_startsWith]
    unfold cyclicOrderSpec
    rw [List.find?_append, List.range_eq_range']
    cases (List.range' s (d.count.toNat - s)).find?
        (fun (i : Nat) => QString.startsWith d.foldCase (d.textAt (i : Int)) text false) with
    | some i => simp
    | none =>
      cases (List.range' 0 s).find?
          (fun (i : Nat) => QString.startsWith d.foldCase (d.textAt (i : Int)) text false) with
      | some i => simp
      | none => simp
  · intro i
    rw [cyclicOrderSpec_mem s _ hsn]
    omega

/-- Witness of C19: a search for Ap from start 1 over Apple, Banana, Apricot. -/
theorem match_wrap_visits_cyclic_order_witness :
    ((1 : Nat) : Int) ≤ fruitBox.count
      ∧ match_ fruitBox ((1 : Nat) : Int) "Ap" (Qt.MatchStartsWith ||| Qt.MatchWrap)
          = (match (cyclicOrderSpec 1 fruitBox.count.toNat).find?
                (fun (i : Nat) =>
                  QString.startsWith fruitBox.foldCase (fruitBox.textAt (i : Int)) "Ap"
                    false) with
              | some i => (i : Int)
              | none => -1) :=
  ⟨by decide, (match_wrap_visits_cyclic_order fruitBox "Ap" 1 (by decide)).1⟩

end ComboBoxPrivate

end QtCellink

namespace QtCellink

/-! ## Completion -/

namespace ComboBoxPrivate

open ComboBox

theorem QString.startsWith_length_le (fold : QString → QString) (t text : QString) (cs : Bool)
    (h : QString.startsWith fold t text cs = true) : text.length ≤ t.length := by
  unfold QString.startsWith at h
  simp only [decide_eq_true_eq] at h
  exact h.1

theorem QString.length_pos_of_ne_empty (s : QString) (h : s ≠ []) : 0 < s.length :=
  List.length_pos.2 h

theorem QString.isEmpty_eq_false_of_length_pos (s : QString) (h : 0 < s.length) :
    s.isEmpty = false :=
  (QString.isEmpty_eq_false_iff s).2 (List.length_pos.1 h)

/-- The state of the loop of `tryComplete` after the rows `0 .. k-1`, for any
input: `match` is still empty and none of them starts with the input, or `match`
is the text of one of them that does. -/
theorem tryComplete_loop_row (d : ComboBox) (input : QString) (k : Nat) :
    ((List.range k).foldl (tryCompleteStep d input) [] = []
        ∧ ∀ j, j < k → QString.startsWith d.foldCase (d.textAt (j : Int)) input false = false)
      ∨ ∃ i, i < k
          ∧ (List.range k).foldl (tryCompleteStep d input) [] = d.textAt (i : Int)
          ∧ QString.startsWith d.foldCase (d.textAt (i : Int)) input false = true := by
  induction k with
  | zero =>
    left
    exact ⟨rfl, fun j hj => absurd hj (Nat.not_lt_zero j)⟩
  | succ k ih =>
    rw [List.range_succ, List.foldl_append, List.foldl_cons, List.foldl_nil]
    generalize (List.range k).foldl (tryCompleteStep d input) [] = m at ih ⊢
    unfold tryCompleteStep
    simp only []
    cases hk : QString.startsWith d.foldCase (d.textAt (k : Int)) input false with
    | false =>
      simp only [Bool.not_false, if_true]
      rcases ih with ⟨hm, hall⟩ | ⟨i, hi, hm, hs⟩
      · left
        refine ⟨hm, fun j hj => ?_⟩
        rcases Nat.lt_succ_iff_lt_or_eq.1 hj with hj | hj
        · exact hall j hj
        · rw [hj]; exact hk
      · right
        exact ⟨i, by omega, hm, hs⟩
    | true =>
      simp only [Bool.not_true, Bool.false_eq_true, if_false]
      right
      split_ifs with hcond
      · exact ⟨k, by omega, rfl, hk⟩
      · rcases ih with ⟨hm, _⟩ | ⟨i, hi, hm, hs⟩
        · exact absurd (Or.inl ((QString.isEmpty_iff m).2 hm)) hcond
        · exact ⟨i, by omega, hm, hs⟩

/-- The state of the loop of `tryComplete` after the rows `0 .. k-1`, for an input
that is not empty: `match` is still empty and none of them starts with the
input, or `match` is the text of the first shortest row among those that do. -/
theorem tryComplete_loop (d : ComboBox) (input : QString) (hin : input ≠ []) (k : Nat) :
    ((List.range k).foldl (tryCompleteStep d input) [] = []
        ∧ ∀ j, j < k → QString.startsWith d.foldCase (d.textAt (j : Int)) input false = false)
      ∨ ∃ i, i < k
          ∧ (List.range k).foldl (tryCompleteStep d input) [] = d.textAt (i : Int)
          ∧ QString.startsWith d.foldCase (d.textAt (i : Int)) input false = true
          ∧ ∀ j, j < k →
              QString.startsWith d.foldCase (d.textAt (j : Int)) input false = true →
              (d.textAt (i : Int)).length ≤ (d.textAt (j : Int)).length
                ∧ ((d.textAt (j : Int)).length = (d.textAt (i : Int)).length → i ≤ j) := by
  have hpos := QString.length_pos_of_ne_empty input hin
  induction k with
  | zero =>
    left
    exact ⟨rfl, fun j hj => absurd hj (Nat.not_lt_zero j)⟩
  | succ k ih =>
    rw [List.range_succ, List.foldl_append, List.foldl_cons, List.foldl_nil]
    generalize (List.range k).foldl (tryCompleteStep d input) [] = m at ih ⊢
    unfold tryCompleteStep
    simp only []
    cases hk : QString.startsWith d.foldCase (d.textAt (k : Int)) input false with
    | false =>
      simp only [Bool.not_false, if_true]
      rcases ih with ⟨hm, hall⟩ | ⟨i, hi, hm, hs, hmin⟩
      · left
        refine ⟨hm, fun j hj => ?_⟩
        rcases Nat.lt_succ_iff_lt_or_eq.1 hj with hj | hj
        · exact hall j hj
        · rw [hj]; exact hk
      · right
        refine ⟨i, by omega, hm, hs, fun j hj hsj => ?_⟩
        rcases Nat.lt_succ_iff_lt_or_eq.1 hj with hj | hj
        · exact hmin j hj hsj
        · rw [hj, hk] at hsj
          exact absurd hsj (by decide)
    | true =>
      simp only [Bool.not_true, Bool.false_eq_true, if_false]
      right
      rcases ih with ⟨hm, hall⟩ | ⟨i, hi, hm, hs, hmin⟩
      · have hcond : m.isEmpty = true ∨ (d.textAt (k : Int)).length < m.length :=
          Or.inl ((QString.isEmpty_iff m).2 hm)
        rw [if_pos hcond]
        refine ⟨k, by omega, rfl, hk, fun j hj hsj => ?_⟩
        rcases Nat.lt_succ_iff_lt_or_eq.1 hj with hj | hj
        · rw [hall j hj] at hsj
          exact absurd hsj (by decide)
        · rw [hj]
          exact ⟨le_refl _, fun _ => le_refl _⟩
      · have hlen := QString.startsWith_length_le _ _ _ _ hs
        have hne : m.isEmpty = false := by
          rw [hm]
          exact QString.isEmpty_eq_false_of_length_pos _ (by omega)
        by_cases hshort : (d.textAt (k : Int)).length < m.length
        · rw [if_pos (Or.inr hshort)]
          rw [hm] at hshort
          refine ⟨k, by omega, rfl, hk, fun j hj hsj => ?_⟩
          rcases Nat.lt_succ_iff_lt_or_eq.1 hj with hj | hj
          · have := (hmin j hj hsj).1
            exact ⟨by omega, fun he => by omega⟩
          · rw [hj]
            exact ⟨le_refl _, fun _ => le_refl _⟩
        · rw [if_neg (by rw [hne]; simpa using hshort)]
          rw [hm] at hshort
          refine ⟨i, by omega, hm, hs, fun j hj hsj => ?_⟩
          rcases Nat.lt_succ_iff_lt_or_eq.1 hj with hj | hj
          · exact hmin j hj hsj
          · rw [hj]
            exact ⟨by omega, fun _ => by omega⟩

theorem QString.mid_empty (n : Nat) : QString.mid [] n = [] := by
  simp [QString.mid]

theorem tryComplete_eq (d : ComboBox) (input : QString) :
    tryComplete d input = input ++ QString.mid (tryCompleteMatch d input) input.length := by
  unfold tryComplete
  simp only []
  cases hb : (tryCompleteMatch d input).isEmpty with
  | false => simp
  | true =>
    have := (QString.isEmpty_iff _).1 hb
    rw [this, QString.mid_empty]
    simp

theorem QString.append_mid_of_startsWith (input t : QString) (h : input <+: t) :
    input ++ QString.mid t input.length = t := by
  obtain ⟨rest, hrest⟩ := h
  rw [QString.mid, ← hrest]
  simp

theorem QString.append_mid_length (input t : QString) (h : input.length ≤ t.length) :
    (input ++ QString.mid t input.length).length = t.length := by
  rw [QString.mid, List.length_append, List.length_drop]
  omega

/-- C20 (fails on the code): over the rows Alpha, Alphabet, Beta the input al has
the row Alpha as its shortest match ignoring case, but the completion computed
is alpha, which is not that row text. -/
theorem tryComplete_keeps_input_case :
    tryComplete greekBox "al" = "alpha"
      ∧ greekBox.textAt 0 = "Alpha"
      ∧ QString.startsWith greekBox.foldCase (greekBox.textAt 0) "al" false = true
      ∧ tryComplete greekBox "al" ≠ greekBox.textAt 0
      ∧ tryComplete greekBox "al" ≠ greekBox.textAt 1
      ∧ tryComplete greekBox "al" ≠ greekBox.textAt 2 := by
  decide

/-- C20 (amended): for every model and every non-empty input for which some row
text starts with the input ignoring case (`startsWith` with
`Qt::CaseInsensitive`, under the case folding of the library, whatever it is),
the completion computed by `tryComplete` is the input followed by the code
units from position `len(input)` on of the shortest such row text (the first one
among equally short rows, lengths counting UTF-16 code units); it is that row
text itself when the row text begins with the input exactly, case included.  The
rows Alpha, Alphabet, Beta with the input Al give the completion Alpha. -/
theorem tryComplete_shortest_match (d : ComboBox) (input : QString) (hin : input ≠ "")
    (hex : ∃ j : Nat, (j : Int) < d.count
      ∧ QString.startsWith d.foldCase (d.textAt (j : Int)) input false = true) :
    (∃ i : Nat, (i : Int) < d.count
        ∧ QString.startsWith d.foldCase (d.textAt (i : Int)) input false = true
        ∧ (∀ j : Nat, (j : Int) < d.count →
            QString.startsWith d.foldCase (d.textAt (j : Int)) input false = true →
            (d.textAt (i : Int)).length ≤ (d.textAt (j : Int)).length
              ∧ ((d.textAt (j : Int)).length = (d.textAt (i : Int)).length → i ≤ j))
        ∧ tryComplete d input = input ++ QString.mid (d.textAt (i : Int)) input.length
        ∧ (input <+: d.textAt (i : Int) → tryComplete d input = d.textAt (i : Int)))
      ∧ tryComplete greekBox "Al" = "Alpha" := by
  refine ⟨?_, by decide⟩
  rw [QString.ofString_empty] at hin
  obtain ⟨j0, hj0, hs0⟩ := hex
  rcases tryComplete_loop d input hin d.count.toNat with ⟨_, hall⟩ | ⟨i, hi, hm, hs, hmin⟩
  · have := hall j0 (by omega)
    rw [this] at hs0
    exact absurd hs0 (by decide)
  · have htc : tryComplete d input
        = input ++ QString.mid (d.textAt (i : Int)) input.length := by
      rw [tryComplete_eq]
      unfold tryCompleteMatch
      rw [hm]
    refine ⟨i, by omega, hs, fun j hj hsj => hmin j (by omega) hsj, htc, fun hp => ?_⟩
    rw [htc]
    exact QString.append_mid_of_startsWith _ _ hp

/-- Witness of C20 (amended): the input Al over the rows Alpha, Alphabet, Beta. -/
theorem tryComplete_shortest_match_witness :
    ("Al" : QString) ≠ ""
      ∧ (∃ j : Nat, (j : Int) < greekBox.count
          ∧ QString.startsWith greekBox.foldCase (greekBox.textAt (j : Int)) "Al" false = true)
      ∧ tryComplete greekBox "Al" = "Alpha" :=
  ⟨by decide, ⟨0, by decide, by decide⟩,
   (tryComplete_shortest_match greekBox "Al" (by decide) ⟨0, by decide, by decide⟩).2⟩

end ComboBoxPrivate

end QtCellink

namespace QtCellink

/-! ## The wrap flag, the shape of completions, completing construction -/

namespace ComboBox

open ComboBoxPrivate

/-- `find` is the first pass of `match` alone, whatever the wrap flag says. -/
theorem find_eq_first_pass (d : ComboBox) (text : QString) (flags : Nat) :
    d.find text flags
      = match matchRange d (flags &&& 0x0F) (flags &&& Qt.MatchCaseSensitive ≠ 0) text 0
            d.count with
        | some idx => idx
        | none => -1 := by
  unfold ComboBox.find match_
  simp only [matchRange_empty]
  split
  · rfl
  · split_ifs <;> rfl

theorem find_congr_flags (d : ComboBox) (text : QString) (f g : Nat)
    (h1 : f &&& 0x0F = g &&& 0x0F)
    (h2 : f &&& Qt.MatchCaseSensitive = g &&& Qt.MatchCaseSensitive) :
    d.find text f = d.find text g := by
  rw [find_eq_first_pass, find_eq_first_pass, h1, h2]

theorem flags_or_wrap (f : Nat) :
    (f ||| Qt.MatchWrap) &&& 0x0F = f &&& 0x0F
      ∧ (f ||| Qt.MatchWrap) &&& Qt.MatchCaseSensitive = f &&& Qt.MatchCaseSensitive := by
  constructor
  · rw [Nat.and_comm, Nat.and_or_distrib_left, Nat.and_comm]
    have : (0x0F : Nat) &&& Qt.MatchWrap = 0 := by decide
    rw [this, Nat.or_zero]
  · rw [Nat.and_comm, Nat.and_or_distrib_left, Nat.and_comm]
    have : Qt.MatchCaseSensitive &&& Qt.MatchWrap = 0 := by decide
    rw [this, Nat.or_zero]

theorem flags_clear_wrap (f : Nat) :
    (f ^^^ (f &&& Qt.MatchWrap)) &&& 0x0F = f &&& 0x0F
      ∧ (f ^^^ (f &&& Qt.MatchWrap)) &&& Qt.MatchCaseSensitive
          = f &&& Qt.MatchCaseSensitive := by
  constructor
  · rw [Nat.and_xor_distrib_right, Nat.and_assoc]
    have : Qt.MatchWrap &&& (0x0F : Nat) = 0 := by decide
    rw [this, Nat.and_zero, Nat.xor_zero]
  · rw [Nat.and_xor_distrib_right, Nat.and_assoc]
    have : Qt.MatchWrap &&& Qt.MatchCaseSensitive = 0 := by decide
    rw [this, Nat.and_zero, Nat.xor_zero]

/-- C27: the wrap flag has no effect on `find`: for every model, text and flags
`f`, `find(text, f | MatchWrap)` equals `find(text, f & ~MatchWrap)` (and both
equal `find(text, f)`), because the search starts at 0 and the wrapped second
pass covers the empty range `[0, 0)`. -/
theorem find_ignores_wrap (d : ComboBox) (text : QString) (f : Nat) :
    d.find text (f ||| Qt.MatchWrap) = d.find text (f ^^^ (f &&& Qt.MatchWrap))
      ∧ d.find text (f ||| Qt.MatchWrap) = d.find text f
      ∧ (∀ matchType cs, matchRange d matchType cs text 0 0 = none) := by
  obtain ⟨a1, a2⟩ := flags_or_wrap f
  obtain ⟨b1, b2⟩ := flags_clear_wrap f
  refine ⟨?_, find_congr_flags d text _ _ a1 a2, fun mt cs => matchRange_empty d mt cs text 0⟩
  exact find_congr_flags d text _ _ (a1.trans b1.symm) (a2.trans b2.symm)

end ComboBox

namespace ComboBoxPrivate

open ComboBox

theorem tryComplete_extends_input (d : ComboBox) (input : QString) :
    input <+: tryComplete d input := by
  rw [tryComplete_eq]
  exact List.prefix_append _ _

theorem tryComplete_of_row (d : ComboBox) (input : QString) (i : Nat)
    (hm : tryCompleteMatch d input = d.textAt (i : Int))
    (hs : QString.startsWith d.foldCase (d.textAt (i : Int)) input false = true) :
    tryComplete d input = input ++ QString.mid (d.textAt (i : Int)) input.length
      ∧ (tryComplete d input).take input.length = input
      ∧ (tryComplete d input).drop input.length = (d.textAt (i : Int)).drop input.length
      ∧ (tryComplete d input).length = (d.textAt (i : Int)).length
      ∧ QString.compareEq d.foldCase ((d.textAt (i : Int)).take input.length)
          ((tryComplete d input).take input.length) false = true := by
  have htc : tryComplete d input
      = input ++ QString.mid (d.textAt (i : Int)) input.length := by
    rw [tryComplete_eq, hm]
  have hlen := QString.startsWith_length_le _ _ _ _ hs
  have htake : (tryComplete d input).take input.length = input := by
    rw [htc, List.take_left']
    rfl
  refine ⟨htc, htake, ?_, ?_, ?_⟩
  · rw [htc, List.drop_left']
    · rfl
    · rfl
  · rw [htc]
    exact QString.append_mid_length _ _ hlen
  · rw [htake]
    unfold QString.startsWith at hs
    simp only [Bool.decide_and, Bool.decide_eq_true, Bool.and_eq_true,
      decide_eq_true_eq] at hs
    exact hs.2

/-- C28: for every model and input, the completion returned by `tryComplete`
starts with the input exactly and is never shorter than the input; it is the
input when no row text starts with the input ignoring case; and when some row
text does, it is the input followed by the code units from position
`len(input)` on of such a row text (for an input that is not empty: the
shortest one, the first among equally short ones), so it has the length of that
row text, agrees with it from position `len(input)` on, and its first
`len(input)` code units, which are the input, equal those of the row text up to
case.  Ignoring case is `Qt::CaseInsensitive` under the case folding of the
library, whatever it is; lengths and positions count UTF-16 code units. -/
theorem tryComplete_keeps_input (d : ComboBox) (input : QString) :
    input <+: tryComplete d input
      ∧ input.length ≤ (tryComplete d input).length
      ∧ ((∀ j : Nat, (j : Int) < d.count →
            QString.startsWith d.foldCase (d.textAt (j : Int)) input false = false) →
          tryComplete d input = input)
      ∧ ((∃ j : Nat, (j : Int) < d.count
            ∧ QString.startsWith d.foldCase (d.textAt (j : Int)) input false = true) →
          ∃ i : Nat, (i : Int) < d.count
            ∧ QString.startsWith d.foldCase (d.textAt (i : Int)) input false = true
            ∧ tryComplete d input = input ++ QString.mid (d.textAt (i : Int)) input.length
            ∧ (tryComplete d input).take input.length = input
            ∧ (tryComplete d input).drop input.length
                = (d.textAt (i : Int)).drop input.length
            ∧ (tryComplete d input).length = (d.textAt (i : Int)).length
            ∧ QString.compareEq d.foldCase ((d.textAt (i : Int)).take input.length)
                ((tryComplete d input).take input.length) false = true
            ∧ (input ≠ "" →
                ∀ j : Nat, (j : Int) < d.count →
                  QString.startsWith d.foldCase (d.textAt (j : Int)) input false = true →
                  (d.textAt (i : Int)).length ≤ (d.textAt (j : Int)).length
                    ∧ ((d.textAt (j : Int)).length = (d.textAt (i : Int)).length → i ≤ j))) := by
  have hpre := tryComplete_extends_input d input
  refine ⟨hpre, hpre.length_le, fun hall => ?_, fun hex => ?_⟩
  · rcases tryComplete_loop_row d input d.count.toNat with ⟨hm, _⟩ | ⟨i, hi, _, hs⟩
    · have hm2 : tryCompleteMatch d input = [] := hm
      rw [tryComplete_eq, hm2, QString.mid_empty]
      simp
    · rw [hall i (by omega)] at hs
      exact absurd hs (by decide)
  · obtain ⟨j0, hj0, hs0⟩ := hex
    by_cases hin : input = []
    · rcases tryComplete_loop_row d input d.count.toNat with ⟨_, hall⟩ | ⟨i, hi, hm, hs⟩
      · rw [hall j0 (by omega)] at hs0
        exact absurd hs0 (by decide)
      · obtain ⟨h1, h2, h3, h4, h5⟩ := tryComplete_of_row d input i hm hs
        exact ⟨i, by omega, hs, h1, h2, h3, h4, h5, fun hne => absurd hin hne⟩
    · rcases tryComplete_loop d input hin d.count.toNat with ⟨_, hall⟩ | ⟨i, hi, hm, hs, hmin⟩
      · rw [hall j0 (by omega)] at hs0
        exact absurd hs0 (by decide)
      · obtain ⟨h1, h2, h3, h4, h5⟩ := tryComplete_of_row d input i hm hs
        exact ⟨i, by omega, hs, h1, h2, h3, h4, h5,
          fun _ j hj hsj => hmin j (by omega) hsj⟩

/-- Witness of C28: the input al over the rows Alpha, Alphabet, Beta is completed
to alpha, from the row Alpha. -/
theorem tryComplete_keeps_input_witness :
    (∃ j : Nat, (j : Int) < greekBox.count
        ∧ QString.startsWith greekBox.foldCase (greekBox.textAt (j : Int)) "al" false = true)
      ∧ tryComplete greekBox "al" = "alpha"
      ∧ greekBox.textAt 0 = "Alpha"
      ∧ ∃ i : Nat, (i : Int) < greekBox.count
          ∧ QString.startsWith greekBox.foldCase (greekBox.textAt (i : Int)) "al" false = true
          ∧ tryComplete greekBox "al"
              = ("al" : QString) ++ QString.mid (greekBox.textAt (i : Int)) ("al" : QString).length :=
  ⟨⟨0, by decide, by decide⟩, by decide, by decide,
   by
    obtain ⟨i, h1, h2, h3, _⟩ :=
      (tryComplete_keeps_input greekBox "al").2.2.2 ⟨0, by decide, by decide⟩
    exact ⟨i, h1, h2, h3⟩⟩

end ComboBoxPrivate

end QtCellink

namespace QtCellink

/-! ## Traces of the index setters -/

namespace ComboBoxPrivate

open ComboBox

theorem setEditText_emits_text_only (d : ComboBox) (t : QString) :
    ∃ l, (∀ s ∈ l, ComboSignal.isTextChange s = true)
      ∧ (d.setEditText t).emitted = d.emitted ++ l := by
  unfold ComboBox.setEditText
  split_ifs
  · exact ⟨[], by simp, by simp⟩
  · exact ⟨[ComboSignal.editTextChanged], by simp [ComboSignal.isTextChange], rfl⟩

theorem updateCurrentText_emits_text_only (d : ComboBox) :
    ∃ l, (∀ s ∈ l, ComboSignal.isTextChange s = true)
      ∧ (updateCurrentText d).emitted = d.emitted ++ l := by
  let f1 : ComboBox → QString → ComboBox := fun x text =>
    if x.currentText ≠ text then
      ({ x with currentText := text } : ComboBox).emit .currentTextChanged
    else x
  let f2 : ComboBox → QString → ComboBox := fun x text =>
    if !x.hasDisplayText ∧ x.displayText ≠ text then
      ({ x with displayText := text } : ComboBox).emit .displayTextChanged
    else x
  let f3 : ComboBox → ComboBox := fun x =>
    match x.extra with
    | none => x.setEditText x.currentText
    | some e => if !e.accepting then x.setEditText x.currentText else x
  have h1 : ∀ x text, ∃ l, (∀ s ∈ l, ComboSignal.isTextChange s = true)
      ∧ (f1 x text).emitted = x.emitted ++ l := by
    intro x text
    simp only [f1]
    split_ifs
    · exact ⟨[ComboSignal.currentTextChanged], by simp [ComboSignal.isTextChange], rfl⟩
    · exact ⟨[], by simp, by simp⟩
  have h2 : ∀ x text, ∃ l, (∀ s ∈ l, ComboSignal.isTextChange s = true)
      ∧ (f2 x text).emitted = x.emitted ++ l := by
    intro x text
    simp only [f2]
    split_ifs
    · exact ⟨[ComboSignal.displayTextChanged], by simp [ComboSignal.isTextChange], rfl⟩
    · exact ⟨[], by simp, by simp⟩
  have h3 : ∀ x, ∃ l, (∀ s ∈ l, ComboSignal.isTextChange s = true)
      ∧ (f3 x).emitted = x.emitted ++ l := by
    intro x
    simp only [f3]
    split
    · exact setEditText_emits_text_only x _
    · split_ifs
      · exact setEditText_emits_text_only x _
      · exact ⟨[], by simp, by simp⟩
  show ∃ l, (∀ s ∈ l, ComboSignal.isTextChange s = true)
    ∧ (f3 (f2 (f1 d (d.textAt d.currentIndex)) (d.textAt d.currentIndex))).emitted
      = d.emitted ++ l
  obtain ⟨l1, t1, e1⟩ := h1 d (d.textAt d.currentIndex)
  obtain ⟨l2, t2, e2⟩ := h2 (f1 d (d.textAt d.currentIndex)) (d.textAt d.currentIndex)
  obtain ⟨l3, t3, e3⟩ := h3 (f2 (f1 d (d.textAt d.currentIndex)) (d.textAt d.currentIndex))
  refine ⟨l1 ++ l2 ++ l3, ?_, by rw [e3, e2, e1]; simp⟩
  intro s hs
  simp only [List.mem_append] at hs
  rcases hs with (hs | hs) | hs
  · exact t1 s hs
  · exact t2 s hs
  · exact t3 s hs

/-- The private `setCurrentIndex` to a different index emits `currentIndexChanged`,
then text changes only, then `activated(index)` when asked to activate. -/
theorem setCurrentIndex_trace (d : ComboBox) (i : Int) (a : Activation)
    (h : d.currentIndex ≠ i) :
    ∃ l, (∀ s ∈ l, ComboSignal.isTextChange s = true)
      ∧ (setCurrentIndex d i a).emitted
          = d.emitted ++ ComboSignal.currentIndexChanged :: l
              ++ (match a with
                  | .Activate => [ComboSignal.activated i]
                  | .NoActivate => []) := by
  have key : ∀ x : ComboBox, x.emitted = d.emitted ++ [ComboSignal.currentIndexChanged] →
      ∃ l, (∀ s ∈ l, ComboSignal.isTextChange s = true)
        ∧ (match a with
            | .Activate =>
              (if x.componentComplete then updateCurrentText x else x).emit (.activated i)
            | .NoActivate => (if x.componentComplete then updateCurrentText x else x)).emitted
          = d.emitted ++ ComboSignal.currentIndexChanged :: l
              ++ (match a with
                  | .Activate => [ComboSignal.activated i]
                  | .NoActivate => []) := by
    intro x hx
    by_cases hc : x.componentComplete = true
    · obtain ⟨l, tl, el⟩ := updateCurrentText_emits_text_only x
      refine ⟨l, tl, ?_⟩
      rw [if_pos hc]
      cases a
      · show (updateCurrentText x).emitted = _
        rw [el, hx]
        simp
      · show (updateCurrentText x).emitted ++ [ComboSignal.activated i] = _
        rw [el, hx]
        simp
    · refine ⟨[], by simp, ?_⟩
      rw [if_neg hc]
      cases a
      · show x.emitted = _
        rw [hx]
        simp
      · show x.emitted ++ [ComboSignal.activated i] = _
        rw [hx]
  simp only [setCurrentIndex, h, if_false]
  exact key _ rfl

theorem setCurrentIndex_same (d : ComboBox) (a : Activation) :
    setCurrentIndex d d.currentIndex a = d := by
  simp [setCurrentIndex]

theorem setHighlightedIndex_trace (d : ComboBox) (i : Int) (a : Highlighting) :
    (setHighlightedIndex d i a).emitted
      = if d.highlightedIndex = i then d.emitted
        else d.emitted ++ ComboSignal.highlightedIndexChanged
          :: (match a with
              | .Highlight => [ComboSignal.highlighted i]
              | .NoHighlight => []) := by
  unfold setHighlightedIndex
  split_ifs
  · rfl
  · cases a <;> simp [ComboBox.emit]

@[simp] theorem setAllowComplete_emitted (d : ComboBox) (b : Bool) :
    (setAllowComplete d b).emitted = d.emitted := by
  unfold setAllowComplete; split <;> rfl

theorem isPopupVisible_setAllowComplete (d : ComboBox) (b : Bool) :
    isPopupVisible (setAllowComplete d b) = isPopupVisible d :=
  isPopupVisible_congr _ _ (setAllowComplete_popup d b)

@[simp] theorem setAllowComplete_componentComplete (d : ComboBox) (b : Bool) :
    (setAllowComplete d b).componentComplete = d.componentComplete := by
  unfold setAllowComplete; split <;> rfl

end ComboBoxPrivate

namespace ComboBox

open ComboBoxPrivate

/-- The public `setCurrentIndex` to a different index emits `currentIndexChanged`
and then text changes only. -/
theorem publicSetCurrentIndex_trace (d : ComboBox) (i : Int) (h : d.currentIndex ≠ i) :
    ∃ l, (∀ s ∈ l, ComboSignal.isTextChange s = true)
      ∧ (d.setCurrentIndex i).emitted = d.emitted ++ ComboSignal.currentIndexChanged :: l := by
  obtain ⟨l, tl, el⟩ := ComboBoxPrivate.setCurrentIndex_trace
    { d with hasCurrentIndex := true } i .NoActivate h
  exact ⟨l, tl, by simpa using el⟩

end ComboBox

end QtCellink

namespace QtCellink

/-! ## Up and Down; hiding the popup -/

namespace ComboBoxPrivate

open ComboBox

theorem incrementCurrentIndex_closed (d : ComboBox) (hv : isPopupVisible d = false) :
    (incrementCurrentIndex d).highlightedIndex = d.highlightedIndex
      ∧ (¬ d.currentIndex < d.count - 1 →
          (incrementCurrentIndex d).currentIndex = d.currentIndex
            ∧ (incrementCurrentIndex d).emitted = d.emitted)
      ∧ (d.currentIndex < d.count - 1 →
          (incrementCurrentIndex d).currentIndex = d.currentIndex + 1
            ∧ EmitsActivation d.emitted (incrementCurrentIndex d).emitted
                (d.currentIndex + 1)) := by
  have key : ∀ x : ComboBox, isPopupVisible x = false → x.currentIndex = d.currentIndex →
      x.count = d.count → x.emitted = d.emitted → x.highlightedIndex = d.highlightedIndex →
      (setAllowComplete (if isPopupVisible x then
            if x.highlightedIndex < x.count - 1 then
              setHighlightedIndex x (x.highlightedIndex + 1) .Highlight
            else x
          else
            if x.currentIndex < x.count - 1 then
              setCurrentIndex x (x.currentIndex + 1) .Activate
            else x) true).highlightedIndex = d.highlightedIndex
        ∧ (¬ d.currentIndex < d.count - 1 →
          (setAllowComplete (if isPopupVisible x then
            if x.highlightedIndex < x.count - 1 then
              setHighlightedIndex x (x.highlightedIndex + 1) .Highlight
            else x
          else
            if x.currentIndex < x.count - 1 then
              setCurrentIndex x (x.currentIndex + 1) .Activate
            else x) true).currentIndex = d.currentIndex
          ∧ (setAllowComplete (if isPopupVisible x then
            if x.highlightedIndex < x.count - 1 then
              setHighlightedIndex x (x.highlightedIndex + 1) .Highlight
            else x
          else
            if x.currentIndex < x.count - 1 then
              setCurrentIndex x (x.currentIndex + 1) .Activate
            else x) true).emitted = d.emitted)
        ∧ (d.currentIndex < d.count - 1 →
          (setAllowComplete (if isPopupVisible x then
            if x.highlightedIndex < x.count - 1 then
              setHighlightedIndex x (x.highlightedIndex + 1) .Highlight
            else x
          else
            if x.currentIndex < x.count - 1 then
              setCurrentIndex x (x.currentIndex + 1) .Activate
            else x) true).currentIndex = d.currentIndex + 1
          ∧ EmitsActivation d.emitted (setAllowComplete (if isPopupVisible x then
            if x.highlightedIndex < x.count - 1 then
              setHighlightedIndex x (x.highlightedIndex + 1) .Highlight
            else x
          else
            if x.currentIndex < x.count - 1 then
              setCurrentIndex x (x.currentIndex + 1) .Activate
            else x) true).emitted (d.currentIndex + 1)) := by
    intro x hx hc hn he hh
    rw [hx]
    simp only [Bool.false_eq_true, if_false, hc, hn]
    refine ⟨?_, fun h => ?_, fun h => ?_⟩
    · split_ifs <;> simp [hh]
    · rw [if_neg h]
      simp [hc, he]
    · rw [if_pos h]
      refine ⟨by simp, ?_⟩
      obtain ⟨l, tl, el⟩ := setCurrentIndex_trace x (d.currentIndex + 1) .Activate
        (by rw [hc]; omega)
      refine ⟨l, tl, ?_⟩
      rw [setAllowComplete_emitted, el, he]
  exact key (setAllowComplete d false) (by rw [isPopupVisible_setAllowComplete]; exact hv)
    (by simp) (setAllowComplete_count d false) (by simp) (by simp)

theorem decrementCurrentIndex_closed (d : ComboBox) (hv : isPopupVisible d = false) :
    (decrementCurrentIndex d).highlightedIndex = d.highlightedIndex
      ∧ (¬ 0 < d.currentIndex →
          (decrementCurrentIndex d).currentIndex = d.currentIndex
            ∧ (decrementCurrentIndex d).emitted = d.emitted)
      ∧ (0 < d.currentIndex →
          (decrementCurrentIndex d).currentIndex = d.currentIndex - 1
            ∧ EmitsActivation d.emitted (decrementCurrentIndex d).emitted
                (d.currentIndex - 1)) := by
  have key : ∀ x : ComboBox, isPopupVisible x = false → x.currentIndex = d.currentIndex →
      x.emitted = d.emitted → x.highlightedIndex = d.highlightedIndex →
      (setAllowComplete (if isPopupVisible x then
            if x.highlightedIndex > 0 then
              setHighlightedIndex x (x.highlightedIndex - 1) .Highlight
            else x
          else
            if x.currentIndex > 0 then
              setCurrentIndex x (x.currentIndex - 1) .Activate
            else x) true).highlightedIndex = d.highlightedIndex
        ∧ (¬ 0 < d.currentIndex →
          (setAllowComplete (if isPopupVisible x then
            if x.highlightedIndex > 0 then
              setHighlightedIndex x (x.highlightedIndex - 1) .Highlight
            else x
          else
            if x.currentIndex > 0 then
              setCurrentIndex x (x.currentIndex - 1) .Activate
            else x) true).currentIndex = d.currentIndex
          ∧ (setAllowComplete (if isPopupVisible x then
            if x.highlightedIndex > 0 then
              setHighlightedIndex x (x.highlightedIndex - 1) .Highlight
            else x
          else
            if x.currentIndex > 0 then
              setCurrentIndex x (x.currentIndex - 1) .Activate
            else x) true).emitted = d.emitted)
        ∧ (0 < d.currentIndex →
          (setAllowComplete (if isPopupVisible x then
            if x.highlightedIndex > 0 then
              setHighlightedIndex x (x.highlightedIndex - 1) .Highlight
            else x
          else
            if x.currentIndex > 0 then
              setCurrentIndex x (x.currentIndex - 1) .Activate
            else x) true).currentIndex = d.currentIndex - 1
          ∧ EmitsActivation d.emitted (setAllowComplete (if isPopupVisible x then
            if x.highlightedIndex > 0 then
              setHighlightedIndex x (x.highlightedIndex - 1) .Highlight
            else x
          else
            if x.currentIndex > 0 then
              setCurrentIndex x (x.currentIndex - 1) .Activate
            else x) true).emitted (d.currentIndex - 1)) := by
    intro x hx hc he hh
    rw [hx]
    simp only [Bool.false_eq_true, if_false, hc, gt_iff_lt]
    refine ⟨?_, fun h => ?_, fun h => ?_⟩
    · split_ifs <;> simp [hh]
    · rw [if_neg h]
      simp [hc, he]
    · rw [if_pos h]
      refine ⟨by simp, ?_⟩
      obtain ⟨l, tl, el⟩ := setCurrentIndex_trace x (d.currentIndex - 1) .Activate
        (by rw [hc]; omega)
      refine ⟨l, tl, ?_⟩
      rw [setAllowComplete_emitted, el, he]
  exact key (setAllowComplete d false) (by rw [isPopupVisible_setAllowComplete]; exact hv)
    (by simp) (by simp) (by simp)

theorem incrementCurrentIndex_open (d : ComboBox) (hv : isPopupVisible d = true) :
    (incrementCurrentIndex d).currentIndex = d.currentIndex
      ∧ (¬ d.highlightedIndex < d.count - 1 →
          (incrementCurrentIndex d).highlightedIndex = d.highlightedIndex
            ∧ (incrementCurrentIndex d).emitted = d.emitted)
      ∧ (d.highlightedIndex < d.count - 1 →
          (incrementCurrentIndex d).highlightedIndex = d.highlightedIndex + 1
            ∧ (incrementCurrentIndex d).emitted
                = d.emitted ++ [ComboSignal.highlightedIndexChanged,
                    ComboSignal.highlighted (d.highlightedIndex + 1)]) := by
  have key : ∀ x : ComboBox, isPopupVisible x = true → x.currentIndex = d.currentIndex →
      x.count = d.count → x.emitted = d.emitted → x.highlightedIndex = d.highlightedIndex →
      (setAllowComplete (if isPopupVisible x then
            if x.highlightedIndex < x.count - 1 then
              setHighlightedIndex x (x.highlightedIndex + 1) .Highlight
            else x
          else
            if x.currentIndex < x.count - 1 then
              setCurrentIndex x (x.currentIndex + 1) .Activate
            else x) true).currentIndex = d.currentIndex
        ∧ (¬ d.highlightedIndex < d.count - 1 →
          (setAllowComplete (if isPopupVisible x then
            if x.highlightedIndex < x.count - 1 then
              setHighlightedIndex x (x.highlightedIndex + 1) .Highlight
            else x
          else
            if x.currentIndex < x.count - 1 then
              setCurrentIndex x (x.currentIndex + 1) .Activate
            else x) true).highlightedIndex = d.highlightedIndex
          ∧ (setAllowComplete (if isPopupVisible x then
            if x.highlightedIndex < x.count - 1 then
              setHighlightedIndex x (x.highlightedIndex + 1) .Highlight
            else x
          else
            if x.currentIndex < x.count - 1 then
              setCurrentIndex x (x.currentIndex + 1) .Activate
            else x) true).emitted = d.emitted)
        ∧ (d.highlightedIndex < d.count - 1 →
          (setAllowComplete (if isPopupVisible x then
            if x.highlightedIndex < x.count - 1 then
              setHighlightedIndex x (x.highlightedIndex + 1) .Highlight
            else x
          else
            if x.currentIndex < x.count - 1 then
              setCurrentIndex x (x.currentIndex + 1) .Activate
            else x) true).highlightedIndex = d.highlightedIndex + 1
          ∧ (setAllowComplete (if isPopupVisible x then
            if x.highlightedIndex < x.count - 1 then
              setHighlightedIndex x (x.highlightedIndex + 1) .Highlight
            else x
          else
            if x.currentIndex < x.count - 1 then
              setCurrentIndex x (x.currentIndex + 1) .Activate
            else x) true).emitted
              = d.emitted ++ [ComboSignal.highlightedIndexChanged,
                  ComboSignal.highlighted (d.highlightedIndex + 1)]) := by
    intro x hx hc hn he hh
    rw [hx]
    simp only [if_true, hh, hn]
    refine ⟨?_, fun h => ?_, fun h => ?_⟩
    · split_ifs <;> simp [hc]
    · rw [if_neg h]
      simp [hh, he]
    · rw [if_pos h]
      refine ⟨by simp, ?_⟩
      rw [setAllowComplete_emitted, setHighlightedIndex_trace, if_neg (by rw [hh]; omega), he]
  exact key (setAllowComplete d false) (by rw [isPopupVisible_setAllowComplete]; exact hv)
    (by simp) (setAllowComplete_count d false) (by simp) (by simp)

theorem decrementCurrentIndex_open (d : ComboBox) (hv : isPopupVisible d = true) :
    (decrementCurrentIndex d).currentIndex = d.currentIndex
      ∧ (¬ 0 < d.highlightedIndex →
          (decrementCurrentIndex d).highlightedIndex = d.highlightedIndex
            ∧ (decrementCurrentIndex d).emitted = d.emitted)
      ∧ (0 < d.highlightedIndex →
          (decrementCurrentIndex d).highlightedIndex = d.highlightedIndex - 1
            ∧ (decrementCurrentIndex d).emitted
                = d.emitted ++ [ComboSignal.highlightedIndexChanged,
                    ComboSignal.highlighted (d.highlightedIndex - 1)]) := by
  have key : ∀ x : ComboBox, isPopupVisible x = true → x.currentIndex = d.currentIndex →
      x.emitted = d.emitted → x.highlightedIndex = d.highlightedIndex →
      (setAllowComplete (if isPopupVisible x then
            if x.highlightedIndex > 0 then
              setHighlightedIndex x (x.highlightedIndex - 1) .Highlight
            else x
          else
            if x.currentIndex > 0 then
              setCurrentIndex x (x.currentIndex - 1) .Activate
            else x) true).currentIndex = d.currentIndex
        ∧ (¬ 0 < d.highlightedIndex →
          (setAllowComplete (if isPopupVisible x then
            if x.highlightedIndex > 0 then
              setHighlightedIndex x (x.highlightedIndex - 1) .Highlight
            else x
          else
            if x.currentIndex > 0 then
              setCurrentIndex x (x.currentIndex - 1) .Activate
            else x) true).highlightedIndex = d.highlightedIndex
          ∧ (setAllowComplete (if isPopupVisible x then
            if x.highlightedIndex > 0 then
              setHighlightedIndex x (x.highlightedIndex - 1) .Highlight
            else x
          else
            if x.currentIndex > 0 then
              setCurrentIndex x (x.currentIndex - 1) .Activate
            else x) true).emitted = d.emitted)
        ∧ (0 < d.highlightedIndex →
          (setAllowComplete (if isPopupVisible x then
            if x.highlightedIndex > 0 then
              setHighlightedIndex x (x.highlightedIndex - 1) .Highlight
            else x
          else
            if x.currentIndex > 0 then
              setCurrentIndex x (x.currentIndex - 1) .Activate
            else x) true).highlightedIndex = d.highlightedIndex - 1
          ∧ (setAllowComplete (if isPopupVisible x then
            if x.highlightedIndex > 0 then
              setHighlightedIndex x (x.highlightedIndex - 1) .Highlight
            else x
          else
            if x.currentIndex > 0 then
              setCurrentIndex x (x.currentIndex - 1) .Activate
            else x) true).emitted
              = d.emitted ++ [ComboSignal.highlightedIndexChanged,
                  ComboSignal.highlighted (d.highlightedIndex - 1)]) := by
    intro x hx hc he hh
    rw [hx]
    simp only [if_true, hh, gt_iff_lt]
    refine ⟨?_, fun h => ?_, fun h => ?_⟩
    · split_ifs <;> simp [hc]
    · rw [if_neg h]
      simp [hh, he]
    · rw [if_pos h]
      refine ⟨by simp, ?_⟩
      rw [setAllowComplete_emitted, setHighlightedIndex_trace, if_neg (by rw [hh]; omega), he]
  exact key (setAllowComplete d false) (by rw [isPopupVisible_setAllowComplete]; exact hv)
    (by simp) (by simp) (by simp)

end ComboBoxPrivate

end QtCellink

namespace QtCellink

namespace ComboBox

open ComboBoxPrivate

theorem activations_append (a b : List ComboSignal) :
    activations (a ++ b) = activations a ++ activations b := by
  simp [activations, List.filterMap_append]

theorem activations_text_only (l : List ComboSignal)
    (h : ∀ s ∈ l, ComboSignal.isTextChange s = true) : activations l = [] := by
  induction l with
  | nil => rfl
  | cons s l ih =>
    have hs := h s (List.mem_cons_self _ _)
    have hl := ih (fun t ht => h t (List.mem_cons_of_mem _ ht))
    cases s <;> simp_all [activations, ComboSignal.isTextChange]

theorem activations_emit (d : ComboBox) (sig : ComboSignal) :
    activations (d.emit sig).emitted
      = activations d.emitted ++ activations [sig] := by
  simp [ComboBox.emit, activations_append]

theorem setDown_activations (d : ComboBox) (b : Bool) :
    activations (d.setDown b).emitted = activations d.emitted := by
  simp only [setDown]
  split_ifs
  · rfl
  · rw [activations_emit]
    simp [activations]

theorem setPressed_activations (d : ComboBox) (b : Bool) :
    activations (d.setPressed b).emitted = activations d.emitted := by
  simp only [setPressed]
  split_ifs
  · rfl
  · show activations (setDown _ _).emitted = _
    rw [setDown_activations, activations_emit]
    simp [activations]
  · rw [activations_emit]
    simp [activations]

theorem publicSetCurrentIndex_activations (d : ComboBox) (i : Int) :
    activations (d.setCurrentIndex i).emitted = activations d.emitted := by
  by_cases h : d.currentIndex = i
  · subst h
    rw [publicSetCurrentIndex_same]
  · obtain ⟨l, tl, el⟩ := publicSetCurrentIndex_trace d i h
    rw [el, activations_append, ← List.singleton_append, activations_append,
      activations_text_only l tl]
    simp [activations]

end ComboBox

namespace ComboBoxPrivate

open ComboBox

theorem hidePopup_discard_activations (d : ComboBox) :
    activations (hidePopup d false).emitted = activations d.emitted := by
  simp only [hidePopup, Bool.false_eq_true, if_false]
  split
  · split_ifs
    · rw [activations_emit]
      simp [activations]
    · rfl
  · rfl

theorem hidePopup_accept_activations (d : ComboBox) :
    activations (hidePopup d true).emitted
      = activations d.emitted ++ [d.highlightedIndex] := by
  have key : activations ((d.setCurrentIndex d.highlightedIndex).emit
      (.activated (d.setCurrentIndex d.highlightedIndex).currentIndex)).emitted
        = activations d.emitted ++ [d.highlightedIndex] := by
    rw [activations_emit, publicSetCurrentIndex_activations,
      publicSetCurrentIndex_currentIndex]
    simp [activations]
  simp only [hidePopup, if_true]
  split
  · split_ifs
    · rw [activations_emit, key]
      simp [activations]
    · exact key
  · exact key

end ComboBoxPrivate

namespace ComboBox

open ComboBoxPrivate

/-- C22: the Up and Down keys never wrap.  With the popup closed, Down at or past
the last row and Up at row 0 or at -1 leave the current index and the trace as
they were, and from any other index they move the current index by exactly one,
emitting `currentIndexChanged`, text changes, then `activated` with the new
index; from an index in `[0, count-1]` the result is in `[0, count-1]`.  With
the popup open the same rule applies to the highlighted index, emitting
`highlightedIndexChanged` and `highlighted`, and the current index stays. -/
theorem upDown_never_wraps (d : ComboBox) (text : QString) (rep : Bool) :
    (isPopupVisible d = false →
        (d.keyPressEvent ⟨.Key_Down, text, rep⟩).highlightedIndex = d.highlightedIndex
        ∧ (d.keyPressEvent ⟨.Key_Up, text, rep⟩).highlightedIndex = d.highlightedIndex
        ∧ (¬ d.currentIndex < d.count - 1 →
            (d.keyPressEvent ⟨.Key_Down, text, rep⟩).currentIndex = d.currentIndex
              ∧ (d.keyPressEvent ⟨.Key_Down, text, rep⟩).emitted = d.emitted)
        ∧ (d.currentIndex < d.count - 1 →
            (d.keyPressEvent ⟨.Key_Down, text, rep⟩).currentIndex = d.currentIndex + 1
              ∧ EmitsActivation d.emitted (d.keyPressEvent ⟨.Key_Down, text, rep⟩).emitted
                  (d.currentIndex + 1))
        ∧ (¬ 0 < d.currentIndex →
            (d.keyPressEvent ⟨.Key_Up, text, rep⟩).currentIndex = d.currentIndex
              ∧ (d.keyPressEvent ⟨.Key_Up, text, rep⟩).emitted = d.emitted)
        ∧ (0 < d.currentIndex →
            (d.keyPressEvent ⟨.Key_Up, text, rep⟩).currentIndex = d.currentIndex - 1
              ∧ EmitsActivation d.emitted (d.keyPressEvent ⟨.Key_Up, text, rep⟩).emitted
                  (d.currentIndex - 1))
        ∧ (0 ≤ d.currentIndex ∧ d.currentIndex < d.count →
            (0 ≤ (d.keyPressEvent ⟨.Key_Down, text, rep⟩).currentIndex
              ∧ (d.keyPressEvent ⟨.Key_Down, text, rep⟩).currentIndex < d.count)
            ∧ (0 ≤ (d.keyPressEvent ⟨.Key_Up, text, rep⟩).currentIndex
              ∧ (d.keyPressEvent ⟨.Key_Up, text, rep⟩).currentIndex < d.count)))
      ∧ (isPopupVisible d = true →
        (d.keyPressEvent ⟨.Key_Down, text, rep⟩).currentIndex = d.currentIndex
        ∧ (d.keyPressEvent ⟨.Key_Up, text, rep⟩).currentIndex = d.currentIndex
        ∧ (¬ d.highlightedIndex < d.count - 1 →
            (d.keyPressEvent ⟨.Key_Down, text, rep⟩).highlightedIndex = d.highlightedIndex
              ∧ (d.keyPressEvent ⟨.Key_Down, text, rep⟩).emitted = d.emitted)
        ∧ (d.highlightedIndex < d.count - 1 →
            (d.keyPressEvent ⟨.Key_Down, text, rep⟩).highlightedIndex
                = d.highlightedIndex + 1
              ∧ (d.keyPressEvent ⟨.Key_Down, text, rep⟩).emitted
                  = d.emitted ++ [ComboSignal.highlightedIndexChanged,
                      ComboSignal.highlighted (d.highlightedIndex + 1)])
        ∧ (¬ 0 < d.highlightedIndex →
            (d.keyPressEvent ⟨.Key_Up, text, rep⟩).highlightedIndex = d.highlightedIndex
              ∧ (d.keyPressEvent ⟨.Key_Up, text, rep⟩).emitted = d.emitted)
        ∧ (0 < d.highlightedIndex →
            (d.keyPressEvent ⟨.Key_Up, text, rep⟩).highlightedIndex
                = d.highlightedIndex - 1
              ∧ (d.keyPressEvent ⟨.Key_Up, text, rep⟩).emitted
                  = d.emitted ++ [ComboSignal.highlightedIndexChanged,
                      ComboSignal.highlighted (d.highlightedIndex - 1)])) := by
  have hdown : d.keyPressEvent ⟨.Key_Down, text, rep⟩
      = ComboBoxPrivate.incrementCurrentIndex { d with keyNavigating := true } := rfl
  have hup : d.keyPressEvent ⟨.Key_Up, text, rep⟩
      = ComboBoxPrivate.decrementCurrentIndex { d with keyNavigating := true } := rfl
  rw [hdown, hup]
  constructor
  · intro hv
    have hi := incrementCurrentIndex_closed { d with keyNavigating := true } hv
    have hd := decrementCurrentIndex_closed { d with keyNavigating := true } hv
    refine ⟨hi.1, hd.1, hi.2.1, hi.2.2, hd.2.1, hd.2.2, fun hr => ?_⟩
    have e1 : ({ d with keyNavigating := true } : ComboBox).currentIndex = d.currentIndex := rfl
    have e2 : ({ d with keyNavigating := true } : ComboBox).count = d.count := rfl
    constructor
    · by_cases h : d.currentIndex < d.count - 1
      · have := (hi.2.2 h).1
        rw [e1] at this
        rw [this]
        omega
      · have := (hi.2.1 h).1
        rw [e1] at this
        rw [this]
        omega
    · by_cases h : 0 < d.currentIndex
      · have := (hd.2.2 h).1
        rw [e1] at this
        rw [this]
        omega
      · have := (hd.2.1 h).1
        rw [e1] at this
        rw [this]
        omega
  · intro hv
    have hi := incrementCurrentIndex_open { d with keyNavigating := true } hv
    have hd := decrementCurrentIndex_open { d with keyNavigating := true } hv
    exact ⟨hi.1, hd.1, hi.2.1, hi.2.2, hd.2.1, hd.2.2⟩

theorem upDown_never_wraps_witness :
    (isPopupVisible (greekBox.setCurrentIndex 2) = false
        ∧ ¬ (greekBox.setCurrentIndex 2).currentIndex < (greekBox.setCurrentIndex 2).count - 1)
      ∧ ((greekBox.setCurrentIndex 2).keyPressEvent ⟨.Key_Down, "", false⟩).currentIndex
          = (greekBox.setCurrentIndex 2).currentIndex
      ∧ ((greekBox.setCurrentIndex 2).keyPressEvent ⟨.Key_Down, "", false⟩).emitted
          = (greekBox.setCurrentIndex 2).emitted :=
  ⟨by decide,
   ((upDown_never_wraps (greekBox.setCurrentIndex 2) "" false).1 (by decide)).2.2.1
      (by decide)⟩

/-- C23: hiding the popup with accept makes the current index the highlighted
index held before and emits `activated` exactly once, with that index, also when
the index did not change; so does releasing Enter while the popup is visible.
Hiding without accept, releasing Escape, losing focus and a mouse release on the
input leave the current index as it was and emit no `activated`. -/
theorem hidePopup_accept_copies_highlighted (d : ComboBox) (text : QString) :
    ((hidePopup d true).currentIndex = d.highlightedIndex
        ∧ activations (hidePopup d true).emitted
            = activations d.emitted ++ [d.highlightedIndex])
      ∧ (isPopupVisible d = true →
          (d.keyReleaseEvent ⟨.Key_Enter, text, false⟩).currentIndex = d.highlightedIndex
            ∧ activations (d.keyReleaseEvent ⟨.Key_Enter, text, false⟩).emitted
                = activations d.emitted ++ [d.highlightedIndex])
      ∧ ((hidePopup d false).currentIndex = d.currentIndex
        ∧ activations (hidePopup d false).emitted = activations d.emitted)
      ∧ ((d.keyReleaseEvent ⟨.Key_Escape, text, false⟩).currentIndex = d.currentIndex
        ∧ activations (d.keyReleaseEvent ⟨.Key_Escape, text, false⟩).emitted
            = activations d.emitted)
      ∧ ((d.eventFilter .FocusOut).currentIndex = d.currentIndex
        ∧ activations (d.eventFilter .FocusOut).emitted = activations d.emitted)
      ∧ (d.focusOutEvent.currentIndex = d.currentIndex
        ∧ activations d.focusOutEvent.emitted = activations d.emitted)
      ∧ ((d.eventFilter .MouseButtonRelease).currentIndex = d.currentIndex
        ∧ activations (d.eventFilter .MouseButtonRelease).emitted
            = activations d.emitted) := by
  refine ⟨⟨by simp, hidePopup_accept_activations d⟩, fun hv => ?_,
    ⟨by simp, hidePopup_discard_activations d⟩, ?_, ?_, ?_, ?_⟩
  · have hv1 : isPopupVisible ({ d with keyNavigating := false } : ComboBox) = true := hv
    have e : d.keyReleaseEvent ⟨.Key_Enter, text, false⟩
        = (hidePopup { d with keyNavigating := false } true).setPressed false := by
      simp only [keyReleaseEvent, Bool.false_eq_true, if_false, hv1, or_true, if_true]
    rw [e, setPressed_activations, hidePopup_accept_activations]
    simp
  · have e : d.keyReleaseEvent ⟨.Key_Escape, text, false⟩
        = if isPopupVisible ({ d with keyNavigating := false } : ComboBox) then
            (hidePopup { d with keyNavigating := false } false).setPressed false
          else { d with keyNavigating := false } := by
      simp only [keyReleaseEvent, Bool.false_eq_true, if_false]
    rw [e]
    split_ifs
    · rw [setPressed_activations, hidePopup_discard_activations]
      simp
    · exact ⟨rfl, rfl⟩
  · simp only [eventFilter]
    rw [setPressed_activations, hidePopup_discard_activations]
    simp
  · simp only [focusOutEvent]
    rw [setPressed_activations, hidePopup_discard_activations]
    simp
  · simp only [eventFilter]
    split_ifs
    · exact ⟨by simp, hidePopup_discard_activations d⟩
    · exact ⟨rfl, rfl⟩

end ComboBox

end QtCellink

namespace QtCellink

/-! ## The edit text update -/

namespace ComboBoxPrivate

open ComboBox

theorem setEditText_editText (d : ComboBox) (t : QString) : (d.setEditText t).editText = t := by
  unfold setEditText
  split_ifs with h
  · exact h.symm
  · rfl

theorem setEditText_allowComplete (d : ComboBox) (t : QString) :
    allowComplete (d.setEditText t) = allowComplete d := by
  unfold setEditText
  split_ifs with h
  · rfl
  · cases he : d.extra <;> simp [allowComplete, ComboBox.emit, he]

theorem allowComplete_setAllowComplete (d : ComboBox) (b : Bool) :
    allowComplete (setAllowComplete d b) = (d.extra.isSome && b) := by
  cases he : d.extra <;> simp [allowComplete, setAllowComplete, he]

theorem QString.foldAscii_respects_append : FoldRespectsAppend QString.foldAscii := by
  intro a b r _ h
  unfold QString.foldAscii at h ⊢
  rw [List.map_append, List.map_append, h]

/-- A row that starts with the input ignoring case also starts with the input
followed by the rest of the row, when the folding respects appending. -/
theorem QString.startsWith_completion (fold : QString → QString)
    (hfold : FoldRespectsAppend fold) (m text : QString)
    (h : QString.startsWith fold m text false = true) :
    QString.startsWith fold m (text ++ QString.mid m text.length) false = true := by
  have hlen := QString.startsWith_length_le _ _ _ _ h
  have hclen := QString.append_mid_length text m hlen
  unfold QString.startsWith QString.compareEq at h
  simp only [Bool.false_eq_true, if_false, Bool.decide_and, Bool.and_eq_true,
    decide_eq_true_eq] at h
  obtain ⟨_, htl, htf⟩ := h
  unfold QString.startsWith QString.compareEq
  simp only [Bool.false_eq_true, if_false, Bool.decide_and, Bool.and_eq_true,
    decide_eq_true_eq]
  rw [hclen, List.take_length]
  refine ⟨le_refl _, rfl, ?_⟩
  have := hfold (m.take text.length) text (m.drop text.length) htl htf
  rw [List.take_append_drop] at this
  exact this

/-- Completing a completion adds nothing: the row selected for the input is a
candidate for the completed text too, and no shorter row starts with it. -/
theorem tryComplete_idem_length (d : ComboBox) (hfold : FoldRespectsAppend d.foldCase)
    (text : QString) :
    (tryComplete d (tryComplete d text)).length ≤ (tryComplete d text).length := by
  by_cases hm : tryCompleteMatch d text = []
  · have hc : tryComplete d text = text := by
      rw [tryComplete_eq, hm, QString.mid_empty]
      simp
    rw [hc, hc]
  · rcases tryComplete_loop_row d text d.count.toNat with ⟨h0, _⟩ | ⟨i, hi, hmi, hsi⟩
    · exact absurd h0 hm
    · have hmi1 : tryCompleteMatch d text = d.textAt (i : Int) := hmi
      have hlen := QString.startsWith_length_le _ _ _ _ hsi
      have hc : tryComplete d text = text ++ QString.mid (d.textAt (i : Int)) text.length := by
        rw [tryComplete_eq, hmi1]
      have hclen : (tryComplete d text).length = (d.textAt (i : Int)).length := by
        rw [hc]; exact QString.append_mid_length _ _ hlen
      have hpos : 0 < (d.textAt (i : Int)).length :=
        QString.length_pos_of_ne_empty _ (by rw [← hmi1]; exact hm)
      have hcne : tryComplete d text ≠ [] := by
        intro h
        rw [h] at hclen
        simp at hclen
        omega
      have hrow : QString.startsWith d.foldCase (d.textAt (i : Int)) (tryComplete d text) false
          = true := by
        rw [hc]
        exact QString.startsWith_completion _ hfold _ _ hsi
      rcases tryComplete_loop d (tryComplete d text) hcne d.count.toNat with
        ⟨h0, _⟩ | ⟨j, _, hmj, hsj, hmin⟩
      · have h0m : tryCompleteMatch d (tryComplete d text) = [] := h0
        rw [tryComplete_eq d (tryComplete d text), h0m, QString.mid_empty]
        simp
      · have hmj1 : tryCompleteMatch d (tryComplete d text) = d.textAt (j : Int) := hmj
        have hle := (hmin i hi hrow).1
        rw [tryComplete_eq d (tryComplete d text), hmj1,
          QString.append_mid_length _ _ (QString.startsWith_length_le _ _ _ _ hsj), hclen]
        exact hle

theorem updateEditText_plain (d : ComboBox) (input : TextInput) (fuel : Nat)
    (h : allowComplete d = false ∨ input.text = []
      ∨ (tryComplete d input.text).length ≤ input.text.length) :
    updateEditText (fuel + 1) d (some input) = some (d.setEditText input.text, some input) := by
  simp only [updateEditText]
  by_cases h1 : allowComplete d = true ∧ (!input.text.isEmpty) = true
  · have hle : ¬ (tryComplete d input.text).length > input.text.length := by
      rcases h with h | h | h
      · rw [h] at h1
        exact absurd h1.1 (by decide)
      · rw [h] at h1
        exact absurd h1.2 (by decide)
      · omega
    rw [if_pos h1, if_neg hle]
  · rw [if_neg h1]

theorem TextInput.withText_text (input : TextInput) (s : QString) :
    (input.withText s).text = s := rfl

theorem updateEditText_completing (d : ComboBox) (hfold : FoldRespectsAppend d.foldCase)
    (input : TextInput) (fuel : Nat)
    (ha : allowComplete d = true) (hne : input.text ≠ [])
    (hlen : (tryComplete d input.text).length > input.text.length) :
    updateEditText (fuel + 2) d (some input)
      = some (d.setEditText (tryComplete d input.text),
          some ((input.withText (tryComplete d input.text)).select
            (tryComplete d input.text).length input.text.length)) := by
  have hnested := updateEditText_plain d (input.withText (tryComplete d input.text)) fuel
    (Or.inr (Or.inr (by
      rw [TextInput.withText_text]
      exact tryComplete_idem_length d hfold input.text)))
  rw [TextInput.withText_text] at hnested
  have hneq : tryComplete d input.text ≠ input.text := by
    intro h
    rw [h] at hlen
    omega
  have hemp : input.text.isEmpty = false := (QString.isEmpty_eq_false_iff _).2 hne
  rw [updateEditText]
  simp only [ha, hemp, Bool.not_false, and_self, if_true, hlen, hneq, if_false, hnested]

/-- The completing branch of `updateEditText` by itself: it sets the text of the
input to the completion, which runs the update again on the new text, and then
selects; it does not call `setEditText` with the text it found. -/
theorem updateEditText_completing_step (d : ComboBox) (input : TextInput) (fuel : Nat)
    (ha : allowComplete d = true) (hne : input.text ≠ [])
    (hlen : (tryComplete d input.text).length > input.text.length) :
    updateEditText (fuel + 1) d (some input)
      = (updateEditText fuel d (some (input.withText (tryComplete d input.text)))).map
          (fun r => (r.1, r.2.map (fun i =>
            i.select (tryComplete d input.text).length input.text.length))) := by
  have hneq : tryComplete d input.text ≠ input.text := by
    intro h
    rw [h] at hlen
    omega
  have hemp : input.text.isEmpty = false := (QString.isEmpty_eq_false_iff _).2 hne
  rw [updateEditText]
  simp only [ha, hemp, Bool.not_false, and_self, if_true, hlen, hneq, if_false]
  cases updateEditText fuel d (some (input.withText (tryComplete d input.text))) with
  | none => rfl
  | some r =>
    obtain ⟨r1, r2⟩ := r
    cases r2 <;> rfl

theorem updateEditText_allowComplete (fuel : Nat) :
    ∀ (d : ComboBox) (input : Option TextInput) (r : ComboBox × Option TextInput),
      updateEditText fuel d input = some r → allowComplete r.1 = allowComplete d := by
  induction fuel with
  | zero =>
    intro d input r h
    simp [updateEditText] at h
  | succ n ih =>
    intro d input r h
    cases input with
    | none =>
      simp only [updateEditText, Option.some.injEq] at h
      rw [← h]
    | some input =>
      simp only [updateEditText] at h
      split_ifs at h with h1 h2 h3
      · simp only [Option.some.injEq] at h
        rw [← h]
      · cases hn : updateEditText n d (some (input.withText (tryComplete d input.text))) with
        | none =>
          rw [hn] at h
          simp at h
        | some q =>
          rw [hn] at h
          have := ih d _ q hn
          obtain ⟨q1, q2⟩ := q
          cases q2 with
          | none =>
            simp only [Option.some.injEq] at h
            rw [← h]
            exact this
          | some q2 =>
            simp only [Option.some.injEq] at h
            rw [← h]
            exact this
      · simp only [Option.some.injEq] at h
        rw [← h]
        exact setEditText_allowComplete d _
      · simp only [Option.some.injEq] at h
        rw [← h]
        exact setEditText_allowComplete d _

end ComboBoxPrivate

end QtCellink

namespace QtCellink

namespace ComboBoxPrivate

open ComboBox

theorem TextInput.select_after_completion (input : TextInput) (c : QString)
    (hlen : input.text.length < c.length) (hp : input.text <+: c) :
    ((input.withText c).select c.length input.text.length).text = c
      ∧ ((input.withText c).select c.length input.text.length).selectionStart
          = input.text.length
      ∧ ((input.withText c).select c.length input.text.length).selectionEnd = c.length
      ∧ ((input.withText c).select c.length input.text.length).cursorPosition
          = input.text.length
      ∧ ((input.withText c).select c.length input.text.length).selectedText
          = QString.mid c input.text.length
      ∧ input.text
          ++ ((input.withText c).select c.length input.text.length).selectedText = c := by
  have hsel : (input.withText c).select c.length input.text.length
      = { input.withText c with selectionStart := input.text.length,
                                selectionEnd := c.length,
                                cursorPosition := input.text.length } := by
    unfold TextInput.select
    rw [if_neg (by rw [TextInput.withText_text]; omega), Nat.min_eq_right (Nat.le_of_lt hlen),
      Nat.max_eq_left (Nat.le_of_lt hlen)]
  rw [hsel]
  have hst : ({ input.withText c with selectionStart := input.text.length,
                                      selectionEnd := c.length,
                                      cursorPosition := input.text.length }
        : TextInput).selectedText = QString.mid c input.text.length := by
    show (c.drop input.text.length).take (c.length - input.text.length)
      = c.drop input.text.length
    rw [List.take_of_length_le]
    rw [List.length_drop]
  refine ⟨rfl, rfl, rfl, rfl, hst, ?_⟩
  rw [hst]
  exact QString.append_mid_of_startsWith _ _ hp

theorem allowComplete_after_deletion (d : ComboBox) (key : FilterKey)
    (hk : key = .Key_Backspace ∨ key = .Key_Delete) :
    allowComplete (d.eventFilter (.KeyPress key false)) = false := by
  simp only [eventFilter, Bool.false_eq_true, if_false]
  rw [allowComplete_setAllowComplete]
  rcases hk with hk | hk <;> subst hk <;> simp

theorem allowComplete_after_other_key (d : ComboBox) (h : d.extra ≠ none) :
    allowComplete (d.eventFilter (.KeyPress .Key_Other false)) = true := by
  simp only [eventFilter, Bool.false_eq_true, if_false]
  rw [allowComplete_setAllowComplete]
  cases he : d.extra with
  | none => exact absurd he h
  | some e => simp

theorem setEditText_extra_ne_none (d : ComboBox) (t : QString) (h : d.extra ≠ none) :
    (d.setEditText t).extra ≠ none := by
  unfold setEditText
  split_ifs
  · exact h
  · simp [ComboBox.emit]

/-- C21: after a Backspace or Delete key press that no key filter consumed, the
edit text update that follows performs no completion, whatever the model and
the text of the input: it returns with the edit text equal to the text of the
input and with the input (text, selection, cursor) as it was. -/
theorem deletion_suppresses_completion (d : ComboBox) (key : FilterKey) (input : TextInput)
    (fuel : Nat) (hk : key = .Key_Backspace ∨ key = .Key_Delete) :
    ∃ d1, updateEditText (fuel + 1) (d.eventFilter (.KeyPress key false)) (some input)
        = some (d1, some input)
      ∧ d1 = (d.eventFilter (.KeyPress key false)).setEditText input.text
      ∧ d1.editText = input.text := by
  refine ⟨_, updateEditText_plain _ input fuel
    (Or.inl (allowComplete_after_deletion d key hk)), rfl, setEditText_editText _ _⟩

theorem deletion_suppresses_completion_witness :
    (FilterKey.Key_Backspace = .Key_Backspace ∨ FilterKey.Key_Backspace = .Key_Delete)
      ∧ tryComplete editableBox "Al" = "Alpha"
      ∧ ∃ d1, updateEditText 1 (editableBox.eventFilter (.KeyPress .Key_Backspace false))
            (some (inputWith "Al")) = some (d1, some (inputWith "Al"))
          ∧ d1 = (editableBox.eventFilter (.KeyPress .Key_Backspace false)).setEditText
              (inputWith "Al").text
          ∧ d1.editText = (inputWith "Al").text :=
  ⟨Or.inl rfl, by decide,
   deletion_suppresses_completion editableBox .Key_Backspace (inputWith "Al") 0 (Or.inl rfl)⟩

/-- C25 (fails on the code): on the editable control over Alpha, Alphabet, Beta
with completion allowed, after an unfiltered Backspace the edit text update for
the input Al returns with the allow-complete flag still false. -/
theorem allowComplete_not_restored_by_update :
    allowComplete editableBox = true
      ∧ allowComplete (editableBox.eventFilter (.KeyPress .Key_Backspace false)) = false
      ∧ (updateEditText 1 (editableBox.eventFilter (.KeyPress .Key_Backspace false))
            (some (inputWith "Al"))).map (fun r => allowComplete r.1) = some false := by
  decide

/-- C25 (amended): the edit text update never changes the allow-complete flag.
After an unfiltered Backspace or Delete key press the flag is false, the edit
text update that follows returns with the flag still false, and the flag is true
again after the next unfiltered press of a key other than Backspace and Delete
(when the extra data is allocated, as it is in editable mode). -/
theorem allowComplete_restored_by_next_key (d : ComboBox) (key : FilterKey)
    (input : TextInput) (fuel : Nat) (hk : key = .Key_Backspace ∨ key = .Key_Delete) :
    (∀ (n : Nat) (x : ComboBox) (i : Option TextInput) (r : ComboBox × Option TextInput),
        updateEditText n x i = some r → allowComplete r.1 = allowComplete x)
      ∧ allowComplete (d.eventFilter (.KeyPress key false)) = false
      ∧ ∃ d1, updateEditText (fuel + 1) (d.eventFilter (.KeyPress key false)) (some input)
            = some (d1, some input)
          ∧ allowComplete d1 = false
          ∧ (d.extra ≠ none →
              allowComplete (d1.eventFilter (.KeyPress .Key_Other false)) = true) := by
  have hdel := allowComplete_after_deletion d key hk
  refine ⟨fun n => updateEditText_allowComplete n, hdel, _,
    updateEditText_plain _ input fuel (Or.inl hdel), ?_, fun hx => ?_⟩
  · rw [setEditText_allowComplete]
    exact hdel
  · apply allowComplete_after_other_key
    apply setEditText_extra_ne_none
    simp only [eventFilter, Bool.false_eq_true, if_false]
    cases he : d.extra with
    | none => exact absurd he hx
    | some e => simp [setAllowComplete, he]

theorem allowComplete_restored_by_next_key_witness :
    (FilterKey.Key_Delete = .Key_Backspace ∨ FilterKey.Key_Delete = .Key_Delete)
      ∧ editableBox.extra ≠ none
      ∧ allowComplete (editableBox.eventFilter (.KeyPress .Key_Delete false)) = false
      ∧ ∃ d1, updateEditText 1 (editableBox.eventFilter (.KeyPress .Key_Delete false))
            (some (inputWith "Al")) = some (d1, some (inputWith "Al"))
          ∧ allowComplete d1 = false
          ∧ (editableBox.extra ≠ none →
              allowComplete (d1.eventFilter (.KeyPress .Key_Other false)) = true) :=
  ⟨Or.inr rfl, by decide,
   (allowComplete_restored_by_next_key editableBox .Key_Delete (inputWith "Al") 0
      (Or.inr rfl)).2⟩

/-- C26: on an edit text update with completion allowed and a non-empty input
text: when the completion is strictly longer than the text, the update sets the
text of the input to the completion (which runs the update again on the new
text) and then selects from `len(completion)` back to `len(text)`, without
calling `setEditText` with the bare text; given fuel for that nested run and a
library whose case folding respects appending, as Qt's does, it returns with the
completion as the text of the input, the selection spanning the positions
`len(text)` to `len(completion)`, the selected text being the appended
remainder, the cursor at `len(text)`, and the edit text equal to the
completion, not to the bare text.  When the completion is not longer, the
update returns with the input as it was and the edit text equal to the text.
Lengths and positions count UTF-16 code units. -/
theorem updateEditText_selects_remainder (d : ComboBox) (input : TextInput) (fuel : Nat)
    (ha : allowComplete d = true) (hne : input.text ≠ "") :
    ((tryComplete d input.text).length > input.text.length →
        updateEditText (fuel + 1) d (some input)
          = (updateEditText fuel d (some (input.withText (tryComplete d input.text)))).map
              (fun r => (r.1, r.2.map (fun i =>
                i.select (tryComplete d input.text).length input.text.length))))
      ∧ (FoldRespectsAppend d.foldCase →
      (tryComplete d input.text).length > input.text.length →
        ∃ d1 input1, updateEditText (fuel + 2) d (some input) = some (d1, some input1)
          ∧ input1.text = tryComplete d input.text
          ∧ input1.selectionStart = input.text.length
          ∧ input1.selectionEnd = (tryComplete d input.text).length
          ∧ input1.cursorPosition = input.text.length
          ∧ input1.selectedText = QString.mid (tryComplete d input.text) input.text.length
          ∧ input.text ++ input1.selectedText = tryComplete d input.text
          ∧ d1.editText = tryComplete d input.text
          ∧ d1.editText ≠ input.text)
      ∧ (¬ (tryComplete d input.text).length > input.text.length →
        updateEditText (fuel + 1) d (some input) = some (d.setEditText input.text, some input)
          ∧ (d.setEditText input.text).editText = input.text) := by
  rw [QString.ofString_empty] at hne
  refine ⟨fun hlen => updateEditText_completing_step d input fuel ha hne hlen, ?_, ?_⟩
  · intro hfold hlen
    have hs := TextInput.select_after_completion input (tryComplete d input.text) hlen
      (tryComplete_extends_input d input.text)
    refine ⟨_, _, updateEditText_completing d hfold input fuel ha hne hlen, hs.1, hs.2.1,
      hs.2.2.1, hs.2.2.2.1, hs.2.2.2.2.1, hs.2.2.2.2.2, setEditText_editText _ _, ?_⟩
    rw [setEditText_editText]
    intro h
    rw [h] at hlen
    omega
  · intro hlen
    exact ⟨updateEditText_plain d input fuel (Or.inr (Or.inr (by omega))),
      setEditText_editText _ _⟩

/-- Witness of C26: the input Al on the editable control over Alpha, Alphabet,
Beta is completed to Alpha with pha selected. -/
theorem updateEditText_selects_remainder_witness :
    (allowComplete editableBox = true ∧ (inputWith "Al").text ≠ ""
        ∧ (tryComplete editableBox (inputWith "Al").text).length > (inputWith "Al").text.length)
      ∧ FoldRespectsAppend editableBox.foldCase
      ∧ (updateEditText 2 editableBox (some (inputWith "Al"))).map
            (fun r => (r.1.editText, r.2.map TextInput.selectedText))
          = some (("Alpha" : QString), some ("pha" : QString))
      ∧ ∃ d1 input1, updateEditText 2 editableBox (some (inputWith "Al"))
            = some (d1, some input1)
          ∧ input1.text = tryComplete editableBox (inputWith "Al").text
          ∧ input1.selectionStart = (inputWith "Al").text.length
          ∧ input1.selectionEnd = (tryComplete editableBox (inputWith "Al").text).length
          ∧ input1.cursorPosition = (inputWith "Al").text.length
          ∧ input1.selectedText
              = QString.mid (tryComplete editableBox (inputWith "Al").text)
                  (inputWith "Al").text.length
          ∧ (inputWith "Al").text ++ input1.selectedText
              = tryComplete editableBox (inputWith "Al").text
          ∧ d1.editText = tryComplete editableBox (inputWith "Al").text
          ∧ d1.editText ≠ (inputWith "Al").text :=
  ⟨by decide, QString.foldAscii_respects_append, by decide,
   (updateEditText_selects_remainder editableBox (inputWith "Al") 0 (by decide)
      (by decide)).2.1 QString.foldAscii_respects_append (by decide)⟩

end ComboBoxPrivate

end QtCellink

namespace QtCellink

/-! ## Confirming the input -/

namespace ComboBoxPrivate

open ComboBox

theorem rowMatches_fixedString (d : ComboBox) (text t : QString) :
    rowMatches d (Qt.MatchFixedString &&& 0x0F)
        (Qt.MatchFixedString &&& Qt.MatchCaseSensitive ≠ 0) text t
      = QString.compareEq d.foldCase t text false := by
  have h1 : Qt.MatchFixedString &&& 0x0F = 8 := by decide
  have h2 : Qt.MatchFixedString &&& Qt.MatchCaseSensitive = 0 := by decide
  rw [h1, h2]
  simp [rowMatches, Qt.MatchExactly, Qt.MatchRegExp, Qt.MatchWildcard, Qt.MatchStartsWith,
    Qt.MatchEndsWith, Qt.MatchFixedString]

/-- With `Qt::MatchFixedString`, `find` depends on the control through its row
count, its row texts and the case folding of the library only. -/
theorem find_fixedString_congr (d e : ComboBox) (text : QString)
    (hc : e.count = d.count) (ht : ∀ j, e.textAt j = d.textAt j)
    (hf : e.foldCase = d.foldCase) :
    e.find text Qt.MatchFixedString = d.find text Qt.MatchFixedString := by
  have hfun : e.textAt = d.textAt := funext ht
  rw [find_eq_first_pass, find_eq_first_pass]
  unfold matchRange
  simp only [rowMatches_fixedString, hc, hfun, hf]

/-- What `find` returns with `Qt::MatchFixedString`: the first row whose text
equals `text` ignoring case, or -1 when there is none. -/
theorem find_fixedString (d : ComboBox) (text : QString) :
    (d.find text Qt.MatchFixedString = -1
        ∧ ∀ j, 0 ≤ j → j < d.count → QString.compareEq d.foldCase (d.textAt j) text false = false)
      ∨ (0 ≤ d.find text Qt.MatchFixedString ∧ d.find text Qt.MatchFixedString < d.count
          ∧ QString.compareEq d.foldCase (d.textAt (d.find text Qt.MatchFixedString)) text false = true
          ∧ ∀ j, 0 ≤ j → j < d.find text Qt.MatchFixedString →
              QString.compareEq d.foldCase (d.textAt j) text false = false) := by
  have h := find_characterized d text Qt.MatchFixedString
  simp only [rowMatches_fixedString] at h
  exact h

theorem allocExtra_editText (d : ComboBox) : (allocExtra d).editText = d.editText := by
  cases he : d.extra <;> simp [allocExtra, ComboBox.editText, he]

theorem acceptInputIndex_eq (d : ComboBox) :
    acceptInputIndex d = d.find d.editText Qt.MatchFixedString := by
  unfold acceptInputIndex
  rw [allocExtra_editText]
  exact find_fixedString_congr d (allocExtra d) _ rfl (fun _ => rfl) rfl

theorem acceptInputEmitting_currentIndex (d : ComboBox) (h : acceptInputIndex d > -1) :
    (acceptInputEmitting d).currentIndex = acceptInputIndex d := by
  simp only [acceptInputEmitting, if_pos h]
  show ((allocExtra d).setCurrentIndex (acceptInputIndex d)).currentIndex = _
  exact publicSetCurrentIndex_currentIndex _ _

theorem acceptInputEmitting_not_found (d : ComboBox) (h : acceptInputIndex d = -1) :
    (acceptInputEmitting d).currentIndex = d.currentIndex
      ∧ (acceptInputEmitting d).emitted = d.emitted ++ [ComboSignal.accepted] := by
  simp only [acceptInputEmitting, h]
  exact ⟨rfl, rfl⟩

theorem accepting_acceptInputEmitting (d : ComboBox) :
    accepting (acceptInputEmitting d) = true := rfl

theorem modelUpdated_while_accepting (s : ComboBox) (h : accepting s = true) :
    modelUpdated s = s := by
  unfold accepting at h
  unfold modelUpdated
  cases he : s.extra with
  | none =>
    rw [he] at h
    exact absurd h (by decide)
  | some e =>
    rw [he] at h
    have ha : e.accepting = true := h
    simp [ha]

/-- While the accepting flag is set, `updateCurrentText` (which a `dataChanged`
of the model runs directly) leaves the extra data, and with it the edit text,
as they are. -/
theorem updateCurrentText_while_accepting (s : ComboBox) (h : accepting s = true) :
    (updateCurrentText s).extra = s.extra ∧ (updateCurrentText s).editText = s.editText := by
  have e1 : ∀ (x : ComboBox) (t : QString),
      (if x.currentText ≠ t then
          ({ x with currentText := t } : ComboBox).emit .currentTextChanged
        else x).extra = x.extra := by
    intro x t
    split_ifs <;> rfl
  have e2 : ∀ (x : ComboBox) (t : QString),
      (if !x.hasDisplayText ∧ x.displayText ≠ t then
          ({ x with displayText := t } : ComboBox).emit .displayTextChanged
        else x).extra = x.extra := by
    intro x t
    split_ifs <;> rfl
  have e3 : ∀ x : ComboBox, accepting x = true →
      (match x.extra with
        | none => x.setEditText x.currentText
        | some e => if !e.accepting then x.setEditText x.currentText else x) = x := by
    intro x hx
    unfold accepting at hx
    cases he : x.extra with
    | none =>
      rw [he] at hx
      exact absurd hx (by decide)
    | some e =>
      rw [he] at hx
      have ha : e.accepting = true := hx
      simp [ha]
  have hacc : ∀ x : ComboBox, x.extra = s.extra → accepting x = true := by
    intro x hx
    unfold accepting at h ⊢
    rw [hx]
    exact h
  have hextra : (updateCurrentText s).extra = s.extra := by
    unfold updateCurrentText
    simp only []
    rw [e3 _ (hacc _ ((e2 _ _).trans (e1 _ _)))]
    exact (e2 _ _).trans (e1 _ _)
  exact ⟨hextra, by unfold ComboBox.editText; rw [hextra]⟩

theorem acceptInput_found (d : ComboBox) (handler : ComboBox → ComboBox)
    (h : acceptInputIndex d ≠ -1) :
    acceptInput d handler = setAccepting (handler (acceptInputEmitting d)) false := by
  simp only [acceptInput, if_neg h]

theorem acceptInput_not_found (d : ComboBox) (handler : ComboBox → ComboBox)
    (h : acceptInputIndex d = -1) :
    acceptInput d handler
      = setAccepting ((allocExtra (handler (acceptInputEmitting d))).setCurrentIndex
          (acceptInputIndex (handler (acceptInputEmitting d)))) false := by
  simp only [acceptInput, if_pos h]
  rfl

theorem accepting_acceptInput (d : ComboBox) (handler : ComboBox → ComboBox) :
    accepting (acceptInput d handler) = false := rfl

/-- C24: on input-confirm, when some row text equals the edit text ignoring case
(`compare` with `Qt::CaseInsensitive` giving 0, under the case folding of the
library, whatever it is) and the handler of `accepted` changes nothing, the
current index afterwards is the first such row.  Whatever the rows: while
`accepted` is emitted the accepting flag is set, so a model update arriving
then leaves the control as it is (the slot `modelUpdated` does not run the text
resynchronization), and `updateCurrentText`, which a `dataChanged` of the model
runs directly, leaves the edit text alone; the accepting flag is false when
`acceptInput` returns, with any handler. -/
theorem acceptInput_selects_first_match (d : ComboBox) (handler : ComboBox → ComboBox)
    (hex : ∃ j, 0 ≤ j ∧ j < d.count
      ∧ QString.compareEq d.foldCase (d.textAt j) d.editText false = true) :
    (0 ≤ (acceptInput d id).currentIndex ∧ (acceptInput d id).currentIndex < d.count
        ∧ QString.compareEq d.foldCase (d.textAt (acceptInput d id).currentIndex) d.editText
            false = true
        ∧ ∀ j, 0 ≤ j → j < (acceptInput d id).currentIndex →
            QString.compareEq d.foldCase (d.textAt j) d.editText false = false)
      ∧ accepting (acceptInputEmitting d) = true
      ∧ (∀ s, accepting s = true → modelUpdated s = s)
      ∧ (∀ s, accepting s = true → (updateCurrentText s).editText = s.editText)
      ∧ acceptInput d modelUpdated = acceptInput d id
      ∧ accepting (acceptInput d handler) = false := by
  have hidx := acceptInputIndex_eq d
  have hfound : 0 ≤ acceptInputIndex d ∧ acceptInputIndex d < d.count
      ∧ QString.compareEq d.foldCase (d.textAt (acceptInputIndex d)) d.editText false = true
      ∧ ∀ j, 0 ≤ j → j < acceptInputIndex d →
          QString.compareEq d.foldCase (d.textAt j) d.editText false = false := by
    rw [hidx]
    rcases find_fixedString d d.editText with ⟨_, hno⟩ | h
    · obtain ⟨j, h0, h1, h2⟩ := hex
      rw [hno j h0 h1] at h2
      exact absurd h2 (by decide)
    · exact h
  have hne : acceptInputIndex d ≠ -1 := by omega
  have hcur : (acceptInput d id).currentIndex = acceptInputIndex d := by
    rw [acceptInput_found d id hne]
    exact acceptInputEmitting_currentIndex d (by omega)
  refine ⟨by rw [hcur]; exact hfound, rfl, modelUpdated_while_accepting,
    fun s hs => (updateCurrentText_while_accepting s hs).2, ?_, rfl⟩
  rw [acceptInput_found d _ hne, acceptInput_found d _ hne,
    modelUpdated_while_accepting _ (accepting_acceptInputEmitting d)]
  rfl

theorem acceptInput_selects_first_match_witness :
    (∃ j, 0 ≤ j ∧ j < (editableBox.setEditText "beta").count
        ∧ QString.compareEq (editableBox.setEditText "beta").foldCase
            ((editableBox.setEditText "beta").textAt j)
            (editableBox.setEditText "beta").editText false = true)
      ∧ (acceptInput (editableBox.setEditText "beta") id).currentIndex = 2
      ∧ (0 ≤ (acceptInput (editableBox.setEditText "beta") id).currentIndex
        ∧ (acceptInput (editableBox.setEditText "beta") id).currentIndex
            < (editableBox.setEditText "beta").count
        ∧ QString.compareEq (editableBox.setEditText "beta").foldCase
            ((editableBox.setEditText "beta").textAt
              (acceptInput (editableBox.setEditText "beta") id).currentIndex)
            (editableBox.setEditText "beta").editText false = true
        ∧ ∀ j, 0 ≤ j → j < (acceptInput (editableBox.setEditText "beta") id).currentIndex →
            QString.compareEq (editableBox.setEditText "beta").foldCase
              ((editableBox.setEditText "beta").textAt j)
              (editableBox.setEditText "beta").editText false = false) :=
  ⟨⟨2, by decide⟩, by decide,
   (acceptInput_selects_first_match (editableBox.setEditText "beta") id
      ⟨2, by decide⟩).1⟩

/-- C29: on input-confirm, when no row text equals the edit text ignoring case
(`compare` with `Qt::CaseInsensitive`, under the case folding of the library,
whatever it is) and the handler of `accepted` leaves the row count, the row
texts and the edit text as they were (and the library is the same after it), the
current index afterwards is -1; `currentIndexChanged` is
emitted (after `accepted`, followed by text changes only) when the index was not
-1 before the second lookup, and nothing is emitted after the handler when it
was.  Up to the emission of `accepted` the index is the one held before. -/
theorem acceptInput_clears_when_no_match (d : ComboBox) (handler : ComboBox → ComboBox)
    (hnone : ∀ j, 0 ≤ j → j < d.count →
      QString.compareEq d.foldCase (d.textAt j) d.editText false = false)
    (hc : (handler (acceptInputEmitting d)).count = d.count)
    (ht : ∀ j, (handler (acceptInputEmitting d)).textAt j = d.textAt j)
    (he : (handler (acceptInputEmitting d)).editText = d.editText)
    (hf : (handler (acceptInputEmitting d)).foldCase = d.foldCase) :
    (acceptInput d handler).currentIndex = -1
      ∧ (acceptInputEmitting d).currentIndex = d.currentIndex
      ∧ (acceptInputEmitting d).emitted = d.emitted ++ [ComboSignal.accepted]
      ∧ ((handler (acceptInputEmitting d)).currentIndex ≠ -1 →
          ∃ l, (∀ s ∈ l, ComboSignal.isTextChange s = true)
            ∧ (acceptInput d handler).emitted
                = (handler (acceptInputEmitting d)).emitted
                    ++ ComboSignal.currentIndexChanged :: l)
      ∧ ((handler (acceptInputEmitting d)).currentIndex = -1 →
          (acceptInput d handler).emitted = (handler (acceptInputEmitting d)).emitted) := by
  have hfind : d.find d.editText Qt.MatchFixedString = -1 := by
    rcases find_fixedString d d.editText with ⟨h, _⟩ | ⟨h0, h1, h2, _⟩
    · exact h
    · rw [hnone _ h0 h1] at h2
      exact absurd h2 (by decide)
  have hidx : acceptInputIndex d = -1 := by rw [acceptInputIndex_eq, hfind]
  have hidx2 : acceptInputIndex (handler (acceptInputEmitting d)) = -1 := by
    rw [acceptInputIndex_eq, he, find_fixedString_congr d _ _ hc ht hf, hfind]
  have hem := acceptInputEmitting_not_found d hidx
  rw [acceptInput_not_found d handler hidx, hidx2]
  refine ⟨?_, hem.1, hem.2, fun hne => ?_, fun heq => ?_⟩
  · show ((allocExtra (handler (acceptInputEmitting d))).setCurrentIndex (-1)).currentIndex = -1
    exact publicSetCurrentIndex_currentIndex _ _
  · obtain ⟨l, tl, el⟩ := publicSetCurrentIndex_trace
      (allocExtra (handler (acceptInputEmitting d))) (-1) hne
    exact ⟨l, tl, el⟩
  · have hsame := publicSetCurrentIndex_same (allocExtra (handler (acceptInputEmitting d)))
    have hcur : (allocExtra (handler (acceptInputEmitting d))).currentIndex = -1 := heq
    rw [hcur] at hsame
    rw [hsame]
    rfl

theorem acceptInput_clears_when_no_match_witness :
    ((∀ j, 0 ≤ j → j < (editableBox.setEditText "zzz").count →
          QString.compareEq (editableBox.setEditText "zzz").foldCase
            ((editableBox.setEditText "zzz").textAt j)
            (editableBox.setEditText "zzz").editText false = false)
        ∧ (editableBox.setEditText "zzz").currentIndex = 0)
      ∧ (acceptInput (editableBox.setEditText "zzz") id).currentIndex = -1 :=
  ⟨⟨by
      intro j h0 h1
      have hcount : (editableBox.setEditText "zzz").count = 3 := by decide
      rw [hcount] at h1
      have hj : j = 0 ∨ j = 1 ∨ j = 2 := by omega
      rcases hj with hj | hj | hj <;> subst hj <;> decide,
    by decide⟩,
   (acceptInput_clears_when_no_match (editableBox.setEditText "zzz") id
      (by
        intro j h0 h1
        have hcount : (editableBox.setEditText "zzz").count = 3 := by decide
        rw [hcount] at h1
        have hj : j = 0 ∨ j = 1 ∨ j = 2 := by omega
        rcases hj with hj | hj | hj <;> subst hj <;> decide)
      rfl (fun _ => rfl) (by decide) rfl).1⟩

end ComboBoxPrivate

end QtCellink

namespace QtCellink

/-! ## Completing construction -/

namespace ComboBoxPrivate

open ComboBox

theorem setEditText_hasCurrentIndex (d : ComboBox) (t : QString) :
    (d.setEditText t).hasCurrentIndex = d.hasCurrentIndex := by
  unfold setEditText; split <;> rfl

theorem updateCurrentText_hasCurrentIndex (d : ComboBox) :
    (updateCurrentText d).hasCurrentIndex = d.hasCurrentIndex :=
  updateCurrentText_frame (fun x => x.hasCurrentIndex) (fun _ _ => rfl)
    setEditText_hasCurrentIndex (fun _ _ => rfl) (fun _ _ => rfl) d

theorem modelUpdated_cases (d : ComboBox) :
    modelUpdated d = updateCurrentText d ∨ modelUpdated d = d := by
  unfold modelUpdated
  split
  · exact Or.inl rfl
  · split_ifs
    · exact Or.inl rfl
    · exact Or.inr rfl

theorem countChanged_of_rows (d : ComboBox) (h : d.count ≠ 0) :
    countChanged d = d.emit .countChanged := by
  simp [countChanged, h]

/-- What completing the owned delegate model does: the indices and the flag
`hasCurrentIndex` stay, the model exposes its rows, and the signals emitted are
text changes and `countChanged` only. -/
theorem completeOwnedModel_facts (d : ComboBox) :
    (completeOwnedModel d).currentIndex = d.currentIndex
      ∧ (completeOwnedModel d).hasCurrentIndex = d.hasCurrentIndex
      ∧ (∃ pre, (∀ s ∈ pre, ComboSignal.isTextChange s = true ∨ s = ComboSignal.countChanged)
          ∧ (completeOwnedModel d).emitted = d.emitted ++ pre)
      ∧ (∀ m, d.delegateModel = some m → (completeOwnedModel d).count = m.rows.length)
      ∧ (d.delegateModel = none → (completeOwnedModel d).count = 0) := by
  unfold completeOwnedModel
  cases hd : d.delegateModel with
  | none =>
    refine ⟨rfl, rfl, ⟨[], by simp, by simp⟩, fun m hm => by simp at hm, fun _ => ?_⟩
    simp [ComboBox.count, hd]
  | some m =>
    simp only []
    cases hcompl : m.complete with
    | true =>
      rw [if_pos rfl]
      refine ⟨rfl, rfl, ⟨[], by simp, by simp⟩, fun m2 hm2 => ?_, fun h => by simp at h⟩
      simp only [Option.some.injEq] at hm2
      subst hm2
      simp [ComboBox.count, hd, InstanceModel.count, hcompl]
    | false =>
      rw [if_neg Bool.false_ne_true]
      have hcount1 : ({ d with delegateModel := some { m with complete := true } }
          : ComboBox).count = m.rows.length := by
        simp [ComboBox.count, InstanceModel.count]
      cases hrows : m.rows.isEmpty with
      | true =>
        rw [if_pos rfl]
        refine ⟨rfl, rfl, ⟨[], by simp, by simp⟩, fun m2 hm2 => ?_, fun h => by simp at h⟩
        simp only [Option.some.injEq] at hm2
        subst hm2
        exact hcount1
      | false =>
        rw [if_neg Bool.false_ne_true]
        have hne : m.rows ≠ [] := by
          intro h
          rw [h] at hrows
          simp at hrows
        have hlen : (m.rows.length : Int) ≠ 0 := by
          have := List.length_pos.2 hne
          omega
        generalize hx : ({ d with delegateModel := some { m with complete := true } }
          : ComboBox) = x at hcount1
        have hxi : x.currentIndex = d.currentIndex := by rw [← hx]
        have hxf : x.hasCurrentIndex = d.hasCurrentIndex := by rw [← hx]
        have hxe : x.emitted = d.emitted := by rw [← hx]
        have hmu : (modelUpdated x).count = m.rows.length
            ∧ (modelUpdated x).currentIndex = d.currentIndex
            ∧ (modelUpdated x).hasCurrentIndex = d.hasCurrentIndex
            ∧ ∃ l, (∀ s ∈ l, ComboSignal.isTextChange s = true)
                ∧ (modelUpdated x).emitted = d.emitted ++ l := by
          rcases modelUpdated_cases x with h | h
          · rw [h]
            refine ⟨by rw [count_congr _ _ (updateCurrentText_delegateModel x), hcount1],
              by rw [updateCurrentText_currentIndex, hxi],
              by rw [updateCurrentText_hasCurrentIndex, hxf], ?_⟩
            obtain ⟨l, tl, el⟩ := updateCurrentText_emits_text_only x
            exact ⟨l, tl, by rw [el, hxe]⟩
          · rw [h]
            exact ⟨hcount1, hxi, hxf, [], by simp, by simp [hxe]⟩
        obtain ⟨c1, c2, c3, l, tl, el⟩ := hmu
        rw [countChanged_of_rows _ (by rw [c1]; exact hlen)]
        refine ⟨c2, c3, ⟨l ++ [ComboSignal.countChanged], ?_, ?_⟩, fun m2 hm2 => ?_,
          fun h => by simp at h⟩
        · intro s hs
          rcases List.mem_append.1 hs with hs | hs
          · exact Or.inl (tl s hs)
          · right
            simpa using hs
        · show (modelUpdated x).emitted ++ [ComboSignal.countChanged] = _
          rw [el]
          simp
        · simp only [Option.some.injEq] at hm2
          subst hm2
          exact c1

end ComboBoxPrivate

namespace ComboBox

open ComboBoxPrivate

theorem activations_of_notifications (pre : List ComboSignal)
    (h : ∀ s ∈ pre, ComboSignal.isTextChange s = true ∨ s = ComboSignal.countChanged) :
    activations pre = [] := by
  induction pre with
  | nil => rfl
  | cons s l ih =>
    have hs := h s (List.mem_cons_self _ _)
    have hl := ih (fun t ht => h t (List.mem_cons_of_mem _ ht))
    cases s <;> simp_all [activations, ComboSignal.isTextChange]

/-- The state in which `componentComplete` tests `count() > 0`: the control is
marked complete and an owned delegate model has been completed. -/
theorem componentComplete_eq (d : ComboBox) :
    d.componentComplete_
      = if (if d.ownModel then completeOwnedModel { d with componentComplete := true }
            else { d with componentComplete := true }).count > 0 then
          if !(if d.ownModel then completeOwnedModel { d with componentComplete := true }
                else { d with componentComplete := true }).hasCurrentIndex
              ∧ (if d.ownModel then completeOwnedModel { d with componentComplete := true }
                  else { d with componentComplete := true }).currentIndex = -1 then
            (if d.ownModel then completeOwnedModel { d with componentComplete := true }
              else { d with componentComplete := true }).setCurrentIndex 0
          else updateCurrentText
            (if d.ownModel then completeOwnedModel { d with componentComplete := true }
              else { d with componentComplete := true })
        else (if d.ownModel then completeOwnedModel { d with componentComplete := true }
              else { d with componentComplete := true }) := rfl

/-- C30: completing construction with a model that has rows once construction is
complete selects the first row by default: when `setCurrentIndex` was never
called (the flag `hasCurrentIndex` is unset) and the current index is -1, the
current index becomes 0 and `currentIndexChanged` is emitted, followed by text
changes only and preceded only by what completing an owned delegate model
reports (text changes and `countChanged`; nothing when the control does not own
the model), so no `activated` is emitted; when `setCurrentIndex` was called
before, with any value, or the model has no rows, the current index is left as
it was.  The count after completion is that of the rows of the model: of an
owned model, all its rows; of a model the control does not own, the rows it
exposed before. -/
theorem componentComplete_selects_first_row (d : ComboBox) :
    (0 < d.componentComplete_.count → d.hasCurrentIndex = false → d.currentIndex = -1 →
        d.componentComplete_.currentIndex = 0
          ∧ (∃ pre l,
              (∀ s ∈ pre, ComboSignal.isTextChange s = true ∨ s = ComboSignal.countChanged)
              ∧ (∀ s ∈ l, ComboSignal.isTextChange s = true)
              ∧ (d.ownModel = false → pre = [])
              ∧ d.componentComplete_.emitted
                  = d.emitted ++ pre ++ ComboSignal.currentIndexChanged :: l)
          ∧ activations d.componentComplete_.emitted = activations d.emitted)
      ∧ (d.hasCurrentIndex = true → d.componentComplete_.currentIndex = d.currentIndex)
      ∧ (d.componentComplete_.count = 0 → d.componentComplete_.currentIndex = d.currentIndex)
      ∧ (d.ownModel = false → d.componentComplete_.count = d.count)
      ∧ (∀ m, d.ownModel = true → d.delegateModel = some m →
          d.componentComplete_.count = m.rows.length) := by
  have key : ∀ d2 : ComboBox, d2.currentIndex = d.currentIndex →
      d2.hasCurrentIndex = d.hasCurrentIndex →
      (∃ pre, (∀ s ∈ pre, ComboSignal.isTextChange s = true ∨ s = ComboSignal.countChanged)
          ∧ (d.ownModel = false → pre = []) ∧ d2.emitted = d.emitted ++ pre) →
      (d.ownModel = false → d2.count = d.count) →
      (∀ m, d.ownModel = true → d.delegateModel = some m → d2.count = m.rows.length) →
      d.componentComplete_
        = (if d2.count > 0 then
            if !d2.hasCurrentIndex ∧ d2.currentIndex = -1 then d2.setCurrentIndex 0
            else updateCurrentText d2
          else d2) →
      (0 < d.componentComplete_.count → d.hasCurrentIndex = false → d.currentIndex = -1 →
        d.componentComplete_.currentIndex = 0
          ∧ (∃ pre l,
              (∀ s ∈ pre, ComboSignal.isTextChange s = true ∨ s = ComboSignal.countChanged)
              ∧ (∀ s ∈ l, ComboSignal.isTextChange s = true)
              ∧ (d.ownModel = false → pre = [])
              ∧ d.componentComplete_.emitted
                  = d.emitted ++ pre ++ ComboSignal.currentIndexChanged :: l)
          ∧ activations d.componentComplete_.emitted = activations d.emitted)
      ∧ (d.hasCurrentIndex = true → d.componentComplete_.currentIndex = d.currentIndex)
      ∧ (d.componentComplete_.count = 0 → d.componentComplete_.currentIndex = d.currentIndex)
      ∧ (d.ownModel = false → d.componentComplete_.count = d.count)
      ∧ (∀ m, d.ownModel = true → d.delegateModel = some m →
          d.componentComplete_.count = m.rows.length) := by
    intro d2 hi2 hf2 hpre hcn hco heq
    have hcount : d.componentComplete_.count = d2.count := by
      rw [heq]
      apply count_congr
      split_ifs <;> simp
    rw [hcount]
    refine ⟨fun h0 hf hi => ?_, fun hf => ?_, fun h0 => ?_, hcn, hco⟩
    · have hcond : (!d2.hasCurrentIndex) = true ∧ d2.currentIndex = -1 := by
        rw [hf2, hi2, hf, hi]; exact ⟨rfl, rfl⟩
      rw [heq, if_pos h0, if_pos hcond]
      obtain ⟨pre, tpre, hown, epre⟩ := hpre
      obtain ⟨l, tl, el⟩ := publicSetCurrentIndex_trace d2 0 (by rw [hi2, hi]; decide)
      refine ⟨publicSetCurrentIndex_currentIndex _ _, ⟨pre, l, tpre, tl, hown, ?_⟩, ?_⟩
      · rw [el, epre]
      · rw [publicSetCurrentIndex_activations, epre, activations_append,
          activations_of_notifications pre tpre]
        simp
    · have hcond : ¬ ((!d2.hasCurrentIndex) = true ∧ d2.currentIndex = -1) := by
        rw [hf2, hf]; simp
      rw [heq, if_neg hcond]
      split_ifs
      · rw [updateCurrentText_currentIndex, hi2]
      · exact hi2
    · rw [heq, if_neg (by rw [h0]; decide)]
      exact hi2
  rcases Bool.eq_false_or_eq_true d.ownModel with hown | hown
  swap
  · refine key { d with componentComplete := true } rfl rfl ⟨[], by simp, fun _ => rfl, by simp⟩
      (fun _ => rfl) (fun m h => by rw [hown] at h; exact absurd h (by decide)) ?_
    rw [componentComplete_eq, hown]
    rfl
  · obtain ⟨f1, f2, ⟨pre, tpre, epre⟩, f4, f5⟩ :=
      completeOwnedModel_facts { d with componentComplete := true }
    refine key (completeOwnedModel { d with componentComplete := true }) f1 f2
      ⟨pre, tpre, fun h => by rw [hown] at h; exact absurd h (by decide), epre⟩
      (fun h => by rw [hown] at h; exact absurd h (by decide))
      (fun m _ hm => f4 m hm) ?_
    rw [componentComplete_eq, hown]
    rfl

/-- Witness of C30: the control under construction over Apple, Banana, Apricot
given as a model of its own, and as plain rows over which it builds its delegate
model; and the former after a call of `setCurrentIndex(-1)`. -/
theorem componentComplete_selects_first_row_witness :
    (0 < incompleteBox.componentComplete_.count ∧ incompleteBox.hasCurrentIndex = false
        ∧ incompleteBox.currentIndex = -1)
      ∧ incompleteBox.componentComplete_.currentIndex = 0
      ∧ (ownedIncompleteBox.count = 0 ∧ 0 < ownedIncompleteBox.componentComplete_.count
        ∧ ownedIncompleteBox.hasCurrentIndex = false ∧ ownedIncompleteBox.currentIndex = -1)
      ∧ ownedIncompleteBox.componentComplete_.currentIndex = 0
      ∧ ownedIncompleteBox.componentComplete_.emitted
          = ownedIncompleteBox.emitted
              ++ [.countChanged, .currentIndexChanged, .currentTextChanged,
                  .displayTextChanged, .editTextChanged]
      ∧ (incompleteBox.setCurrentIndex (-1)).hasCurrentIndex = true
      ∧ (incompleteBox.setCurrentIndex (-1)).componentComplete_.currentIndex
          = (incompleteBox.setCurrentIndex (-1)).currentIndex :=
  ⟨by decide,
   ((componentComplete_selects_first_row incompleteBox).1 (by decide) (by decide)
      (by decide)).1,
   by decide,
   ((componentComplete_selects_first_row ownedIncompleteBox).1 (by decide) (by decide)
      (by decide)).1,
   by decide,
   by decide,
   (componentComplete_selects_first_row (incompleteBox.setCurrentIndex (-1))).2.1
      (by decide)⟩

end ComboBox

end QtCellink
